import Mathlib

/-!
Library Management System: the in-memory book catalog

Shallow embedding of the `Book` and `Library` classes of the two source variants,
`src/LMS.cpp` (namespace `LMS`) and `src/library_management.cpp`
(namespace `LibraryManagement`).

Modelling conventions

* A `char[N]` member holding a NUL-terminated string is modelled by the string it holds
  (`CStr`, the characters before the terminator).  The bytes after the terminator are not
  observable through any getter, `strcmp`, `strlen` or `printf`.
* `strncpy(dst, src, N - 1); dst[N - 1] = 0` stores the first `N - 1` characters of `src`.
* A `const char*` parameter that the code tests against `nullptr` is an `Option CStr`
  (`none` is the null pointer); one that the code dereferences unconditionally is a `CStr`.
* `int` members are `Int`.  `count` only moves by one under the guard `count < capacity`
  and `capacity` is an `int`, so no arithmetic here can leave the range of `int`.
* `Book* books = new Book[capacity]` is a `List Book` of length `capacity`; reading outside
  the list yields a default-constructed `Book`, writing outside is a no-op (neither happens
  in a well-formed state).
* A method with a `bool` result that mutates its object returns the pair
  (result, new object); a `const` method returns only its result.
-/

/-- Contents of a NUL-terminated C string. -/
abbrev CStr := List Char

def MAX_ID_LENGTH : Nat := 20
def MAX_ISBN_LENGTH : Nat := 20
def MAX_TITLE_LENGTH : Nat := 100
def MAX_AUTHOR_LENGTH : Nat := 50
def MAX_EDITION_LENGTH : Nat := 20
def MAX_PUBLICATION_LENGTH : Nat := 50
def MAX_CATEGORY_LENGTH : Nat := 20
def DEFAULT_LIBRARY_CAPACITY : Int := 100

/-- The C library `strlen`. -/
def strlen (s : CStr) : Nat := s.length

/-- The C library `strcmp`: zero when the strings are equal, otherwise negative or positive
according to the first pair of differing characters (the C standard fixes only the sign;
a string that ends first is the smaller one). -/
def strcmp : CStr → CStr → Int
  | [], [] => 0
  | [], _ :: _ => -1
  | _ :: _, [] => 1
  | a :: s, b :: t => if a = b then strcmp s t else if a.toNat < b.toNat then -1 else 1

/-- The idiom `strncpy(dst, src, n); dst[n] = 0`: the string left in `dst`. -/
def strncpy (src : CStr) (n : Nat) : CStr := src.take n

/-- The C library `isalnum` in the default "C" locale. -/
def isalnum (c : Char) : Bool := c.isAlphanum

/-- The C library `tolower` in the default "C" locale. -/
def tolower (c : Char) : Char := c.toLower

/-- The loop `for (i = 0; i < strlen(s); ++i) if (!isalnum(s[i])) return false;`. -/
def allAlnum : CStr → Bool
  | [] => true
  | c :: s => if !isalnum c then false else allAlnum s

/-- The seven text members of `class Book` (in `library_management.cpp` three of them,
`id`, `title` and `category`, are inherited from `LibraryItem`). -/
structure Book where
  id : CStr
  isbn : CStr
  title : CStr
  author : CStr
  edition : CStr
  publication : CStr
  category : CStr
deriving DecidableEq, Repr

/-- The constructor `Book()`: every member is the empty string. -/
def Book.new : Book := ⟨[], [], [], [], [], [], []⟩

instance : Inhabited Book := ⟨Book.new⟩

def Book.getId (b : Book) : CStr := b.id
def Book.getIsbn (b : Book) : CStr := b.isbn
def Book.getTitle (b : Book) : CStr := b.title
def Book.getAuthor (b : Book) : CStr := b.author
def Book.getEdition (b : Book) : CStr := b.edition
def Book.getPublication (b : Book) : CStr := b.publication
def Book.getCategory (b : Book) : CStr := b.category

/-- The members of `class Library`. -/
structure Library where
  books : List Book
  capacity : Int
  count : Int
deriving DecidableEq, Repr

/-- The constructor `Library(int initialCapacity)` (identical in both files). -/
def Library.construct (initialCapacity : Int) : Library :=
  let capacity := if initialCapacity > 0 then initialCapacity else DEFAULT_LIBRARY_CAPACITY
  { books := List.replicate capacity.toNat Book.new, capacity := capacity, count := 0 }

/-- The constructor called without argument: `Library()`. -/
def Library.constructDefault : Library := Library.construct DEFAULT_LIBRARY_CAPACITY

/-- The method `getCount()` (identical in both files). -/
def Library.getCount (L : Library) : Int := L.count

/-- The records the catalog holds: `books[0]`, ..., `books[count - 1]`. -/
def Library.stored (L : Library) : List Book := L.books.take L.count.toNat

/-- The class invariant of `Library`: `count` lies in `[0, capacity]` and the backing array
has `capacity` elements. -/
@[reducible] def Library.WF (L : Library) : Prop :=
  0 ≤ L.count ∧ L.count ≤ L.capacity ∧ (L.books.length : Int) = L.capacity

/-- The scan `for (int i = 0; i < count; i++) if (strcmp(books[i].getId(), id) == 0) return i;`
followed by `return -1;`, started at index `i`.  The first argument bounds the number of
iterations; `count` iterations always suffice. -/
def findLoop (books : List Book) (count : Int) (id : CStr) : Nat → Nat → Int
  | 0, _ => -1
  | fuel + 1, i =>
    if (i : Int) < count then
      if strcmp (books.getD i default).getId id = 0 then (i : Int)
      else findLoop books count id fuel (i + 1)
    else -1

/-- The same scan with `return true;` in the body and `return false;` after it. -/
def dupLoop (books : List Book) (count : Int) (id : CStr) : Nat → Nat → Bool
  | 0, _ => false
  | fuel + 1, i =>
    if (i : Int) < count then
      if strcmp (books.getD i default).getId id = 0 then true
      else dupLoop books count id fuel (i + 1)
    else false

/-- The loop `for (int i = index; i < count - 1; i++) books[i] = books[i + 1];` of
`deleteBook`, started at index `i`. -/
def shiftLoop (books : List Book) (count : Int) : Nat → Nat → List Book
  | 0, _ => books
  | fuel + 1, i =>
    if (i : Int) < count - 1 then
      shiftLoop (books.set i (books.getD (i + 1) default)) count fuel (i + 1)
    else books

/-- What the display methods write to standard output, line group by line group. -/
inductive Out
  | noBooks          -- "No books available in the library."
  | invalidCategory  -- "Invalid category."
  | noneInCategory   -- "No books found in this category."
  | header           -- displayBookHeader()
  | separator        -- displayTableSeparator()
  | row (b : Book)      -- b.displayInTable()
  | details (b : Book)  -- b.displayDetails()
deriving DecidableEq, Repr

/-- The loop `for (i < count) { books[i].displayInTable(); displayTableSeparator(); }`. -/
def rowsLoop (books : List Book) (count : Int) : Nat → Nat → List Out
  | 0, _ => []
  | fuel + 1, i =>
    if (i : Int) < count then
      Out.row (books.getD i default) :: Out.separator :: rowsLoop books count fuel (i + 1)
    else []

/-- The loop of `displayBooksByCategory`: rows of the records whose category compares equal
to `category`, and the final value of the flag `found`. -/
def categoryLoop (books : List Book) (count : Int) (category : CStr) :
    Nat → Nat → List Out × Bool
  | 0, _ => ([], false)
  | fuel + 1, i =>
    if (i : Int) < count then
      let rest := categoryLoop books count category fuel (i + 1)
      if strcmp (books.getD i default).getCategory category = 0 then
        (Out.row (books.getD i default) :: Out.separator :: rest.1, true)
      else rest
    else ([], false)

/-! ## The variant `src/LMS.cpp` -/

namespace LMS

/-- `Book::setId` (LMS.cpp:56): rejects an absent, empty or non-alphanumeric value; stores
the first `MAX_ID_LENGTH - 1` characters of an accepted one. -/
def setId (b : Book) (newId : Option CStr) : Bool × Book :=
  match newId with
  | none => (false, b)
  | some s =>
    if strlen s = 0 then (false, b)
    else if !allAlnum s then (false, b)
    else (true, { b with id := strncpy s (MAX_ID_LENGTH - 1) })

/-- `Book::setIsbn` (LMS.cpp:73). -/
def setIsbn (b : Book) (newIsbn : Option CStr) : Bool × Book :=
  match newIsbn with
  | none => (false, b)
  | some s =>
    if strlen s = 0 then (false, b)
    else (true, { b with isbn := strncpy s (MAX_ISBN_LENGTH - 1) })

/-- `Book::setTitle` (LMS.cpp:83). -/
def setTitle (b : Book) (newTitle : Option CStr) : Bool × Book :=
  match newTitle with
  | none => (false, b)
  | some s =>
    if strlen s = 0 then (false, b)
    else (true, { b with title := strncpy s (MAX_TITLE_LENGTH - 1) })

/-- `Book::setAuthor` (LMS.cpp:93). -/
def setAuthor (b : Book) (newAuthor : Option CStr) : Bool × Book :=
  match newAuthor with
  | none => (false, b)
  | some s =>
    if strlen s = 0 then (false, b)
    else (true, { b with author := strncpy s (MAX_AUTHOR_LENGTH - 1) })

/-- `Book::setEdition` (LMS.cpp:103). -/
def setEdition (b : Book) (newEdition : Option CStr) : Bool × Book :=
  match newEdition with
  | none => (false, b)
  | some s =>
    if strlen s = 0 then (false, b)
    else (true, { b with edition := strncpy s (MAX_EDITION_LENGTH - 1) })

/-- `Book::setPublication` (LMS.cpp:113). -/
def setPublication (b : Book) (newPublication : Option CStr) : Bool × Book :=
  match newPublication with
  | none => (false, b)
  | some s =>
    if strlen s = 0 then (false, b)
    else (true, { b with publication := strncpy s (MAX_PUBLICATION_LENGTH - 1) })

/-- `Book::setCategory` (LMS.cpp:123): the first 19 characters are lower-cased and compared
with the two category words; the canonical spelling is stored. -/
def setCategory (b : Book) (newCategory : Option CStr) : Bool × Book :=
  match newCategory with
  | none => (false, b)
  | some s =>
    let lowerCategory := (strncpy s (MAX_CATEGORY_LENGTH - 1)).map tolower
    if strcmp lowerCategory "fiction".toList = 0 then
      (true, { b with category := "Fiction".toList })
    else if strcmp lowerCategory "non-fiction".toList = 0 then
      (true, { b with category := "Non-fiction".toList })
    else (false, b)

/-- `Library::isIdDuplicate` (LMS.cpp:192). -/
def isIdDuplicate (L : Library) (id : CStr) : Bool :=
  dupLoop L.books L.count id L.count.toNat 0

/-- `Library::addBook` (LMS.cpp:202). -/
def addBook (L : Library) (book : Book) : Bool × Library :=
  if L.count ≥ L.capacity then (false, L)
  else if strlen book.getId = 0 || isIdDuplicate L book.getId then (false, L)
  else (true, { L with books := L.books.set L.count.toNat book, count := L.count + 1 })

/-- `Library::findBookById` (LMS.cpp:219). -/
def findBookById (L : Library) (id : CStr) : Int :=
  findLoop L.books L.count id L.count.toNat 0

/-- `Library::editBook` (LMS.cpp:229). -/
def editBook (L : Library) (id : CStr) (updatedBook : Book) : Bool × Library :=
  let index := findBookById L id
  if index ≠ -1 then
    let originalId := strncpy (L.books.getD index.toNat default).getId (MAX_ID_LENGTH - 1)
    let assigned := L.books.set index.toNat updatedBook
    let restored := (setId (assigned.getD index.toNat default) (some originalId)).2
    (true, { L with books := assigned.set index.toNat restored })
  else (false, L)

/-- `Library::deleteBook` (LMS.cpp:249). -/
def deleteBook (L : Library) (id : CStr) : Bool × Library :=
  let index := findBookById L id
  if index ≠ -1 then
    (true, { L with books := shiftLoop L.books L.count L.count.toNat index.toNat,
                    count := L.count - 1 })
  else (false, L)

/-- `Library::getBookById` (LMS.cpp:263): the result and the value left in `bookOut`. -/
def getBookById (L : Library) (id : CStr) (bookOut : Book) : Bool × Book :=
  let index := findBookById L id
  if index ≠ -1 then (true, L.books.getD index.toNat default)
  else (false, bookOut)

/-- `Library::displayAllBooks` (LMS.cpp:273). -/
def displayAllBooks (L : Library) : List Out :=
  if L.count = 0 then [Out.noBooks]
  else Out.header :: rowsLoop L.books L.count L.count.toNat 0

/-- `Library::displayBooksByCategory` (LMS.cpp:287). -/
def displayBooksByCategory (L : Library) (category : CStr) : List Out :=
  let lowerCategory := (strncpy category (MAX_CATEGORY_LENGTH - 1)).map tolower
  if strcmp lowerCategory "fiction".toList = 0 then
    let r := categoryLoop L.books L.count "Fiction".toList L.count.toNat 0
    Out.header :: r.1 ++ (if !r.2 then [Out.noneInCategory] else [])
  else if strcmp lowerCategory "non-fiction".toList = 0 then
    let r := categoryLoop L.books L.count "Non-fiction".toList L.count.toNat 0
    Out.header :: r.1 ++ (if !r.2 then [Out.noneInCategory] else [])
  else [Out.invalidCategory]

/-- `Library::displayBookById` (LMS.cpp:326): the result and the output. -/
def displayBookById (L : Library) (id : CStr) : Bool × List Out :=
  let index := findBookById L id
  if index ≠ -1 then (true, [Out.details (L.books.getD index.toNat default)])
  else (false, [])

end LMS

/-! ## The variant `src/library_management.cpp` -/

namespace LibraryManagement

/-- The helper `isAlphanumeric` (library_management.cpp:32). -/
def isAlphanumeric (str : Option CStr) : Bool :=
  match str with
  | none => false
  | some s => if strlen s = 0 then false else allAlnum s

/-- `LibraryItem::setId` (library_management.cpp:73). -/
def setId (b : Book) (newId : Option CStr) : Bool × Book :=
  match newId with
  | none => (false, b)
  | some s =>
    if strlen s = 0 then (false, b)
    else if strlen s > MAX_ID_LENGTH - 1 then (false, b)
    else if !isAlphanumeric (some s) then (false, b)
    else (true, { b with id := strncpy s (MAX_ID_LENGTH - 1) })

/-- `LibraryItem::setTitle` (library_management.cpp:95). -/
def setTitle (b : Book) (newTitle : Option CStr) : Bool × Book :=
  match newTitle with
  | none => (false, b)
  | some s =>
    if strlen s = 0 then (false, b)
    else if strlen s > MAX_TITLE_LENGTH - 1 then (false, b)
    else (true, { b with title := strncpy s (MAX_TITLE_LENGTH - 1) })

/-- `Book::setIsbn` (library_management.cpp:146). -/
def setIsbn (b : Book) (newIsbn : Option CStr) : Bool × Book :=
  match newIsbn with
  | none => (false, b)
  | some s =>
    if strlen s = 0 then (false, b)
    else if strlen s > MAX_ISBN_LENGTH - 1 then (false, b)
    else (true, { b with isbn := strncpy s (MAX_ISBN_LENGTH - 1) })

/-- `Book::setAuthor` (library_management.cpp:163). -/
def setAuthor (b : Book) (newAuthor : Option CStr) : Bool × Book :=
  match newAuthor with
  | none => (false, b)
  | some s =>
    if strlen s = 0 then (false, b)
    else if strlen s > MAX_AUTHOR_LENGTH - 1 then (false, b)
    else (true, { b with author := strncpy s (MAX_AUTHOR_LENGTH - 1) })

/-- `Book::setEdition` (library_management.cpp:180). -/
def setEdition (b : Book) (newEdition : Option CStr) : Bool × Book :=
  match newEdition with
  | none => (false, b)
  | some s =>
    if strlen s = 0 then (false, b)
    else if strlen s > MAX_EDITION_LENGTH - 1 then (false, b)
    else (true, { b with edition := strncpy s (MAX_EDITION_LENGTH - 1) })

/-- `Book::setPublication` (library_management.cpp:197). -/
def setPublication (b : Book) (newPublication : Option CStr) : Bool × Book :=
  match newPublication with
  | none => (false, b)
  | some s =>
    if strlen s = 0 then (false, b)
    else if strlen s > MAX_PUBLICATION_LENGTH - 1 then (false, b)
    else (true, { b with publication := strncpy s (MAX_PUBLICATION_LENGTH - 1) })

/-- `Book::setCategory` (library_management.cpp:215): exact, case-sensitive comparison. -/
def setCategory (b : Book) (newCategory : Option CStr) : Bool × Book :=
  match newCategory with
  | none => (false, b)
  | some s =>
    if strlen s = 0 then (false, b)
    else if strlen s > MAX_CATEGORY_LENGTH - 1 then (false, b)
    else if strcmp s "Fiction".toList = 0 || strcmp s "Non-fiction".toList = 0 then
      (true, { b with category := strncpy s (MAX_CATEGORY_LENGTH - 1) })
    else (false, b)

/-- `Library::isIdDuplicate` (library_management.cpp:294). -/
def isIdDuplicate (L : Library) (id : Option CStr) : Bool :=
  match id with
  | none => false
  | some s =>
    if strlen s = 0 then false
    else dupLoop L.books L.count s L.count.toNat 0

/-- `Library::addBook` (library_management.cpp:320). -/
def addBook (L : Library) (book : Book) : Bool × Library :=
  if L.count ≥ L.capacity then (false, L)
  else if strlen book.getId = 0 || isIdDuplicate L (some book.getId) then (false, L)
  else (true, { L with books := L.books.set L.count.toNat book, count := L.count + 1 })

/-- `Library::findBookById` (library_management.cpp:337). -/
def findBookById (L : Library) (id : Option CStr) : Int :=
  match id with
  | none => -1
  | some s =>
    if strlen s = 0 then -1
    else findLoop L.books L.count s L.count.toNat 0

/-- `Library::editBook` (library_management.cpp:352). -/
def editBook (L : Library) (id : Option CStr) (updatedBook : Book) : Bool × Library :=
  let index := findBookById L id
  if index ≠ -1 then
    let originalId := strncpy (L.books.getD index.toNat default).getId (MAX_ID_LENGTH - 1)
    let assigned := L.books.set index.toNat updatedBook
    let restored := (setId (assigned.getD index.toNat default) (some originalId)).2
    (true, { L with books := assigned.set index.toNat restored })
  else (false, L)

/-- `Library::deleteBook` (library_management.cpp:377). -/
def deleteBook (L : Library) (id : Option CStr) : Bool × Library :=
  let index := findBookById L id
  if index ≠ -1 then
    (true, { L with books := shiftLoop L.books L.count L.count.toNat index.toNat,
                    count := L.count - 1 })
  else (false, L)

/-- `Library::getBookById` (library_management.cpp:391): the result and the value left in
`bookOut`. -/
def getBookById (L : Library) (id : Option CStr) (bookOut : Book) : Bool × Book :=
  let index := findBookById L id
  if index ≠ -1 then (true, L.books.getD index.toNat default)
  else (false, bookOut)

/-- `Library::displayAllBooks` (library_management.cpp:406). -/
def displayAllBooks (L : Library) : List Out :=
  if L.count = 0 then [Out.noBooks]
  else Out.header :: rowsLoop L.books L.count L.count.toNat 0

/-- `Library::displayBooksByCategory` (library_management.cpp:420). -/
def displayBooksByCategory (L : Library) (category : Option CStr) : List Out :=
  match category with
  | none => [Out.invalidCategory]
  | some c =>
    if strlen c = 0 then [Out.invalidCategory]
    else
      let r := categoryLoop L.books L.count c L.count.toNat 0
      Out.header :: r.1 ++ (if !r.2 then [Out.noneInCategory] else [])

/-- `Library::displayBookById` (library_management.cpp:450): the result and the output. -/
def displayBookById (L : Library) (id : Option CStr) : Bool × List Out :=
  let index := findBookById L id
  if index ≠ -1 then (true, [Out.details (L.books.getD index.toNat default)])
  else (false, [])

/-- `Library::deleteItem` (library_management.cpp:372). -/
def deleteItem (L : Library) (id : Option CStr) : Bool × Library := deleteBook L id

/-- `Library::displayItemById` (library_management.cpp:445). -/
def displayItemById (L : Library) (id : Option CStr) : Bool × List Out := displayBookById L id

/-- `Library::displayAllItems` (library_management.cpp:401). -/
def displayAllItems (L : Library) : List Out := displayAllBooks L

/-- `Library::getItemCount` (library_management.cpp:460). -/
def getItemCount (L : Library) : Int := L.getCount

end LibraryManagement

/-! ## Reachable states, call sequences -/

namespace LMS

/-- A `Book` value a caller of LMS.cpp can hold: `Book()` followed by setter calls
(the members are private, the setters are the only way to change them). -/
inductive SetterBuilt : Book → Prop
  | new : SetterBuilt Book.new
  | setId (b : Book) (v : Option CStr) : SetterBuilt b → SetterBuilt (LMS.setId b v).2
  | setIsbn (b : Book) (v : Option CStr) : SetterBuilt b → SetterBuilt (LMS.setIsbn b v).2
  | setTitle (b : Book) (v : Option CStr) : SetterBuilt b → SetterBuilt (LMS.setTitle b v).2
  | setAuthor (b : Book) (v : Option CStr) : SetterBuilt b → SetterBuilt (LMS.setAuthor b v).2
  | setEdition (b : Book) (v : Option CStr) : SetterBuilt b → SetterBuilt (LMS.setEdition b v).2
  | setPublication (b : Book) (v : Option CStr) :
      SetterBuilt b → SetterBuilt (LMS.setPublication b v).2
  | setCategory (b : Book) (v : Option CStr) :
      SetterBuilt b → SetterBuilt (LMS.setCategory b v).2

/-- A catalog obtained from a freshly constructed `Library` by `addBook`, `editBook` and
`deleteBook` calls (successful or not) whose `Book` arguments are setter-built. -/
inductive Reachable : Library → Prop
  | construct (n : Int) : Reachable (Library.construct n)
  | addBook (L : Library) (b : Book) :
      Reachable L → SetterBuilt b → Reachable (LMS.addBook L b).2
  | editBook (L : Library) (id : CStr) (p : Book) :
      Reachable L → SetterBuilt p → Reachable (LMS.editBook L id p).2
  | deleteBook (L : Library) (id : CStr) : Reachable L → Reachable (LMS.deleteBook L id).2

/-- One call of a public `Library` method of LMS.cpp, with its arguments. -/
inductive Op
  | addBook (b : Book)
  | editBook (id : CStr) (p : Book)
  | deleteBook (id : CStr)
  | getBookById (id : CStr) (bookOut : Book)
  | displayAllBooks
  | displayBooksByCategory (category : CStr)
  | displayBookById (id : CStr)

/-- The `Library` object after one call; the `const` methods leave it as it is. -/
def step (L : Library) : Op → Library
  | Op.addBook b => (addBook L b).2
  | Op.editBook id p => (editBook L id p).2
  | Op.deleteBook id => (deleteBook L id).2
  | Op.getBookById _ _ => L
  | Op.displayAllBooks => L
  | Op.displayBooksByCategory _ => L
  | Op.displayBookById _ => L

/-- The `Library` object after a sequence of calls. -/
def run (L : Library) : List Op → Library
  | [] => L
  | op :: ops => run (step L op) ops

/-- Calls `addBook` on each `Book` of a list in turn: the results and the final object. -/
def addAll (L : Library) : List Book → List Bool × Library
  | [] => ([], L)
  | b :: bs =>
    let r := addBook L b
    let rest := addAll r.2 bs
    (r.1 :: rest.1, rest.2)

end LMS

namespace LibraryManagement

/-- A `Book` value a caller of library_management.cpp can hold: `Book()` followed by setter
calls. -/
inductive SetterBuilt : Book → Prop
  | new : SetterBuilt Book.new
  | setId (b : Book) (v : Option CStr) :
      SetterBuilt b → SetterBuilt (LibraryManagement.setId b v).2
  | setIsbn (b : Book) (v : Option CStr) :
      SetterBuilt b → SetterBuilt (LibraryManagement.setIsbn b v).2
  | setTitle (b : Book) (v : Option CStr) :
      SetterBuilt b → SetterBuilt (LibraryManagement.setTitle b v).2
  | setAuthor (b : Book) (v : Option CStr) :
      SetterBuilt b → SetterBuilt (LibraryManagement.setAuthor b v).2
  | setEdition (b : Book) (v : Option CStr) :
      SetterBuilt b → SetterBuilt (LibraryManagement.setEdition b v).2
  | setPublication (b : Book) (v : Option CStr) :
      SetterBuilt b → SetterBuilt (LibraryManagement.setPublication b v).2
  | setCategory (b : Book) (v : Option CStr) :
      SetterBuilt b → SetterBuilt (LibraryManagement.setCategory b v).2

/-- A catalog obtained from a freshly constructed `Library` by `addBook`, `editBook` and
`deleteBook` calls (successful or not) whose `Book` arguments are setter-built. -/
inductive Reachable : Library → Prop
  | construct (n : Int) : Reachable (Library.construct n)
  | addBook (L : Library) (b : Book) :
      Reachable L → SetterBuilt b → Reachable (LibraryManagement.addBook L b).2
  | editBook (L : Library) (id : Option CStr) (p : Book) :
      Reachable L → SetterBuilt p → Reachable (LibraryManagement.editBook L id p).2
  | deleteBook (L : Library) (id : Option CStr) :
      Reachable L → Reachable (LibraryManagement.deleteBook L id).2

/-- One call of a public `Library` method of library_management.cpp, with its arguments. -/
inductive Op
  | addBook (b : Book)
  | editBook (id : Option CStr) (p : Book)
  | deleteBook (id : Option CStr)
  | getBookById (id : Option CStr) (bookOut : Book)
  | displayAllBooks
  | displayBooksByCategory (category : Option CStr)
  | displayBookById (id : Option CStr)

/-- The `Library` object after one call; the `const` methods leave it as it is. -/
def step (L : Library) : Op → Library
  | Op.addBook b => (addBook L b).2
  | Op.editBook id p => (editBook L id p).2
  | Op.deleteBook id => (deleteBook L id).2
  | Op.getBookById _ _ => L
  | Op.displayAllBooks => L
  | Op.displayBooksByCategory _ => L
  | Op.displayBookById _ => L

/-- The `Library` object after a sequence of calls. -/
def run (L : Library) : List Op → Library
  | [] => L
  | op :: ops => run (step L op) ops

/-- Calls `addBook` on each `Book` of a list in turn: the results and the final object. -/
def addAll (L : Library) : List Book → List Bool × Library
  | [] => ([], L)
  | b :: bs =>
    let r := addBook L b
    let rest := addAll r.2 bs
    (r.1 :: rest.1, rest.2)

end LibraryManagement

/-! ## Predicates on stored ids -/

/-- The ids of the stored records, in storage order. -/
def Library.ids (L : Library) : List CStr := L.stored.map Book.getId

/-- An id that `setId` accepts and stores unchanged: non-empty, alphanumeric, and short enough
for the `id` member. -/
@[reducible] def GoodId (s : CStr) : Prop :=
  s ≠ [] ∧ allAlnum s = true ∧ s.length ≤ MAX_ID_LENGTH - 1

/-- The id of a freshly built `Book`: still empty, or one that `setId` accepted. -/
@[reducible] def FreshId (s : CStr) : Prop := s = [] ∨ GoodId s

/-- A well-formed catalog whose stored ids are accepted ids and pairwise distinct. -/
def Library.IdsOk (L : Library) : Prop :=
  L.WF ∧ (∀ s ∈ L.ids, GoodId s) ∧ L.ids.Nodup

/-! ## Rows of a display -/

/-- The records whose table row (`displayInTable`) an output contains, in output order. -/
def rowsOf : List Out → List Book
  | [] => []
  | Out.row b :: rest => b :: rowsOf rest
  | _ :: rest => rowsOf rest

/-! ## Sequences of setter calls -/

/-- One call of a `Book` setter, with its argument (`none` is the null pointer). -/
inductive SetterCall
  | setId (v : Option CStr)
  | setIsbn (v : Option CStr)
  | setTitle (v : Option CStr)
  | setAuthor (v : Option CStr)
  | setEdition (v : Option CStr)
  | setPublication (v : Option CStr)
  | setCategory (v : Option CStr)

/-- The result of one setter call of LMS.cpp and the Book afterwards. -/
def LMS.applySetter (b : Book) : SetterCall → Bool × Book
  | SetterCall.setId v => LMS.setId b v
  | SetterCall.setIsbn v => LMS.setIsbn b v
  | SetterCall.setTitle v => LMS.setTitle b v
  | SetterCall.setAuthor v => LMS.setAuthor b v
  | SetterCall.setEdition v => LMS.setEdition b v
  | SetterCall.setPublication v => LMS.setPublication b v
  | SetterCall.setCategory v => LMS.setCategory b v

/-- The Book after a sequence of setter calls of LMS.cpp, successful or not. -/
def LMS.applySetters (b : Book) : List SetterCall → Book
  | [] => b
  | c :: cs => LMS.applySetters (LMS.applySetter b c).2 cs

/-- The result of one setter call of library_management.cpp and the Book afterwards. -/
def LibraryManagement.applySetter (b : Book) : SetterCall → Bool × Book
  | SetterCall.setId v => LibraryManagement.setId b v
  | SetterCall.setIsbn v => LibraryManagement.setIsbn b v
  | SetterCall.setTitle v => LibraryManagement.setTitle b v
  | SetterCall.setAuthor v => LibraryManagement.setAuthor b v
  | SetterCall.setEdition v => LibraryManagement.setEdition b v
  | SetterCall.setPublication v => LibraryManagement.setPublication b v
  | SetterCall.setCategory v => LibraryManagement.setCategory b v

/-- The Book after a sequence of setter calls of library_management.cpp, successful or
not. -/
def LibraryManagement.applySetters (b : Book) : List SetterCall → Book
  | [] => b
  | c :: cs => LibraryManagement.applySetters (LibraryManagement.applySetter b c).2 cs

/-- One of the two canonical category strings. -/
@[reducible] def CanonicalCategory (c : CStr) : Prop :=
  c = "Fiction".toList ∨ c = "Non-fiction".toList

/-- A validated text field: non-empty and at most `n` characters. -/
@[reducible] def FieldOk (n : Nat) (s : CStr) : Prop := s ≠ [] ∧ s.length ≤ n

/-- What one setter call can do to a Book: each text field keeps its value or becomes a
validated one, the category keeps its value or becomes canonical. -/
def SetterStep (b c : Book) : Prop :=
  (c.id = b.id ∨ FieldOk 19 c.id) ∧ (c.isbn = b.isbn ∨ FieldOk 19 c.isbn) ∧
  (c.title = b.title ∨ FieldOk 99 c.title) ∧ (c.author = b.author ∨ FieldOk 49 c.author) ∧
  (c.edition = b.edition ∨ FieldOk 19 c.edition) ∧
  (c.publication = b.publication ∨ FieldOk 49 c.publication) ∧
  (c.category = b.category ∨ CanonicalCategory c.category)

/-- Every validated field of `b` is validated in `c`, a canonical category of `b` is
canonical in `c`, and an empty-or-canonical category stays empty or canonical. -/
def FieldsKept (b c : Book) : Prop :=
  (FieldOk 19 b.id → FieldOk 19 c.id) ∧ (FieldOk 19 b.isbn → FieldOk 19 c.isbn) ∧
  (FieldOk 99 b.title → FieldOk 99 c.title) ∧ (FieldOk 49 b.author → FieldOk 49 c.author) ∧
  (FieldOk 19 b.edition → FieldOk 19 c.edition) ∧
  (FieldOk 49 b.publication → FieldOk 49 c.publication) ∧
  (CanonicalCategory b.category → CanonicalCategory c.category) ∧
  ((b.category = [] ∨ CanonicalCategory b.category) →
    (c.category = [] ∨ CanonicalCategory c.category))

/-! ## LMS.cpp called through pointers that may be null

The `Library` methods of LMS.cpp hand their `const char*` argument to `strcmp` or `strncpy`
without testing it.  In the definitions below the argument is an `Option CStr` and the
result is `none` when a C library function is reached with the null pointer (undefined
behaviour); otherwise they agree with the definitions of namespace `LMS`. -/

/-- The C library `strcmp` on pointers: undefined (`none`) when one of them is null. -/
def strcmpPtr (a b : Option CStr) : Option Int :=
  match a, b with
  | some s, some t => some (strcmp s t)
  | _, _ => none

/-- The idiom `strncpy(dst, src, n); dst[n] = 0` on a source pointer: undefined (`none`)
when it is null. -/
def strncpyPtr (src : Option CStr) (n : Nat) : Option CStr :=
  match src with
  | some s => some (strncpy s n)
  | none => none

namespace LMS

/-- The scan of `findBookById` with a pointer argument. -/
def findLoopPtr (books : List Book) (count : Int) (id : Option CStr) :
    Nat → Nat → Option Int
  | 0, _ => some (-1)
  | fuel + 1, i =>
    if (i : Int) < count then
      match strcmpPtr (some (books.getD i default).getId) id with
      | none => none
      | some c => if c = 0 then some (i : Int) else findLoopPtr books count id fuel (i + 1)
    else some (-1)

/-- The scan of `isIdDuplicate` with a pointer argument. -/
def dupLoopPtr (books : List Book) (count : Int) (id : Option CStr) :
    Nat → Nat → Option Bool
  | 0, _ => some false
  | fuel + 1, i =>
    if (i : Int) < count then
      match strcmpPtr (some (books.getD i default).getId) id with
      | none => none
      | some c => if c = 0 then some true else dupLoopPtr books count id fuel (i + 1)
    else some false

/-- `Library::isIdDuplicate` (LMS.cpp:192) with a pointer argument. -/
def isIdDuplicatePtr (L : Library) (id : Option CStr) : Option Bool :=
  dupLoopPtr L.books L.count id L.count.toNat 0

/-- `Library::findBookById` (LMS.cpp:219) with a pointer argument. -/
def findBookByIdPtr (L : Library) (id : Option CStr) : Option Int :=
  findLoopPtr L.books L.count id L.count.toNat 0

/-- `Library::editBook` (LMS.cpp:229) with a pointer argument. -/
def editBookPtr (L : Library) (id : Option CStr) (updatedBook : Book) :
    Option (Bool × Library) :=
  match findBookByIdPtr L id with
  | none => none
  | some index =>
    if index ≠ -1 then
      let originalId := strncpy (L.books.getD index.toNat default).getId (MAX_ID_LENGTH - 1)
      let assigned := L.books.set index.toNat updatedBook
      let restored := (setId (assigned.getD index.toNat default) (some originalId)).2
      some (true, { L with books := assigned.set index.toNat restored })
    else some (false, L)

/-- `Library::deleteBook` (LMS.cpp:249) with a pointer argument. -/
def deleteBookPtr (L : Library) (id : Option CStr) : Option (Bool × Library) :=
  match findBookByIdPtr L id with
  | none => none
  | some index =>
    if index ≠ -1 then
      some (true, { L with
        books := shiftLoop L.books L.count L.count.toNat index.toNat,
        count := L.count - 1 })
    else some (false, L)

/-- `Library::getBookById` (LMS.cpp:263) with a pointer argument. -/
def getBookByIdPtr (L : Library) (id : Option CStr) (bookOut : Book) : Option (Bool × Book) :=
  match findBookByIdPtr L id with
  | none => none
  | some index =>
    if index ≠ -1 then some (true, L.books.getD index.toNat default)
    else some (false, bookOut)

/-- `Library::displayBooksByCategory` (LMS.cpp:287) with a pointer argument: the first
statement after the declarations copies from the pointer. -/
def displayBooksByCategoryPtr (L : Library) (category : Option CStr) : Option (List Out) :=
  match strncpyPtr category (MAX_CATEGORY_LENGTH - 1) with
  | none => none
  | some copied =>
    let lowerCategory := copied.map tolower
    if strcmp lowerCategory "fiction".toList = 0 then
      let r := categoryLoop L.books L.count "Fiction".toList L.count.toNat 0
      some (Out.header :: r.1 ++ (if !r.2 then [Out.noneInCategory] else []))
    else if strcmp lowerCategory "non-fiction".toList = 0 then
      let r := categoryLoop L.books L.count "Non-fiction".toList L.count.toNat 0
      some (Out.header :: r.1 ++ (if !r.2 then [Out.noneInCategory] else []))
    else some [Out.invalidCategory]

end LMS

/-! ## Observable call traces -/

/-- One call of a `Library` method with present (non-null) arguments. -/
inductive Call
  | addBook (b : Book)
  | editBook (id : CStr) (p : Book)
  | deleteBook (id : CStr)
  | getBookById (id : CStr) (bookOut : Book)
  | findBookById (id : CStr)
  | isIdDuplicate (id : CStr)
  | getCount

/-- What a call returns to its caller: a `bool`, a `bool` with the out-parameter, or an
`int`. -/
inductive Ret
  | flag (r : Bool)
  | found (r : Bool) (bookOut : Book)
  | number (i : Int)
deriving DecidableEq, Repr

/-- The Books handed to `addBook` carry an id that is empty or was accepted by `setId`
(alphanumeric, at most 19 characters); nothing is required of the other arguments. -/
def Call.addsFresh : Call → Prop
  | Call.addBook b => FreshId b.getId
  | _ => True

/-- One call on the `Library` of LMS.cpp: what it returns and the object afterwards. -/
def LMS.exec (L : Library) : Call → Ret × Library
  | Call.addBook b => (Ret.flag (LMS.addBook L b).1, (LMS.addBook L b).2)
  | Call.editBook id p => (Ret.flag (LMS.editBook L id p).1, (LMS.editBook L id p).2)
  | Call.deleteBook id => (Ret.flag (LMS.deleteBook L id).1, (LMS.deleteBook L id).2)
  | Call.getBookById id bookOut =>
    (Ret.found (LMS.getBookById L id bookOut).1 (LMS.getBookById L id bookOut).2, L)
  | Call.findBookById id => (Ret.number (LMS.findBookById L id), L)
  | Call.isIdDuplicate id => (Ret.flag (LMS.isIdDuplicate L id), L)
  | Call.getCount => (Ret.number L.getCount, L)

/-- One call on the `Library` of library_management.cpp: what it returns and the object
afterwards. -/
def LibraryManagement.exec (L : Library) : Call → Ret × Library
  | Call.addBook b =>
    (Ret.flag (LibraryManagement.addBook L b).1, (LibraryManagement.addBook L b).2)
  | Call.editBook id p =>
    (Ret.flag (LibraryManagement.editBook L (some id) p).1,
      (LibraryManagement.editBook L (some id) p).2)
  | Call.deleteBook id =>
    (Ret.flag (LibraryManagement.deleteBook L (some id)).1,
      (LibraryManagement.deleteBook L (some id)).2)
  | Call.getBookById id bookOut =>
    (Ret.found (LibraryManagement.getBookById L (some id) bookOut).1
      (LibraryManagement.getBookById L (some id) bookOut).2, L)
  | Call.findBookById id => (Ret.number (LibraryManagement.findBookById L (some id)), L)
  | Call.isIdDuplicate id => (Ret.flag (LibraryManagement.isIdDuplicate L (some id)), L)
  | Call.getCount => (Ret.number L.getCount, L)

/-- The results of a sequence of calls on the `Library` of LMS.cpp, and the final object. -/
def LMS.trace (L : Library) : List Call → List Ret × Library
  | [] => ([], L)
  | c :: cs =>
    let r := LMS.exec L c
    let rest := LMS.trace r.2 cs
    (r.1 :: rest.1, rest.2)

/-- The results of a sequence of calls on the `Library` of library_management.cpp, and the
final object. -/
def LibraryManagement.trace (L : Library) : List Call → List Ret × Library
  | [] => ([], L)
  | c :: cs =>
    let r := LibraryManagement.exec L c
    let rest := LibraryManagement.trace r.2 cs
    (r.1 :: rest.1, rest.2)

/-! ## Concrete catalogs used to exercise the theorems -/

namespace Sample

/-- A record with id `A`. -/
def bookA : Book :=
  { id := ['A'], isbn := ['1'], title := ['T', 'a'], author := ['X'], edition := ['1'],
    publication := ['P'], category := "Fiction".toList }

/-- A record with id `B`. -/
def bookB : Book :=
  { id := ['B'], isbn := ['2'], title := ['T', 'b'], author := ['Y'], edition := ['2'],
    publication := ['Q'], category := "Non-fiction".toList }

/-- A record with id `C`. -/
def bookC : Book := { bookA with id := ['C'] }

/-- A record with id `D`. -/
def bookD : Book := { bookB with id := ['D'] }

/-- A payload carrying a foreign id. -/
def payload : Book := { bookB with id := ['Z', '9'], title := ['N', 'e', 'w'] }

/-- A second record carrying the id of `payload`. -/
def payloadTwin : Book := { bookA with id := ['Z', '9'] }

/-- A well-formed catalog of capacity 5 holding the ids A, B, C, D in this order. -/
def libABCD : Library :=
  { books := [bookA, bookB, bookC, bookD, Book.new], capacity := 5, count := 4 }

/-- A full catalog of capacity 2 holding A and B. -/
def libFull : Library := { books := [bookA, bookB], capacity := 2, count := 2 }

/-- The record `Book()` followed by a successful `setId("A")`. -/
def builtA : Book := { Book.new with id := ['A'] }

/-- The record `Book()` followed by a successful `setId("B")`. -/
def builtB : Book := { Book.new with id := ['B'] }

/-- The catalog `Library(3)` after `addBook(builtA)` and `addBook(builtB)`. -/
def reachAB : Library := { books := [builtA, builtB, Book.new], capacity := 3, count := 2 }

/-- A value of 19 characters, the longest an `id` member holds. -/
def long19 : CStr := List.replicate 19 'A'

/-- A value of 20 characters, one more than the `id`, `isbn` and `edition` members hold. -/
def long20 : CStr := List.replicate 20 'A'

/-- A value of 50 characters, one more than the `author` and `publication` members hold. -/
def long50 : CStr := List.replicate 50 'A'

/-- A value of 100 characters, one more than the `title` member holds. -/
def long100 : CStr := List.replicate 100 'A'

/-- The record `Book()` followed by a successful `setId` with nineteen letters. -/
def builtLong : Book := { Book.new with id := long19 }

/-- The catalog `Library(3)` after `addBook(builtLong)`. -/
def reachLong : Library :=
  { books := [builtLong, Book.new, Book.new], capacity := 3, count := 1 }

/-- Scenario record: id `A1`, category "Fiction". -/
def scA1 : Book :=
  { id := "A1".toList, isbn := "111".toList, title := "Alpha".toList, author := "Ann".toList,
    edition := "1st".toList, publication := "Pub".toList, category := "Fiction".toList }

/-- Scenario record: a second Book with id `A1`. -/
def scA1again : Book := { scA1 with title := "Again".toList }

/-- Scenario record: id `B2`, category "Non-fiction". -/
def scB2 : Book :=
  { id := "B2".toList, isbn := "222".toList, title := "Beta".toList, author := "Bob".toList,
    edition := "2nd".toList, publication := "Pub".toList, category := "Non-fiction".toList }

/-- Scenario record: id `C3`. -/
def scC3 : Book := { scA1 with id := "C3".toList }

/-- Scenario payload for the update: category "Fiction", carrying another id. -/
def scPayload : Book :=
  { id := "X9".toList, isbn := "999".toList, title := "Gamma".toList, author := "Cy".toList,
    edition := "3rd".toList, publication := "Pub".toList, category := "Fiction".toList }

/-- The scenario in LMS.cpp: the catalog after each of the six mutating calls. -/
def lmsAfter1 : Library := (LMS.addBook (Library.construct 2) scA1).2
def lmsAfter2 : Library := (LMS.addBook lmsAfter1 scA1again).2
def lmsAfter3 : Library := (LMS.addBook lmsAfter2 scB2).2
def lmsAfter4 : Library := (LMS.addBook lmsAfter3 scC3).2
def lmsAfter5 : Library := (LMS.deleteBook lmsAfter4 "A1".toList).2
def lmsAfter6 : Library := (LMS.editBook lmsAfter5 "B2".toList scPayload).2

/-- The scenario in library_management.cpp: the catalog after each of the six mutating
calls. -/
def lmAfter1 : Library := (LibraryManagement.addBook (Library.construct 2) scA1).2
def lmAfter2 : Library := (LibraryManagement.addBook lmAfter1 scA1again).2
def lmAfter3 : Library := (LibraryManagement.addBook lmAfter2 scB2).2
def lmAfter4 : Library := (LibraryManagement.addBook lmAfter3 scC3).2
def lmAfter5 : Library := (LibraryManagement.deleteBook lmAfter4 (some "A1".toList)).2
def lmAfter6 : Library := (LibraryManagement.editBook lmAfter5 (some "B2".toList) scPayload).2

/-- A sequence of setter calls, some failing (empty, absent, too long, not alphanumeric, not a
category) and some succeeding. -/
def setterCalls : List SetterCall :=
  [SetterCall.setId (some []), SetterCall.setIsbn none, SetterCall.setTitle (some long100),
    SetterCall.setId (some ['A', ' ']), SetterCall.setCategory (some "Poetry".toList),
    SetterCall.setAuthor (some ['Z']), SetterCall.setCategory (some "Non-fiction".toList),
    SetterCall.setEdition (some long20), SetterCall.setPublication (some [])]

/-- A sequence of calls that exercises every operation, the empty id included. -/
def callSequence : List Call :=
  [Call.addBook scA1, Call.isIdDuplicate [], Call.addBook Book.new, Call.findBookById [],
    Call.addBook scA1again, Call.addBook scB2, Call.getCount, Call.editBook [] scPayload,
    Call.editBook "B2".toList scPayload, Call.getBookById "B2".toList Book.new,
    Call.getBookById [] scC3, Call.deleteBook [], Call.deleteBook "A1".toList,
    Call.isIdDuplicate "B2".toList, Call.findBookById "B2".toList, Call.addBook scC3]


end Sample

/-! ## Theorems -/

set_option linter.unnecessarySeqFocus false

/-! ### The C string helpers -/

theorem strcmp_eq_zero_iff (a b : CStr) : strcmp a b = 0 ↔ a = b := by
  induction a generalizing b with
  | nil => cases b <;> simp [strcmp]
  | cons x s ih =>
    cases b with
    | nil => simp [strcmp]
    | cons y t =>
      simp only [strcmp]
      by_cases h : x = y
      · simp [h, ih]
      · simp only [h, if_false, List.cons.injEq, false_and, iff_false]
        split <;> omega

/-! ### The scanning loops -/

theorem findLoop_spec (books : List Book) (n : Nat) (id : CStr) :
    ∀ fuel i : Nat, n ≤ i + fuel →
      (findLoop books n id fuel i = -1 ∧
        ∀ j, i ≤ j → j < n → (books.getD j default).id ≠ id) ∨
      (∃ k : Nat, findLoop books n id fuel i = (k : Int) ∧ i ≤ k ∧ k < n ∧
        (books.getD k default).id = id ∧
        ∀ j, i ≤ j → j < k → (books.getD j default).id ≠ id) := by
  intro fuel
  induction fuel with
  | zero =>
    intro i h
    left
    exact ⟨rfl, fun j h1 h2 => by omega⟩
  | succ fuel ih =>
    intro i h
    unfold findLoop
    by_cases hi : (i : Int) < (n : Int)
    · have hin : i < n := by omega
      rw [if_pos hi]
      by_cases e : strcmp (books.getD i default).getId id = 0
      · rw [if_pos e]
        right
        refine ⟨i, rfl, le_refl i, hin, (strcmp_eq_zero_iff _ _).1 e, fun j h1 h2 => by omega⟩
      · rw [if_neg e]
        have hne : (books.getD i default).id ≠ id := fun hh => e ((strcmp_eq_zero_iff _ _).2 hh)
        rcases ih (i + 1) (by omega) with ⟨h1, h2⟩ | ⟨k, h1, h2, h3, h4, h5⟩
        · left
          refine ⟨h1, fun j hj1 hj2 => ?_⟩
          by_cases hji : j = i
          · subst hji; exact hne
          · exact h2 j (by omega) hj2
        · right
          refine ⟨k, h1, by omega, h3, h4, fun j hj1 hj2 => ?_⟩
          by_cases hji : j = i
          · subst hji; exact hne
          · exact h5 j (by omega) hj2
    · rw [if_neg hi]
      left
      exact ⟨rfl, fun j h1 h2 => by omega⟩

theorem dupLoop_iff_findLoop (books : List Book) (count : Int) (id : CStr) :
    ∀ fuel i : Nat, dupLoop books count id fuel i = true ↔ findLoop books count id fuel i ≠ -1 := by
  intro fuel
  induction fuel with
  | zero => intro i; simp [dupLoop, findLoop]
  | succ fuel ih =>
    intro i
    unfold dupLoop findLoop
    by_cases hi : (i : Int) < count
    · rw [if_pos hi, if_pos hi]
      by_cases e : strcmp (books.getD i default).getId id = 0
      · rw [if_pos e, if_pos e]
        simp only [true_iff]
        omega
      · rw [if_neg e, if_neg e]
        exact ih (i + 1)
    · rw [if_neg hi, if_neg hi]
      simp

theorem shiftLoop_length (count : Int) :
    ∀ (fuel i : Nat) (books : List Book), (shiftLoop books count fuel i).length = books.length := by
  intro fuel
  induction fuel with
  | zero => intro i books; rfl
  | succ fuel ih =>
    intro i books
    unfold shiftLoop
    split
    · rw [ih]; simp
    · rfl

theorem shiftLoop_getElem? (n : Nat) :
    ∀ (fuel i : Nat) (books : List Book), n ≤ books.length → n ≤ i + 1 + fuel → ∀ j : Nat,
      (shiftLoop books n fuel i)[j]? = if i ≤ j ∧ j + 1 < n then books[j + 1]? else books[j]? := by
  intro fuel
  induction fuel with
  | zero =>
    intro i books _ h j
    have : ¬ (i ≤ j ∧ j + 1 < n) := by omega
    rw [if_neg this]
    rfl
  | succ fuel ih =>
    intro i books hlen h j
    unfold shiftLoop
    by_cases hi : (i : Int) < (n : Int) - 1
    · have hin : i + 1 < n := by omega
      rw [if_pos hi, ih (i + 1) _ (by simpa using hlen) (by omega) j]
      have hget : books.getD (i + 1) default = books[i + 1] := by
        simp [List.getD_eq_getElem?_getD, List.getElem?_eq_getElem (show i + 1 < books.length by omega)]
      by_cases hj : i + 1 ≤ j ∧ j + 1 < n
      · rw [if_pos hj, if_pos (by omega)]
        rw [List.getElem?_set_ne (by omega)]
      · rw [if_neg hj]
        by_cases hji : j = i
        · subst hji
          rw [if_pos (by omega), List.getElem?_set, if_pos rfl, if_pos (by omega), hget,
            List.getElem?_eq_getElem]
        · rw [List.getElem?_set_ne (fun hh => hji hh.symm)]
          rw [if_neg (by omega)]
    · rw [if_neg hi]
      have : ¬ (i ≤ j ∧ j + 1 < n) := by omega
      rw [if_neg this]

/-! ### Well-formed catalogs and lookup -/

theorem Library.WF.count_nat {L : Library} (h : L.WF) :
    ∃ n : Nat, L.count = (n : Int) ∧ n ≤ L.books.length ∧ L.count.toNat = n := by
  obtain ⟨h0, h1, h2⟩ := h
  refine ⟨L.count.toNat, (Int.toNat_of_nonneg h0).symm, ?_, rfl⟩
  have : ((L.count.toNat : Nat) : Int) = L.count := Int.toNat_of_nonneg h0
  omega

theorem Library.stored_length {L : Library} (h : L.WF) :
    (L.stored.length : Int) = L.count := by
  obtain ⟨n, hn, hl, ht⟩ := h.count_nat
  simp [Library.stored, ht, hn, hl]

theorem Library.stored_getElem? (L : Library) (j : Nat) :
    L.stored[j]? = if j < L.count.toNat then L.books[j]? else none := by
  simp [Library.stored, List.getElem?_take]

theorem getD_of_getElem? {l : List Book} {j : Nat} {r : Book} (h : l[j]? = some r) :
    l.getD j default = r := by
  simp [List.getD_eq_getElem?_getD, h]

theorem Library.construct_WF (n : Int) : (Library.construct n).WF := by
  unfold Library.construct Library.WF
  by_cases h : n > 0
  · simp only [if_pos h, List.length_replicate]
    refine ⟨le_refl _, by omega, ?_⟩
    exact Int.toNat_of_nonneg (by omega)
  · simp only [if_neg h, List.length_replicate]
    refine ⟨le_refl _, by decide, by decide⟩

theorem Library.construct_stored (n : Int) : (Library.construct n).stored = [] := by
  simp [Library.construct, Library.stored]

namespace LMS

theorem findBookById_cases {L : Library} (h : L.WF) (id : CStr) :
    (findBookById L id = -1 ∧ ∀ r ∈ L.stored, r.id ≠ id) ∨
    (∃ (k : Nat) (r : Book), findBookById L id = (k : Int) ∧ k < L.count.toNat ∧
      L.books[k]? = some r ∧ L.stored[k]? = some r ∧ r.id = id ∧
      ∀ (j : Nat) (q : Book), j < k → L.stored[j]? = some q → q.id ≠ id) := by
  obtain ⟨n, hn, hl, ht⟩ := h.count_nat
  unfold findBookById
  rw [ht, hn]
  rcases findLoop_spec L.books n id n 0 (by omega) with ⟨h1, h2⟩ | ⟨k, h1, _, h3, h4, h5⟩
  · left
    refine ⟨h1, fun r hr => ?_⟩
    obtain ⟨j, hj⟩ := List.mem_iff_getElem?.1 hr
    rw [Library.stored_getElem?, ht] at hj
    by_cases hjn : j < n
    · rw [if_pos hjn] at hj
      have := h2 j (Nat.zero_le j) hjn
      rwa [getD_of_getElem? hj] at this
    · rw [if_neg hjn] at hj
      cases hj
  · right
    have hk : k < L.books.length := by omega
    have hb : L.books[k]? = some L.books[k] := List.getElem?_eq_getElem hk
    refine ⟨k, L.books[k], h1, h3, hb, ?_, ?_, ?_⟩
    · rw [Library.stored_getElem?, ht, if_pos h3, hb]
    · rwa [getD_of_getElem? hb] at h4
    · intro j q hj hq
      rw [Library.stored_getElem?, ht] at hq
      by_cases hjn : j < n
      · rw [if_pos hjn] at hq
        have := h5 j (Nat.zero_le j) hj
        rwa [getD_of_getElem? hq] at this
      · omega

theorem findBookById_eq_neg_one_iff {L : Library} (h : L.WF) (id : CStr) :
    findBookById L id = -1 ↔ ∀ r ∈ L.stored, r.id ≠ id := by
  rcases findBookById_cases h id with ⟨h1, h2⟩ | ⟨k, r, h1, _, _, h4, h5, _⟩
  · exact ⟨fun _ => h2, fun _ => h1⟩
  · constructor
    · intro hh
      rw [h1] at hh
      omega
    · intro hh
      exact absurd h5 (hh r (List.getElem?_mem h4))

theorem isIdDuplicate_iff_find (L : Library) (id : CStr) :
    isIdDuplicate L id = true ↔ findBookById L id ≠ -1 :=
  dupLoop_iff_findLoop L.books L.count id L.count.toNat 0

theorem isIdDuplicate_iff {L : Library} (h : L.WF) (id : CStr) :
    isIdDuplicate L id = true ↔ ∃ r ∈ L.stored, r.id = id := by
  rw [isIdDuplicate_iff_find, Ne, findBookById_eq_neg_one_iff h]
  push_neg
  rfl

theorem addBook_fst_iff {L : Library} (h : L.WF) (b : Book) :
    (addBook L b).1 = true ↔
      L.count < L.capacity ∧ b.id ≠ [] ∧ ∀ r ∈ L.stored, r.id ≠ b.id := by
  unfold addBook
  by_cases hc : L.count ≥ L.capacity
  · rw [if_pos hc]
    simp only [Bool.false_eq_true, false_iff]
    intro hh
    omega
  · rw [if_neg hc]
    by_cases he : b.id = []
    · simp [strlen, Book.getId, he]
    · by_cases hd : isIdDuplicate L b.getId = true
      · have hd2 := hd
        rw [isIdDuplicate_iff h] at hd2
        obtain ⟨r, hr, hrid⟩ := hd2
        simp only [hd, Bool.or_true, if_true, Bool.false_eq_true, false_iff]
        intro hh
        exact hh.2.2 r hr hrid
      · have hd2 : ¬ ∃ r ∈ L.stored, r.id = b.getId := fun hh => hd ((isIdDuplicate_iff h _).2 hh)
        have hlen : ¬ (strlen b.getId = 0) := by
          simpa [strlen, Book.getId] using he
        simp only [hd, hlen, decide_False, Bool.or_false, Bool.false_eq_true, if_false, true_iff]
        refine ⟨by omega, he, fun r hr hrid => hd2 ⟨r, hr, hrid⟩⟩

theorem addBook_of_true {L : Library} (b : Book) (ht : (addBook L b).1 = true) :
    (addBook L b).2 = { L with books := L.books.set L.count.toNat b, count := L.count + 1 } := by
  unfold addBook at ht ⊢
  by_cases hc : L.count ≥ L.capacity
  · rw [if_pos hc] at ht; cases ht
  · rw [if_neg hc] at ht ⊢
    split at ht
    · cases ht
    · rename_i hh
      rw [if_neg hh]

theorem addBook_of_false {L : Library} (b : Book) (hf : (addBook L b).1 = false) :
    (addBook L b).2 = L := by
  unfold addBook at hf ⊢
  by_cases hc : L.count ≥ L.capacity
  · rw [if_pos hc]
  · rw [if_neg hc] at hf ⊢
    split at hf
    · rename_i hh
      rw [if_pos hh]
    · cases hf

theorem addBook_stored {L : Library} (h : L.WF) (b : Book) (ht : (addBook L b).1 = true) :
    (addBook L b).2.stored = L.stored ++ [b] ∧ (addBook L b).2.count = L.count + 1 ∧
      (addBook L b).2.capacity = L.capacity ∧ (addBook L b).2.WF := by
  have hlt : L.count < L.capacity := ((addBook_fst_iff h b).1 ht).1
  rw [addBook_of_true b ht]
  obtain ⟨n, hn, hl, hnat⟩ := h.count_nat
  obtain ⟨h0, h1, h2⟩ := h
  have hnl : n < L.books.length := by omega
  refine ⟨?_, rfl, rfl, ?_⟩
  · simp only [Library.stored, hnat]
    have e : (L.count + 1).toNat = n + 1 := by omega
    rw [e]
    apply List.ext_getElem?
    intro j
    rw [List.getElem?_take, List.getElem?_append, List.getElem?_set]
    simp only [List.length_take, Nat.min_eq_left hl, List.getElem?_take]
    by_cases hj : j < n
    · rw [if_pos (by omega), if_neg (by omega), if_pos hj, if_pos hj]
    · rw [if_neg hj]
      by_cases hjn : j = n
      · subst hjn
        simp [hnl]
      · rw [if_neg (by omega)]
        have : 1 ≤ j - n := by omega
        simp [List.getElem?_eq_none, this]
  · refine ⟨by simp only; omega, by simp only; omega, ?_⟩
    simpa using h2

end LMS

namespace LMS

theorem getBookById_of_find {L : Library} {id : CStr} {k : Nat} {r : Book} (bookOut : Book)
    (hf : findBookById L id = (k : Int)) (hb : L.books[k]? = some r) :
    getBookById L id bookOut = (true, r) := by
  unfold getBookById
  simp only [hf]
  rw [if_pos (by omega)]
  simp [hb]

theorem getBookById_of_not_found {L : Library} {id : CStr} (bookOut : Book)
    (hf : findBookById L id = -1) : getBookById L id bookOut = (false, bookOut) := by
  unfold getBookById
  simp [hf]

theorem deleteBook_of_not_found {L : Library} {id : CStr} (hf : findBookById L id = -1) :
    deleteBook L id = (false, L) := by
  unfold deleteBook
  simp [hf]

theorem deleteBook_of_find {L : Library} (h : L.WF) {id : CStr} {k : Nat}
    (hf : findBookById L id = (k : Int)) (hk : k < L.count.toNat) :
    (deleteBook L id).1 = true ∧ (deleteBook L id).2.stored = L.stored.eraseIdx k ∧
      (deleteBook L id).2.count = L.count - 1 ∧ (deleteBook L id).2.capacity = L.capacity ∧
      (deleteBook L id).2.WF := by
  obtain ⟨n, hn, hl, hnat⟩ := h.count_nat
  obtain ⟨h0, h1, h2⟩ := h
  have hd : deleteBook L id =
      (true, { L with books := shiftLoop L.books L.count L.count.toNat k,
                      count := L.count - 1 }) := by
    unfold deleteBook
    simp only [hf]
    rw [if_pos (by omega)]
    simp
  rw [hd]
  refine ⟨rfl, ?_, rfl, rfl, ?_⟩
  · simp only [Library.stored]
    rw [hnat] at hk ⊢
    rw [hn]
    have e : ((n : Int) - 1).toNat = n - 1 := by omega
    rw [e]
    apply List.ext_getElem?
    intro j
    rw [List.getElem?_take, shiftLoop_getElem? n n k L.books hl (by omega) j,
      List.getElem?_eraseIdx]
    simp only [List.getElem?_take]
    by_cases hj : j < n - 1
    · rw [if_pos hj]
      by_cases hkj : k ≤ j
      · rw [if_pos ⟨hkj, by omega⟩, if_neg (by omega), if_pos (by omega)]
      · rw [if_neg (fun hh => hkj hh.1), if_pos (by omega), if_pos (by omega)]
    · rw [if_neg hj]
      by_cases hkj : j < k
      · omega
      · rw [if_neg hkj, if_neg (by omega)]
  · refine ⟨by simp only; omega, by simp only; omega, ?_⟩
    simp only [shiftLoop_length]
    exact h2

theorem editBook_of_not_found {L : Library} {id : CStr} (p : Book)
    (hf : findBookById L id = -1) : editBook L id p = (false, L) := by
  unfold editBook
  simp [hf]

theorem editBook_of_find {L : Library} (h : L.WF) {id : CStr} {k : Nat} {r : Book} (p : Book)
    (hf : findBookById L id = (k : Int)) (hk : k < L.count.toNat)
    (hb : L.books[k]? = some r) :
    (editBook L id p).1 = true ∧
      (editBook L id p).2.stored =
        L.stored.set k (setId p (some (strncpy r.id (MAX_ID_LENGTH - 1)))).2 ∧
      (editBook L id p).2.count = L.count ∧ (editBook L id p).2.capacity = L.capacity ∧
      (editBook L id p).2.WF := by
  obtain ⟨n, hn, hl, hnat⟩ := h.count_nat
  obtain ⟨h0, h1, h2⟩ := h
  have hkl : k < L.books.length := by omega
  have hd : editBook L id p =
      (true, { L with
        books := L.books.set k (setId p (some (strncpy r.id (MAX_ID_LENGTH - 1)))).2 }) := by
    unfold editBook
    simp only [hf]
    rw [if_pos (by omega)]
    simp only [Int.toNat_ofNat, List.set_set, getD_of_getElem? hb, Book.getId]
    have : (L.books.set k p).getD k default = p := by
      apply getD_of_getElem?
      rw [List.getElem?_set, if_pos rfl, if_pos hkl]
    rw [this]
  rw [hd]
  refine ⟨rfl, ?_, rfl, rfl, ?_⟩
  · simp only [Library.stored]
    rw [List.set_take]
  · refine ⟨h0, h1, ?_⟩
    simpa using h2

theorem setId_of_good (p : Book) {s : CStr} (h1 : s ≠ []) (h2 : allAlnum s = true)
    (h3 : s.length ≤ MAX_ID_LENGTH - 1) :
    setId p (some (strncpy s (MAX_ID_LENGTH - 1))) = (true, { p with id := s }) := by
  have e : strncpy s (MAX_ID_LENGTH - 1) = s := List.take_of_length_le h3
  rw [e]
  unfold setId
  have hl : ¬ (strlen s = 0) := by
    simpa [strlen] using h1
  simp only [hl, if_false, h2, Bool.not_true, Bool.false_eq_true, e]

end LMS

/-! ### The second variant against the first -/

namespace LibraryManagement

theorem findBookById_some (L : Library) {id : CStr} (h : id ≠ []) :
    findBookById L (some id) = LMS.findBookById L id := by
  have hl : ¬ (strlen id = 0) := by simpa [strlen] using h
  simp only [findBookById, LMS.findBookById, hl, if_false]

theorem findBookById_empty (L : Library) : findBookById L (some []) = -1 := by
  simp [findBookById, strlen]

theorem findBookById_none (L : Library) : findBookById L none = -1 := rfl

theorem isIdDuplicate_some (L : Library) {id : CStr} (h : id ≠ []) :
    isIdDuplicate L (some id) = LMS.isIdDuplicate L id := by
  have hl : ¬ (strlen id = 0) := by simpa [strlen] using h
  simp only [isIdDuplicate, LMS.isIdDuplicate, hl, if_false]

theorem addBook_eq (L : Library) (b : Book) : addBook L b = LMS.addBook L b := by
  unfold addBook LMS.addBook
  by_cases he : b.getId = []
  · simp [strlen, he]
  · rw [isIdDuplicate_some L he]

theorem deleteBook_some (L : Library) {id : CStr} (h : id ≠ []) :
    deleteBook L (some id) = LMS.deleteBook L id := by
  simp only [deleteBook, LMS.deleteBook, findBookById_some L h]

theorem getBookById_some (L : Library) {id : CStr} (h : id ≠ []) (bookOut : Book) :
    getBookById L (some id) bookOut = LMS.getBookById L id bookOut := by
  simp only [getBookById, LMS.getBookById, findBookById_some L h]

theorem setId_strncpy (p : Book) (s : CStr) :
    setId p (some (strncpy s (MAX_ID_LENGTH - 1))) =
      LMS.setId p (some (strncpy s (MAX_ID_LENGTH - 1))) := by
  have hl : ¬ (strlen (strncpy s (MAX_ID_LENGTH - 1)) > MAX_ID_LENGTH - 1) := by
    simp only [strlen, strncpy, List.length_take]
    omega
  unfold setId LMS.setId
  by_cases h0 : strlen (strncpy s (MAX_ID_LENGTH - 1)) = 0
  · simp only [h0, if_true]
  · simp only [h0, hl, if_false, isAlphanumeric]

theorem editBook_some (L : Library) {id : CStr} (h : id ≠ []) (p : Book) :
    editBook L (some id) p = LMS.editBook L id p := by
  simp only [editBook, LMS.editBook, findBookById_some L h, Book.getId, setId_strncpy]

theorem deleteBook_absent {L : Library} {id : Option CStr}
    (hf : findBookById L id = -1) : deleteBook L id = (false, L) := by
  unfold deleteBook
  simp [hf]

theorem editBook_absent {L : Library} {id : Option CStr} (p : Book)
    (hf : findBookById L id = -1) : editBook L id p = (false, L) := by
  unfold editBook
  simp [hf]

theorem getBookById_absent {L : Library} {id : Option CStr} (bookOut : Book)
    (hf : findBookById L id = -1) : getBookById L id bookOut = (false, bookOut) := by
  unfold getBookById
  simp [hf]

end LibraryManagement

/-! ### Ids of setter-built books -/

theorem allAlnum_iff (s : CStr) : allAlnum s = true ↔ ∀ c ∈ s, isalnum c = true := by
  induction s with
  | nil => simp [allAlnum]
  | cons c s ih =>
    unfold allAlnum
    by_cases hc : isalnum c = true
    · simp [hc, ih]
    · simp [hc]

theorem allAlnum_take (s : CStr) (n : Nat) (h : allAlnum s = true) :
    allAlnum (s.take n) = true := by
  rw [allAlnum_iff] at h ⊢
  exact fun c hc => h c (List.mem_of_mem_take hc)

theorem LMS.setId_freshId (b : Book) (v : Option CStr) (h : FreshId b.id) :
    FreshId (LMS.setId b v).2.id := by
  unfold LMS.setId
  cases v with
  | none => exact h
  | some s =>
    simp only
    by_cases h0 : strlen s = 0
    · rw [if_pos h0]; exact h
    · rw [if_neg h0]
      by_cases ha : allAlnum s = true
      · simp only [ha, Bool.not_true, Bool.false_eq_true, if_false]
        right
        refine ⟨?_, allAlnum_take s _ ha, ?_⟩
        · cases s with
          | nil => exact absurd rfl h0
          | cons c t => simp [strncpy, MAX_ID_LENGTH]
        · simp only [strncpy, List.length_take]
          omega
      · simp only [ha, Bool.not_false, if_true]
        exact h

theorem LibraryManagement.setId_idFresh (b : Book) (v : Option CStr) (h : FreshId b.id) :
    FreshId (LibraryManagement.setId b v).2.id := by
  unfold LibraryManagement.setId
  cases v with
  | none => exact h
  | some s =>
    simp only
    by_cases h0 : strlen s = 0
    · rw [if_pos h0]; exact h
    · rw [if_neg h0]
      by_cases h1 : strlen s > MAX_ID_LENGTH - 1
      · rw [if_pos h1]; exact h
      · rw [if_neg h1]
        by_cases ha : allAlnum s = true
        · simp only [LibraryManagement.isAlphanumeric, h0, if_false, ha, Bool.not_true,
            Bool.false_eq_true]
          right
          refine ⟨?_, allAlnum_take s _ ha, ?_⟩
          · cases s with
            | nil => exact absurd rfl h0
            | cons c t => simp [strncpy, MAX_ID_LENGTH]
          · simp only [strncpy, List.length_take]
            omega
        · simp only [LibraryManagement.isAlphanumeric, h0, if_false, ha, Bool.not_false,
            if_true]
          exact h

theorem LMS.SetterBuilt.freshId {b : Book} (h : LMS.SetterBuilt b) : FreshId b.id := by
  induction h with
  | new => left; rfl
  | setId b v _ ih => exact LMS.setId_freshId b v ih
  | setIsbn b v _ ih =>
    have : (LMS.setIsbn b v).2.id = b.id := by
      unfold LMS.setIsbn; cases v <;> simp only <;> split <;> rfl
    rw [this]; exact ih
  | setTitle b v _ ih =>
    have : (LMS.setTitle b v).2.id = b.id := by
      unfold LMS.setTitle; cases v <;> simp only <;> split <;> rfl
    rw [this]; exact ih
  | setAuthor b v _ ih =>
    have : (LMS.setAuthor b v).2.id = b.id := by
      unfold LMS.setAuthor; cases v <;> simp only <;> split <;> rfl
    rw [this]; exact ih
  | setEdition b v _ ih =>
    have : (LMS.setEdition b v).2.id = b.id := by
      unfold LMS.setEdition; cases v <;> simp only <;> split <;> rfl
    rw [this]; exact ih
  | setPublication b v _ ih =>
    have : (LMS.setPublication b v).2.id = b.id := by
      unfold LMS.setPublication; cases v <;> simp only <;> split <;> rfl
    rw [this]; exact ih
  | setCategory b v _ ih =>
    have : (LMS.setCategory b v).2.id = b.id := by
      unfold LMS.setCategory; cases v <;> simp only <;> (repeat (split <;> try rfl))
    rw [this]; exact ih

theorem LibraryManagement.SetterBuilt.idFresh {b : Book}
    (h : LibraryManagement.SetterBuilt b) : FreshId b.id := by
  induction h with
  | new => left; rfl
  | setId b v _ ih => exact LibraryManagement.setId_idFresh b v ih
  | setIsbn b v _ ih =>
    have : (LibraryManagement.setIsbn b v).2.id = b.id := by
      unfold LibraryManagement.setIsbn; cases v <;> simp only <;> (repeat (split <;> try rfl))
    rw [this]; exact ih
  | setTitle b v _ ih =>
    have : (LibraryManagement.setTitle b v).2.id = b.id := by
      unfold LibraryManagement.setTitle; cases v <;> simp only <;> (repeat (split <;> try rfl))
    rw [this]; exact ih
  | setAuthor b v _ ih =>
    have : (LibraryManagement.setAuthor b v).2.id = b.id := by
      unfold LibraryManagement.setAuthor; cases v <;> simp only <;> (repeat (split <;> try rfl))
    rw [this]; exact ih
  | setEdition b v _ ih =>
    have : (LibraryManagement.setEdition b v).2.id = b.id := by
      unfold LibraryManagement.setEdition; cases v <;> simp only <;> (repeat (split <;> try rfl))
    rw [this]; exact ih
  | setPublication b v _ ih =>
    have : (LibraryManagement.setPublication b v).2.id = b.id := by
      unfold LibraryManagement.setPublication
      cases v <;> simp only <;> (repeat (split <;> try rfl))
    rw [this]; exact ih
  | setCategory b v _ ih =>
    have : (LibraryManagement.setCategory b v).2.id = b.id := by
      unfold LibraryManagement.setCategory
      cases v <;> simp only <;> (repeat (split <;> try rfl))
    rw [this]; exact ih

/-! ### The id invariant under the mutating operations -/

theorem Library.construct_IdsOk (n : Int) : (Library.construct n).IdsOk := by
  refine ⟨Library.construct_WF n, ?_, ?_⟩ <;> simp [Library.ids, Library.construct_stored]

theorem Library.ids_getElem? (L : Library) (j : Nat) :
    L.ids[j]? = (L.stored[j]?).map Book.getId := by
  simp [Library.ids]

namespace LMS

theorem addBook_ids {L : Library} (h : L.WF) (b : Book) (ht : (addBook L b).1 = true) :
    (addBook L b).2.ids = L.ids ++ [b.id] := by
  simp [Library.ids, (addBook_stored h b ht).1, Book.getId]

theorem addBook_IdsOk {L : Library} (h : L.IdsOk) (b : Book) (hb : FreshId b.id) :
    (addBook L b).2.IdsOk := by
  by_cases ht : (addBook L b).1 = true
  · obtain ⟨hwf, hgood, hnd⟩ := h
    obtain ⟨_, hne, hnew⟩ := (addBook_fst_iff hwf b).1 ht
    refine ⟨(addBook_stored hwf b ht).2.2.2, ?_, ?_⟩
    · rw [addBook_ids hwf b ht]
      intro s hs
      rcases List.mem_append.1 hs with hs | hs
      · exact hgood s hs
      · rw [List.mem_singleton] at hs
        subst hs
        rcases hb with hb | hb
        · exact absurd hb hne
        · exact hb
    · rw [addBook_ids hwf b ht]
      refine List.Nodup.append hnd (List.nodup_singleton _) ?_
      intro s hs1 hs2
      rw [List.mem_singleton] at hs2
      subst hs2
      obtain ⟨r, hr, hrid⟩ := List.mem_map.1 hs1
      exact hnew r hr hrid
  · rw [addBook_of_false b (by simpa using ht)]
    exact h

theorem editBook_found {L : Library} (h : L.IdsOk) {id : CStr} {k : Nat} {r : Book} (p : Book)
    (hf : findBookById L id = (k : Int)) (hk : k < L.count.toNat)
    (hb : L.books[k]? = some r) (hs : L.stored[k]? = some r) :
    (editBook L id p).1 = true ∧
      (editBook L id p).2.stored = L.stored.set k { p with id := r.id } ∧
      (editBook L id p).2.ids = L.ids ∧
      (editBook L id p).2.count = L.count ∧ (editBook L id p).2.capacity = L.capacity ∧
      (editBook L id p).2.WF := by
  obtain ⟨hwf, hgood, _⟩ := h
  obtain ⟨e1, e2, e3, e4, e5⟩ := editBook_of_find hwf p hf hk hb
  have hrid : r.id ∈ L.ids := List.mem_map.2 ⟨r, List.getElem?_mem hs, rfl⟩
  obtain ⟨g1, g2, g3⟩ := hgood _ hrid
  rw [setId_of_good p g1 g2 g3] at e2
  refine ⟨e1, e2, ?_, e3, e4, e5⟩
  apply List.ext_getElem?
  intro j
  rw [Library.ids_getElem?, Library.ids_getElem?, e2, List.getElem?_set]
  by_cases hj : k = j
  · subst hj
    rw [if_pos rfl, hs]
    have hlen : k < L.stored.length := by
      rcases Nat.lt_or_ge k L.stored.length with hh | hh
      · exact hh
      · rw [List.getElem?_eq_none hh] at hs; cases hs
    rw [if_pos hlen]
    rfl
  · rw [if_neg hj]

theorem editBook_IdsOk {L : Library} (h : L.IdsOk) (id : CStr) (p : Book) :
    (editBook L id p).2.IdsOk := by
  rcases findBookById_cases h.1 id with ⟨h1, _⟩ | ⟨k, r, h1, h2, h3, h4, _, _⟩
  · rw [editBook_of_not_found p h1]
    exact h
  · obtain ⟨_, _, e3, _, _, e6⟩ := editBook_found h p h1 h2 h3 h4
    refine ⟨e6, ?_, ?_⟩
    · rw [e3]; exact h.2.1
    · rw [e3]; exact h.2.2

theorem deleteBook_ids {L : Library} (h : L.WF) {id : CStr} {k : Nat}
    (hf : findBookById L id = (k : Int)) (hk : k < L.count.toNat) :
    (deleteBook L id).2.ids = L.ids.eraseIdx k := by
  rw [Library.ids, (deleteBook_of_find h hf hk).2.1]
  apply List.ext_getElem?
  intro j
  simp only [Library.ids, List.getElem?_map, List.getElem?_eraseIdx]
  by_cases hj : j < k
  · simp [hj]
  · simp [hj]

theorem deleteBook_IdsOk {L : Library} (h : L.IdsOk) (id : CStr) :
    (deleteBook L id).2.IdsOk := by
  rcases findBookById_cases h.1 id with ⟨h1, _⟩ | ⟨k, r, h1, h2, _, _, _, _⟩
  · rw [deleteBook_of_not_found h1]
    exact h
  · have hsub : ((deleteBook L id).2.ids).Sublist L.ids := by
      rw [deleteBook_ids h.1 h1 h2]
      exact List.eraseIdx_sublist _ _
    refine ⟨(deleteBook_of_find h.1 h1 h2).2.2.2.2, ?_, ?_⟩
    · exact fun s hs => h.2.1 s (hsub.subset hs)
    · exact List.Nodup.sublist hsub h.2.2

theorem Reachable.idsOk {L : Library} (h : Reachable L) : L.IdsOk := by
  induction h with
  | construct n => exact Library.construct_IdsOk n
  | addBook L b _ hb ih => exact addBook_IdsOk ih b hb.freshId
  | editBook L id p _ _ ih => exact editBook_IdsOk ih id p
  | deleteBook L id _ ih => exact deleteBook_IdsOk ih id

end LMS

namespace LibraryManagement

theorem editBook_cases (L : Library) (id : Option CStr) (p : Book) :
    (findBookById L id = -1 ∧ editBook L id p = (false, L)) ∨
    (∃ s : CStr, id = some s ∧ s ≠ [] ∧ findBookById L id = LMS.findBookById L s ∧
      editBook L id p = LMS.editBook L s p) := by
  cases id with
  | none => left; exact ⟨rfl, editBook_absent p rfl⟩
  | some s =>
    by_cases hs : s = []
    · subst hs
      left
      exact ⟨findBookById_empty L, editBook_absent p (findBookById_empty L)⟩
    · right
      exact ⟨s, rfl, hs, findBookById_some L hs, editBook_some L hs p⟩

theorem deleteBook_cases (L : Library) (id : Option CStr) :
    (findBookById L id = -1 ∧ deleteBook L id = (false, L)) ∨
    (∃ s : CStr, id = some s ∧ s ≠ [] ∧ findBookById L id = LMS.findBookById L s ∧
      deleteBook L id = LMS.deleteBook L s) := by
  cases id with
  | none => left; exact ⟨rfl, deleteBook_absent rfl⟩
  | some s =>
    by_cases hs : s = []
    · subst hs
      left
      exact ⟨findBookById_empty L, deleteBook_absent (findBookById_empty L)⟩
    · right
      exact ⟨s, rfl, hs, findBookById_some L hs, deleteBook_some L hs⟩

theorem Reachable.ids_ok {L : Library} (h : Reachable L) : L.IdsOk := by
  induction h with
  | construct n => exact Library.construct_IdsOk n
  | addBook L b _ hb ih =>
    rw [addBook_eq]
    exact LMS.addBook_IdsOk ih b hb.idFresh
  | editBook L id p _ _ ih =>
    rcases editBook_cases L id p with ⟨_, h2⟩ | ⟨s, _, _, _, h2⟩
    · rw [h2]; exact ih
    · rw [h2]; exact LMS.editBook_IdsOk ih s p
  | deleteBook L id _ ih =>
    rcases deleteBook_cases L id with ⟨_, h2⟩ | ⟨s, _, _, _, h2⟩
    · rw [h2]; exact ih
    · rw [h2]; exact LMS.deleteBook_IdsOk ih s

end LibraryManagement

/-! ### Lookup in terms of the stored ids -/

theorem nodup_not_mem_eraseIdx {α : Type} [DecidableEq α] {l : List α} (hl : l.Nodup)
    {k : Nat} {a : α} (hk : l[k]? = some a) : a ∉ l.eraseIdx k := by
  obtain ⟨hlt, heq⟩ := List.getElem?_eq_some.1 hk
  rw [← hl.erase_getElem k hlt, heq]
  exact hl.not_mem_erase

theorem Library.mem_ids_iff (L : Library) (id : CStr) :
    id ∈ L.ids ↔ ∃ r ∈ L.stored, r.id = id := by
  simp [Library.ids, Book.getId]

namespace LMS

theorem findBookById_found {L : Library} (h : L.WF) {id : CStr} (hne : findBookById L id ≠ -1) :
    ∃ (k : Nat) (r : Book), findBookById L id = (k : Int) ∧ k < L.count.toNat ∧
      L.books[k]? = some r ∧ L.stored[k]? = some r ∧ r.id = id ∧ L.ids[k]? = some id ∧
      ∀ j : Nat, j < k → L.ids[j]? ≠ some id := by
  rcases findBookById_cases h id with ⟨h1, _⟩ | ⟨k, r, h1, h2, h3, h4, h5, h6⟩
  · exact absurd h1 hne
  · refine ⟨k, r, h1, h2, h3, h4, h5, ?_, ?_⟩
    · rw [Library.ids_getElem?, h4]
      simp [Book.getId, h5]
    · intro j hj hh
      rw [Library.ids_getElem?] at hh
      cases hq : L.stored[j]? with
      | none => rw [hq] at hh; cases hh
      | some q =>
        rw [hq] at hh
        simp only [Option.map_some', Option.some.injEq, Book.getId] at hh
        exact h6 j q hj hq hh

theorem findBookById_ne_of_mem {L : Library} (h : L.WF) {id : CStr} (hm : id ∈ L.ids) :
    findBookById L id ≠ -1 := by
  intro hh
  obtain ⟨r, hr, hrid⟩ := (L.mem_ids_iff id).1 hm
  exact (findBookById_eq_neg_one_iff h id).1 hh r hr hrid

theorem findBookById_of_first {L : Library} (h : L.WF) {id : CStr} {k : Nat}
    (hk : L.ids[k]? = some id) (hfirst : ∀ j : Nat, j < k → L.ids[j]? ≠ some id) :
    findBookById L id = (k : Int) := by
  have hm : id ∈ L.ids := List.getElem?_mem hk
  obtain ⟨k2, r, h1, _, _, _, _, h6, h7⟩ := findBookById_found h (findBookById_ne_of_mem h hm)
  rw [h1]
  rcases Nat.lt_trichotomy k2 k with hlt | heq | hgt
  · exact absurd h6 (hfirst k2 hlt)
  · rw [heq]
  · exact absurd hk (h7 k hgt)

theorem findBookById_not_mem {L : Library} (h : L.WF) {id : CStr} (hm : id ∉ L.ids) :
    findBookById L id = -1 := by
  rw [findBookById_eq_neg_one_iff h]
  intro r hr hrid
  exact hm ((L.mem_ids_iff id).2 ⟨r, hr, hrid⟩)

end LMS

/-! ### Creating records -/

/-- C1: in both variants `addBook(b)` returns true exactly when `count < capacity`, the id of
`b` is non-empty, and none of the `count` stored records has an id equal to the id of `b`. -/
theorem C1_addBook_true_iff (L : Library) (b : Book) (h : L.WF) :
    ((LMS.addBook L b).1 = true ↔
      L.count < L.capacity ∧ b.getId ≠ [] ∧ ∀ r ∈ L.stored, r.getId ≠ b.getId) ∧
    ((LibraryManagement.addBook L b).1 = true ↔
      L.count < L.capacity ∧ b.getId ≠ [] ∧ ∀ r ∈ L.stored, r.getId ≠ b.getId) := by
  rw [LibraryManagement.addBook_eq]
  exact ⟨LMS.addBook_fst_iff h b, LMS.addBook_fst_iff h b⟩

theorem C1_addBook_true_iff_witness :
    Sample.libABCD.WF ∧
    (((LMS.addBook Sample.libABCD Sample.payload).1 = true ↔
      Sample.libABCD.count < Sample.libABCD.capacity ∧ Sample.payload.getId ≠ [] ∧
        ∀ r ∈ Sample.libABCD.stored, r.getId ≠ Sample.payload.getId) ∧
    ((LibraryManagement.addBook Sample.libABCD Sample.payload).1 = true ↔
      Sample.libABCD.count < Sample.libABCD.capacity ∧ Sample.payload.getId ≠ [] ∧
        ∀ r ∈ Sample.libABCD.stored, r.getId ≠ Sample.payload.getId)) :=
  ⟨by decide, C1_addBook_true_iff Sample.libABCD Sample.payload (by decide)⟩

/-- C2: in both variants a successful `addBook(b)` appends `b` after the previously stored
records, raises `count` by exactly one, and `getBookById(b.getId())` then succeeds and
yields a record equal to `b`. -/
theorem C2_addBook_appends (L : Library) (b bookOut : Book) (h : L.WF) :
    ((LMS.addBook L b).1 = true →
      (LMS.addBook L b).2.stored = L.stored ++ [b] ∧
      (LMS.addBook L b).2.getCount = L.getCount + 1 ∧
      LMS.getBookById (LMS.addBook L b).2 b.getId bookOut = (true, b)) ∧
    ((LibraryManagement.addBook L b).1 = true →
      (LibraryManagement.addBook L b).2.stored = L.stored ++ [b] ∧
      (LibraryManagement.addBook L b).2.getCount = L.getCount + 1 ∧
      LibraryManagement.getBookById (LibraryManagement.addBook L b).2 (some b.getId) bookOut =
        (true, b)) := by
  have key : (LMS.addBook L b).1 = true →
      (LMS.addBook L b).2.stored = L.stored ++ [b] ∧
      (LMS.addBook L b).2.getCount = L.getCount + 1 ∧
      LMS.getBookById (LMS.addBook L b).2 b.getId bookOut = (true, b) := by
    intro ht
    obtain ⟨e1, e2, _, e4⟩ := LMS.addBook_stored h b ht
    obtain ⟨_, _, hnew⟩ := (LMS.addBook_fst_iff h b).1 ht
    refine ⟨e1, e2, ?_⟩
    obtain ⟨n, hn, hl, hnat⟩ := h.count_nat
    have hlen : L.stored.length = n := by
      simp [Library.stored, hnat, hl]
    have hidx : (LMS.addBook L b).2.ids[n]? = some b.getId := by
      rw [Library.ids_getElem?, e1, List.getElem?_append_right (by omega)]
      simp [hlen]
    have hfirst : ∀ j : Nat, j < n → (LMS.addBook L b).2.ids[j]? ≠ some b.getId := by
      intro j hj hh
      rw [Library.ids_getElem?, e1, List.getElem?_append_left (by omega)] at hh
      cases hq : L.stored[j]? with
      | none => rw [hq] at hh; cases hh
      | some q =>
        rw [hq] at hh
        simp only [Option.map_some', Option.some.injEq] at hh
        exact hnew q (List.getElem?_mem hq) hh
    have hfind := LMS.findBookById_of_first e4 hidx hfirst
    have hbook : (LMS.addBook L b).2.books[n]? = some b := by
      have := Library.stored_getElem? (LMS.addBook L b).2 n
      rw [e1, List.getElem?_append_right (by omega)] at this
      have hc : (LMS.addBook L b).2.count.toNat = n + 1 := by
        rw [e2]; omega
      rw [hc, if_pos (by omega)] at this
      rw [← this]
      simp [hlen]
    exact LMS.getBookById_of_find bookOut hfind hbook
  refine ⟨key, ?_⟩
  intro ht
  rw [LibraryManagement.addBook_eq] at ht ⊢
  obtain ⟨_, hne, _⟩ := (LMS.addBook_fst_iff h b).1 ht
  have hne2 : b.getId ≠ [] := hne
  rw [LibraryManagement.getBookById_some _ hne2]
  exact key ht

theorem C2_addBook_appends_witness :
    Sample.libABCD.WF ∧
    (LMS.addBook Sample.libABCD Sample.payload).1 = true ∧
    (LibraryManagement.addBook Sample.libABCD Sample.payload).1 = true ∧
    ((LMS.addBook Sample.libABCD Sample.payload).2.stored =
        Sample.libABCD.stored ++ [Sample.payload] ∧
      (LMS.addBook Sample.libABCD Sample.payload).2.getCount = Sample.libABCD.getCount + 1 ∧
      LMS.getBookById (LMS.addBook Sample.libABCD Sample.payload).2 Sample.payload.getId
        Book.new = (true, Sample.payload)) ∧
    ((LibraryManagement.addBook Sample.libABCD Sample.payload).2.stored =
        Sample.libABCD.stored ++ [Sample.payload] ∧
      (LibraryManagement.addBook Sample.libABCD Sample.payload).2.getCount =
        Sample.libABCD.getCount + 1 ∧
      LibraryManagement.getBookById (LibraryManagement.addBook Sample.libABCD Sample.payload).2
        (some Sample.payload.getId) Book.new = (true, Sample.payload)) :=
  ⟨by decide, by decide, by decide,
    (C2_addBook_appends Sample.libABCD Sample.payload Book.new (by decide)).1 (by decide),
    (C2_addBook_appends Sample.libABCD Sample.payload Book.new (by decide)).2 (by decide)⟩

/-- C3: in both variants an `addBook` call that returns false leaves the `Library` object
exactly as it was (count, capacity, stored records and their order); in particular, after a
successful `addBook(c)`, an `addBook(d)` with the id of `c` returns false and leaves the
state as it was after the first call. -/
theorem C3_addBook_failure_unchanged (L : Library) (b c d : Book) (h : L.WF) :
    ((LMS.addBook L b).1 = false → (LMS.addBook L b).2 = L) ∧
    ((LMS.addBook L c).1 = true → d.getId = c.getId →
      (LMS.addBook (LMS.addBook L c).2 d).1 = false ∧
      (LMS.addBook (LMS.addBook L c).2 d).2 = (LMS.addBook L c).2) ∧
    ((LibraryManagement.addBook L b).1 = false → (LibraryManagement.addBook L b).2 = L) ∧
    ((LibraryManagement.addBook L c).1 = true → d.getId = c.getId →
      (LibraryManagement.addBook (LibraryManagement.addBook L c).2 d).1 = false ∧
      (LibraryManagement.addBook (LibraryManagement.addBook L c).2 d).2 =
        (LibraryManagement.addBook L c).2) := by
  have key : (LMS.addBook L c).1 = true → d.getId = c.getId →
      (LMS.addBook (LMS.addBook L c).2 d).1 = false ∧
      (LMS.addBook (LMS.addBook L c).2 d).2 = (LMS.addBook L c).2 := by
    intro ht hd
    obtain ⟨e1, _, _, e4⟩ := LMS.addBook_stored h c ht
    have hf : (LMS.addBook (LMS.addBook L c).2 d).1 = false := by
      cases hv : (LMS.addBook (LMS.addBook L c).2 d).1 with
      | false => rfl
      | true =>
        obtain ⟨_, _, hnew⟩ := (LMS.addBook_fst_iff e4 d).1 hv
        exact absurd hd.symm (hnew c (by rw [e1]; simp))
    exact ⟨hf, LMS.addBook_of_false d hf⟩
  simp only [LibraryManagement.addBook_eq]
  exact ⟨LMS.addBook_of_false b, key, LMS.addBook_of_false b, key⟩

theorem C3_addBook_failure_unchanged_witness :
    Sample.libABCD.WF ∧
    (LMS.addBook Sample.libABCD Sample.bookA).1 = false ∧
    (LMS.addBook Sample.libABCD Sample.payload).1 = true ∧
    (LibraryManagement.addBook Sample.libABCD Sample.bookA).1 = false ∧
    (LibraryManagement.addBook Sample.libABCD Sample.payload).1 = true ∧
    Sample.payloadTwin.getId = Sample.payload.getId ∧
    (LMS.addBook Sample.libABCD Sample.bookA).2 = Sample.libABCD ∧
    ((LMS.addBook (LMS.addBook Sample.libABCD Sample.payload).2 Sample.payloadTwin).1 = false ∧
      (LMS.addBook (LMS.addBook Sample.libABCD Sample.payload).2 Sample.payloadTwin).2 =
        (LMS.addBook Sample.libABCD Sample.payload).2) ∧
    (LibraryManagement.addBook Sample.libABCD Sample.bookA).2 = Sample.libABCD ∧
    ((LibraryManagement.addBook (LibraryManagement.addBook Sample.libABCD Sample.payload).2
        Sample.payloadTwin).1 = false ∧
      (LibraryManagement.addBook (LibraryManagement.addBook Sample.libABCD Sample.payload).2
        Sample.payloadTwin).2 = (LibraryManagement.addBook Sample.libABCD Sample.payload).2) :=
  have t := C3_addBook_failure_unchanged Sample.libABCD Sample.bookA Sample.payload
    Sample.payloadTwin (by decide)
  ⟨by decide, by decide, by decide, by decide, by decide, by decide,
    t.1 (by decide), t.2.1 (by decide) (by decide),
    t.2.2.1 (by decide), t.2.2.2 (by decide) (by decide)⟩

/-! ### Editing records -/

theorem LMS.editBook_spec {L : Library} (h : L.IdsOk) {id : CStr} (hm : id ∈ L.ids)
    (p bookOut : Book) :
    (LMS.editBook L id p).1 = true ∧
    ∃ (k : Nat) (r : Book),
      LMS.getBookById (LMS.editBook L id p).2 id bookOut = (true, r) ∧
      r = { p with id := id } ∧
      LMS.findBookById L id = (k : Int) ∧
      LMS.findBookById (LMS.editBook L id p).2 id = (k : Int) ∧
      k < L.stored.length ∧
      (LMS.editBook L id p).2.stored = L.stored.set k r ∧
      (LMS.editBook L id p).2.getCount = L.getCount := by
  obtain ⟨k, r0, hf, hk, hb, hs, hrid, hidk, hfirst⟩ :=
    LMS.findBookById_found h.1 (LMS.findBookById_ne_of_mem h.1 hm)
  obtain ⟨e1, e2, e3, e4, _, e6⟩ := LMS.editBook_found h p hf hk hb hs
  have hlen : k < L.stored.length := by
    rcases Nat.lt_or_ge k L.stored.length with hh | hh
    · exact hh
    · rw [List.getElem?_eq_none hh] at hs; cases hs
  have hfind : LMS.findBookById (LMS.editBook L id p).2 id = (k : Int) := by
    apply LMS.findBookById_of_first e6
    · rw [e3]; exact hidk
    · rw [e3]; exact hfirst
  have hbook : (LMS.editBook L id p).2.books[k]? = some { p with id := id } := by
    have := Library.stored_getElem? (LMS.editBook L id p).2 k
    rw [e2, e4, if_pos hk, List.getElem?_set, if_pos rfl, if_pos hlen, hrid] at this
    exact this.symm
  refine ⟨e1, k, { p with id := id }, LMS.getBookById_of_find bookOut hfind hbook, rfl, hf,
    hfind, hlen, ?_, e4⟩
  rw [e2, hrid]

/-- C4: in both variants, on a reachable catalog, for an id held by a stored record and any
payload `p`, `editBook(id, p)` returns true; afterwards `getBookById(id)` yields a record whose
id is `id` (whatever id `p` carries) and whose other six fields are those of `p`; the record
sits at the position it had, `count` is unchanged and every other stored record is
unchanged. -/
theorem C4_editBook_keeps_id (L : Library) (id : CStr) (p bookOut : Book) :
    (LMS.Reachable L → id ∈ L.ids →
      (LMS.editBook L id p).1 = true ∧
      ∃ (k : Nat) (r : Book),
        LMS.getBookById (LMS.editBook L id p).2 id bookOut = (true, r) ∧
        (r.getId = id ∧ r.getIsbn = p.getIsbn ∧ r.getTitle = p.getTitle ∧
          r.getAuthor = p.getAuthor ∧ r.getEdition = p.getEdition ∧
          r.getPublication = p.getPublication ∧ r.getCategory = p.getCategory) ∧
        LMS.findBookById L id = (k : Int) ∧
        LMS.findBookById (LMS.editBook L id p).2 id = (k : Int) ∧
        k < L.stored.length ∧
        (LMS.editBook L id p).2.stored = L.stored.set k r ∧
        (LMS.editBook L id p).2.getCount = L.getCount) ∧
    (LibraryManagement.Reachable L → id ∈ L.ids →
      (LibraryManagement.editBook L (some id) p).1 = true ∧
      ∃ (k : Nat) (r : Book),
        LibraryManagement.getBookById (LibraryManagement.editBook L (some id) p).2 (some id)
          bookOut = (true, r) ∧
        (r.getId = id ∧ r.getIsbn = p.getIsbn ∧ r.getTitle = p.getTitle ∧
          r.getAuthor = p.getAuthor ∧ r.getEdition = p.getEdition ∧
          r.getPublication = p.getPublication ∧ r.getCategory = p.getCategory) ∧
        LibraryManagement.findBookById L (some id) = (k : Int) ∧
        LibraryManagement.findBookById (LibraryManagement.editBook L (some id) p).2 (some id) =
          (k : Int) ∧
        k < L.stored.length ∧
        (LibraryManagement.editBook L (some id) p).2.stored = L.stored.set k r ∧
        (LibraryManagement.editBook L (some id) p).2.getCount = L.getCount) := by
  constructor
  · intro hr hm
    obtain ⟨e1, k, r, g1, g2, g3, g4, g5, g6, g7⟩ := LMS.editBook_spec hr.idsOk hm p bookOut
    refine ⟨e1, k, r, g1, ?_, g3, g4, g5, g6, g7⟩
    subst g2
    exact ⟨rfl, rfl, rfl, rfl, rfl, rfl, rfl⟩
  · intro hr hm
    have hne : id ≠ [] := (hr.ids_ok.2.1 id hm).1
    rw [LibraryManagement.editBook_some L hne, LibraryManagement.getBookById_some _ hne,
      LibraryManagement.findBookById_some _ hne, LibraryManagement.findBookById_some _ hne]
    obtain ⟨e1, k, r, g1, g2, g3, g4, g5, g6, g7⟩ := LMS.editBook_spec hr.ids_ok hm p bookOut
    refine ⟨e1, k, r, g1, ?_, g3, g4, g5, g6, g7⟩
    subst g2
    exact ⟨rfl, rfl, rfl, rfl, rfl, rfl, rfl⟩

theorem Sample.builtA_LMS : LMS.SetterBuilt Sample.builtA :=
  LMS.SetterBuilt.setId Book.new (some ['A']) LMS.SetterBuilt.new

theorem Sample.builtB_LMS : LMS.SetterBuilt Sample.builtB :=
  LMS.SetterBuilt.setId Book.new (some ['B']) LMS.SetterBuilt.new

theorem Sample.builtA_LM : LibraryManagement.SetterBuilt Sample.builtA :=
  LibraryManagement.SetterBuilt.setId Book.new (some ['A']) LibraryManagement.SetterBuilt.new

theorem Sample.builtB_LM : LibraryManagement.SetterBuilt Sample.builtB :=
  LibraryManagement.SetterBuilt.setId Book.new (some ['B']) LibraryManagement.SetterBuilt.new

theorem Sample.reachAB_LMS : LMS.Reachable Sample.reachAB :=
  LMS.Reachable.addBook _ Sample.builtB
    (LMS.Reachable.addBook _ Sample.builtA (LMS.Reachable.construct 3) Sample.builtA_LMS)
    Sample.builtB_LMS

theorem Sample.reachAB_LM : LibraryManagement.Reachable Sample.reachAB :=
  LibraryManagement.Reachable.addBook _ Sample.builtB
    (LibraryManagement.Reachable.addBook _ Sample.builtA
      (LibraryManagement.Reachable.construct 3) Sample.builtA_LM)
    Sample.builtB_LM

theorem C4_editBook_keeps_id_witness :
    LMS.Reachable Sample.reachAB ∧ LibraryManagement.Reachable Sample.reachAB ∧
    ['B'] ∈ Sample.reachAB.ids ∧
    (LMS.editBook Sample.reachAB ['B'] Sample.payload).1 = true ∧
    (LibraryManagement.editBook Sample.reachAB (some ['B']) Sample.payload).1 = true ∧
    (LMS.editBook Sample.reachAB ['B'] Sample.payload).2.stored =
      [Sample.builtA, { Sample.payload with id := ['B'] }] :=
  ⟨Sample.reachAB_LMS, Sample.reachAB_LM, by decide,
    ((C4_editBook_keeps_id Sample.reachAB ['B'] Sample.payload Book.new).1
      Sample.reachAB_LMS (by decide)).1,
    ((C4_editBook_keeps_id Sample.reachAB ['B'] Sample.payload Book.new).2
      Sample.reachAB_LM (by decide)).1,
    by decide⟩

/-! ### Deleting records -/

theorem LMS.deleteBook_spec {L : Library} (h : L.WF) {id : CStr}
    (ht : (LMS.deleteBook L id).1 = true) :
    ∃ k : Nat, LMS.findBookById L id = (k : Int) ∧ k < L.stored.length ∧
      L.ids[k]? = some id ∧ (∀ j : Nat, j < k → L.ids[j]? ≠ some id) ∧
      (LMS.deleteBook L id).2.stored = L.stored.eraseIdx k ∧
      (LMS.deleteBook L id).2.ids = L.ids.eraseIdx k ∧
      (∀ j : Nat, j < k → (LMS.deleteBook L id).2.stored[j]? = L.stored[j]?) ∧
      (∀ j : Nat, k ≤ j → (LMS.deleteBook L id).2.stored[j]? = L.stored[j + 1]?) ∧
      (LMS.deleteBook L id).2.getCount = L.getCount - 1 ∧
      (LMS.deleteBook L id).2.WF := by
  have hne : LMS.findBookById L id ≠ -1 := by
    intro hh
    rw [LMS.deleteBook_of_not_found hh] at ht
    cases ht
  obtain ⟨k, r, hf, hk, _, hs, _, hidk, hfirst⟩ := LMS.findBookById_found h hne
  obtain ⟨_, e2, e3, _, e5⟩ := LMS.deleteBook_of_find h hf hk
  have hlen : k < L.stored.length := by
    rcases Nat.lt_or_ge k L.stored.length with hh | hh
    · exact hh
    · rw [List.getElem?_eq_none hh] at hs; cases hs
  refine ⟨k, hf, hlen, hidk, hfirst, e2, LMS.deleteBook_ids h hf hk, ?_, ?_, e3, e5⟩
  · intro j hj
    rw [e2, List.getElem?_eraseIdx, if_pos hj]
  · intro j hj
    rw [e2, List.getElem?_eraseIdx, if_neg (by omega)]

/-- C5: in both variants a successful `deleteBook(id)` removes the record at the first index
whose id equals `id`: the records before it stay in place, every later record moves one
position earlier, the order of the remaining records is preserved, and `count` decreases by
exactly one. -/
theorem C5_deleteBook_shifts (L : Library) (id : CStr) (h : L.WF) :
    ((LMS.deleteBook L id).1 = true →
      ∃ k : Nat, LMS.findBookById L id = (k : Int) ∧ k < L.stored.length ∧
        L.ids[k]? = some id ∧ (∀ j : Nat, j < k → L.ids[j]? ≠ some id) ∧
        (LMS.deleteBook L id).2.stored = L.stored.eraseIdx k ∧
        (∀ j : Nat, j < k → (LMS.deleteBook L id).2.stored[j]? = L.stored[j]?) ∧
        (∀ j : Nat, k ≤ j → (LMS.deleteBook L id).2.stored[j]? = L.stored[j + 1]?) ∧
        (LMS.deleteBook L id).2.getCount = L.getCount - 1) ∧
    ((LibraryManagement.deleteBook L (some id)).1 = true →
      ∃ k : Nat, LibraryManagement.findBookById L (some id) = (k : Int) ∧
        k < L.stored.length ∧
        L.ids[k]? = some id ∧ (∀ j : Nat, j < k → L.ids[j]? ≠ some id) ∧
        (LibraryManagement.deleteBook L (some id)).2.stored = L.stored.eraseIdx k ∧
        (∀ j : Nat, j < k →
          (LibraryManagement.deleteBook L (some id)).2.stored[j]? = L.stored[j]?) ∧
        (∀ j : Nat, k ≤ j →
          (LibraryManagement.deleteBook L (some id)).2.stored[j]? = L.stored[j + 1]?) ∧
        (LibraryManagement.deleteBook L (some id)).2.getCount = L.getCount - 1) := by
  constructor
  · intro ht
    obtain ⟨k, g1, g2, g3, g4, g5, _, g7, g8, g9, _⟩ := LMS.deleteBook_spec h ht
    exact ⟨k, g1, g2, g3, g4, g5, g7, g8, g9⟩
  · intro ht
    have hne : id ≠ [] := by
      intro hh
      subst hh
      rw [LibraryManagement.deleteBook_absent (LibraryManagement.findBookById_empty L)]
        at ht
      cases ht
    rw [LibraryManagement.deleteBook_some L hne] at ht ⊢
    rw [LibraryManagement.findBookById_some L hne]
    obtain ⟨k, g1, g2, g3, g4, g5, _, g7, g8, g9, _⟩ := LMS.deleteBook_spec h ht
    exact ⟨k, g1, g2, g3, g4, g5, g7, g8, g9⟩

theorem C5_deleteBook_shifts_witness :
    Sample.libABCD.WF ∧
    (LMS.deleteBook Sample.libABCD ['B']).1 = true ∧
    (LibraryManagement.deleteBook Sample.libABCD (some ['B'])).1 = true ∧
    Sample.libABCD.ids = [['A'], ['B'], ['C'], ['D']] ∧
    (LMS.deleteBook Sample.libABCD ['B']).2.ids = [['A'], ['C'], ['D']] ∧
    (LibraryManagement.deleteBook Sample.libABCD (some ['B'])).2.ids = [['A'], ['C'], ['D']] ∧
    (∃ k : Nat, LMS.findBookById Sample.libABCD ['B'] = (k : Int) ∧
      (LMS.deleteBook Sample.libABCD ['B']).2.stored = Sample.libABCD.stored.eraseIdx k) ∧
    (∃ k : Nat, LibraryManagement.findBookById Sample.libABCD (some ['B']) = (k : Int) ∧
      (LibraryManagement.deleteBook Sample.libABCD (some ['B'])).2.stored =
        Sample.libABCD.stored.eraseIdx k) :=
  ⟨by decide, by decide, by decide, by decide, by decide, by decide,
    ((C5_deleteBook_shifts Sample.libABCD ['B'] (by decide)).1 (by decide)).imp
      (fun _ hk => ⟨hk.1, hk.2.2.2.2.1⟩),
    ((C5_deleteBook_shifts Sample.libABCD ['B'] (by decide)).2 (by decide)).imp
      (fun _ hk => ⟨hk.1, hk.2.2.2.2.1⟩)⟩

theorem LMS.deleteBook_then_absent {L : Library} (h : L.IdsOk) {id : CStr} (bookOut : Book)
    (ht : (LMS.deleteBook L id).1 = true) :
    LMS.getBookById (LMS.deleteBook L id).2 id bookOut = (false, bookOut) ∧
    LMS.findBookById (LMS.deleteBook L id).2 id = -1 ∧
    LMS.isIdDuplicate (LMS.deleteBook L id).2 id = false := by
  obtain ⟨k, _, _, g3, _, _, g6, _, _, _, g10⟩ := LMS.deleteBook_spec h.1 ht
  have hnot : id ∉ (LMS.deleteBook L id).2.ids := by
    rw [g6]
    exact nodup_not_mem_eraseIdx h.2.2 g3
  have hfind := LMS.findBookById_not_mem g10 hnot
  refine ⟨LMS.getBookById_of_not_found bookOut hfind, hfind, ?_⟩
  cases hv : LMS.isIdDuplicate (LMS.deleteBook L id).2 id with
  | false => rfl
  | true => exact absurd hfind ((LMS.isIdDuplicate_iff_find _ _).1 hv)

/-- C6: in both variants, on a reachable catalog, after a successful `deleteBook(id)` the
calls `getBookById(id)` and `findBookById(id)` report not found (false, -1) and
`isIdDuplicate(id)` is false. -/
theorem C6_deleteBook_then_not_found (L : Library) (id : CStr) (oid : Option CStr)
    (bookOut : Book) :
    (LMS.Reachable L → (LMS.deleteBook L id).1 = true →
      LMS.getBookById (LMS.deleteBook L id).2 id bookOut = (false, bookOut) ∧
      LMS.findBookById (LMS.deleteBook L id).2 id = -1 ∧
      LMS.isIdDuplicate (LMS.deleteBook L id).2 id = false) ∧
    (LibraryManagement.Reachable L → (LibraryManagement.deleteBook L oid).1 = true →
      LibraryManagement.getBookById (LibraryManagement.deleteBook L oid).2 oid bookOut =
        (false, bookOut) ∧
      LibraryManagement.findBookById (LibraryManagement.deleteBook L oid).2 oid = -1 ∧
      LibraryManagement.isIdDuplicate (LibraryManagement.deleteBook L oid).2 oid = false) := by
  constructor
  · intro hr ht
    exact LMS.deleteBook_then_absent hr.idsOk bookOut ht
  · intro hr ht
    rcases LibraryManagement.deleteBook_cases L oid with ⟨_, h2⟩ | ⟨s, h1, hne, _, h2⟩
    · rw [h2] at ht
      cases ht
    · subst h1
      rw [h2] at ht ⊢
      obtain ⟨g1, g2, g3⟩ := LMS.deleteBook_then_absent hr.ids_ok bookOut ht
      have hfind : LibraryManagement.findBookById (LMS.deleteBook L s).2 (some s) = -1 := by
        rw [LibraryManagement.findBookById_some _ hne]
        exact g2
      refine ⟨LibraryManagement.getBookById_absent bookOut hfind, hfind, ?_⟩
      rw [LibraryManagement.isIdDuplicate_some _ hne]
      exact g3

theorem C6_deleteBook_then_not_found_witness :
    LMS.Reachable Sample.reachAB ∧ LibraryManagement.Reachable Sample.reachAB ∧
    (LMS.deleteBook Sample.reachAB ['A']).1 = true ∧
    (LibraryManagement.deleteBook Sample.reachAB (some ['A'])).1 = true ∧
    (LMS.getBookById (LMS.deleteBook Sample.reachAB ['A']).2 ['A'] Book.new =
        (false, Book.new) ∧
      LMS.findBookById (LMS.deleteBook Sample.reachAB ['A']).2 ['A'] = -1 ∧
      LMS.isIdDuplicate (LMS.deleteBook Sample.reachAB ['A']).2 ['A'] = false) ∧
    (LibraryManagement.getBookById (LibraryManagement.deleteBook Sample.reachAB (some ['A'])).2
        (some ['A']) Book.new = (false, Book.new) ∧
      LibraryManagement.findBookById
        (LibraryManagement.deleteBook Sample.reachAB (some ['A'])).2 (some ['A']) = -1 ∧
      LibraryManagement.isIdDuplicate
        (LibraryManagement.deleteBook Sample.reachAB (some ['A'])).2 (some ['A']) = false) :=
  ⟨Sample.reachAB_LMS, Sample.reachAB_LM, by decide, by decide,
    (C6_deleteBook_then_not_found Sample.reachAB ['A'] (some ['A']) Book.new).1
      Sample.reachAB_LMS (by decide),
    (C6_deleteBook_then_not_found Sample.reachAB ['A'] (some ['A']) Book.new).2
      Sample.reachAB_LM (by decide)⟩

/-! ### The id invariant -/

theorem LMS.ids_invariant {L : Library} (h : L.IdsOk) :
    L.ids.Nodup ∧
    (∀ s ∈ L.ids, s ≠ [] ∧ ∀ c ∈ s, isalnum c = true) ∧
    (∀ (id : CStr) (p : Book), (LMS.editBook L id p).2.ids = L.ids) ∧
    (∀ b : Book,
      ((LMS.addBook L b).1 = false ∧ (LMS.addBook L b).2 = L) ∨
      ((LMS.addBook L b).1 = true ∧ (LMS.addBook L b).2.ids = L.ids ++ [b.getId])) ∧
    (∀ id : CStr,
      ((LMS.deleteBook L id).1 = false ∧ (LMS.deleteBook L id).2 = L) ∨
      ((LMS.deleteBook L id).1 = true ∧
        ∃ k : Nat, L.ids[k]? = some id ∧ (LMS.deleteBook L id).2.ids = L.ids.eraseIdx k)) := by
  refine ⟨h.2.2, ?_, ?_, ?_, ?_⟩
  · intro s hs
    obtain ⟨g1, g2, _⟩ := h.2.1 s hs
    exact ⟨g1, (allAlnum_iff s).1 g2⟩
  · intro id p
    rcases LMS.findBookById_cases h.1 id with ⟨h1, _⟩ | ⟨k, r, h1, h2, h3, h4, _, _⟩
    · rw [LMS.editBook_of_not_found p h1]
    · exact (LMS.editBook_found h p h1 h2 h3 h4).2.2.1
  · intro b
    cases hv : (LMS.addBook L b).1 with
    | false => left; exact ⟨rfl, LMS.addBook_of_false b hv⟩
    | true => right; exact ⟨rfl, LMS.addBook_ids h.1 b hv⟩
  · intro id
    cases hv : (LMS.deleteBook L id).1 with
    | false =>
      left
      refine ⟨rfl, ?_⟩
      rcases LMS.findBookById_cases h.1 id with ⟨h1, _⟩ | ⟨k, r, h1, h2, _, _, _, _⟩
      · rw [LMS.deleteBook_of_not_found h1]
      · rw [(LMS.deleteBook_of_find h.1 h1 h2).1] at hv
        cases hv
    | true =>
      right
      obtain ⟨k, _, _, g3, _, _, g6, _⟩ := LMS.deleteBook_spec h.1 hv
      exact ⟨rfl, k, g3, g6⟩

/-- C7: in both variants, in every reachable catalog the stored ids are pairwise distinct,
non-empty and purely alphanumeric; `editBook` leaves every stored id as it is, `addBook`
either fails and changes nothing or appends one id after the unchanged ones, and
`deleteBook` either fails and changes nothing or removes exactly the id of the deleted
record and keeps all others. -/
theorem C7_ids_distinct_and_immutable (L : Library) :
    (LMS.Reachable L →
      L.ids.Nodup ∧
      (∀ s ∈ L.ids, s ≠ [] ∧ ∀ c ∈ s, isalnum c = true) ∧
      (∀ (id : CStr) (p : Book), (LMS.editBook L id p).2.ids = L.ids) ∧
      (∀ b : Book,
        ((LMS.addBook L b).1 = false ∧ (LMS.addBook L b).2 = L) ∨
        ((LMS.addBook L b).1 = true ∧ (LMS.addBook L b).2.ids = L.ids ++ [b.getId])) ∧
      (∀ id : CStr,
        ((LMS.deleteBook L id).1 = false ∧ (LMS.deleteBook L id).2 = L) ∨
        ((LMS.deleteBook L id).1 = true ∧
          ∃ k : Nat, L.ids[k]? = some id ∧
            (LMS.deleteBook L id).2.ids = L.ids.eraseIdx k))) ∧
    (LibraryManagement.Reachable L →
      L.ids.Nodup ∧
      (∀ s ∈ L.ids, s ≠ [] ∧ ∀ c ∈ s, isalnum c = true) ∧
      (∀ (id : Option CStr) (p : Book), (LibraryManagement.editBook L id p).2.ids = L.ids) ∧
      (∀ b : Book,
        ((LibraryManagement.addBook L b).1 = false ∧ (LibraryManagement.addBook L b).2 = L) ∨
        ((LibraryManagement.addBook L b).1 = true ∧
          (LibraryManagement.addBook L b).2.ids = L.ids ++ [b.getId])) ∧
      (∀ id : Option CStr,
        ((LibraryManagement.deleteBook L id).1 = false ∧
          (LibraryManagement.deleteBook L id).2 = L) ∨
        ((LibraryManagement.deleteBook L id).1 = true ∧
          ∃ k : Nat, L.ids[k]? = id ∧
            (LibraryManagement.deleteBook L id).2.ids = L.ids.eraseIdx k))) := by
  constructor
  · intro hr
    exact LMS.ids_invariant hr.idsOk
  · intro hr
    obtain ⟨g1, g2, g3, g4, g5⟩ := LMS.ids_invariant hr.ids_ok
    refine ⟨g1, g2, ?_, ?_, ?_⟩
    · intro id p
      rcases LibraryManagement.editBook_cases L id p with ⟨_, h2⟩ | ⟨s, _, _, _, h2⟩
      · rw [h2]
      · rw [h2]; exact g3 s p
    · intro b
      rw [LibraryManagement.addBook_eq]
      exact g4 b
    · intro id
      rcases LibraryManagement.deleteBook_cases L id with ⟨_, h2⟩ | ⟨s, h1, _, _, h2⟩
      · left
        rw [h2]
        exact ⟨rfl, rfl⟩
      · subst h1
        rw [h2]
        exact g5 s

theorem C7_ids_distinct_and_immutable_witness :
    LMS.Reachable Sample.reachAB ∧ LibraryManagement.Reachable Sample.reachAB ∧
    Sample.reachAB.ids = [['A'], ['B']] ∧
    (Sample.reachAB.ids.Nodup ∧
      (∀ s ∈ Sample.reachAB.ids, s ≠ [] ∧ ∀ c ∈ s, isalnum c = true)) ∧
    (∀ (id : Option CStr) (p : Book),
      (LibraryManagement.editBook Sample.reachAB id p).2.ids = Sample.reachAB.ids) :=
  ⟨Sample.reachAB_LMS, Sample.reachAB_LM, by decide,
    ⟨((C7_ids_distinct_and_immutable Sample.reachAB).1 Sample.reachAB_LMS).1,
      ((C7_ids_distinct_and_immutable Sample.reachAB).1 Sample.reachAB_LMS).2.1⟩,
    ((C7_ids_distinct_and_immutable Sample.reachAB).2 Sample.reachAB_LM).2.2.1⟩

/-! ### Capacity -/

namespace LMS

theorem addBook_full {L : Library} (b : Book) (h : L.count ≥ L.capacity) :
    addBook L b = (false, L) := by
  unfold addBook
  rw [if_pos h]

theorem addAll_append (L : Library) (xs ys : List Book) :
    addAll L (xs ++ ys) =
      ((addAll L xs).1 ++ (addAll (addAll L xs).2 ys).1, (addAll (addAll L xs).2 ys).2) := by
  induction xs generalizing L with
  | nil => rfl
  | cons x xs ih =>
    show addAll L (x :: (xs ++ ys)) = _
    simp only [addAll, ih, List.cons_append]

theorem addAll_room (bs : List Book) :
    ∀ L : Library, L.WF → (bs.map Book.getId).Nodup → (∀ b ∈ bs, b.getId ≠ []) →
      (∀ b ∈ bs, b.getId ∉ L.ids) → L.count + (bs.length : Int) ≤ L.capacity →
      (addAll L bs).1 = List.replicate bs.length true ∧
      (addAll L bs).2.count = L.count + (bs.length : Int) ∧
      (addAll L bs).2.capacity = L.capacity ∧ (addAll L bs).2.WF := by
  induction bs with
  | nil =>
    intro L h _ _ _ _
    simp only [addAll, List.length_nil, List.replicate_zero, Nat.cast_zero, add_zero]
    exact ⟨trivial, trivial, trivial, h⟩
  | cons b bs ih =>
    intro L h hnd hne hnew hroom
    simp only [List.map_cons, List.nodup_cons] at hnd
    simp only [List.length_cons, Nat.cast_add, Nat.cast_one] at hroom
    have hb : (addBook L b).1 = true := by
      rw [addBook_fst_iff h]
      refine ⟨by omega, hne b (List.mem_cons_self _ _), fun r hr hrid => ?_⟩
      exact hnew b (List.mem_cons_self _ _) ((L.mem_ids_iff _).2 ⟨r, hr, hrid⟩)
    obtain ⟨_, e2, e3, e4⟩ := addBook_stored h b hb
    have hids := addBook_ids h b hb
    obtain ⟨i1, i2, i3, i4⟩ := ih (addBook L b).2 e4 hnd.2
      (fun x hx => hne x (List.mem_cons_of_mem _ hx))
      (fun x hx hmem => by
        rw [hids] at hmem
        rcases List.mem_append.1 hmem with hm | hm
        · exact hnew x (List.mem_cons_of_mem _ hx) hm
        · rw [List.mem_singleton] at hm
          exact hnd.1 (List.mem_map.2 ⟨x, hx, hm⟩))
      (by rw [e2, e3]; omega)
    simp only [addAll, List.length_cons, List.replicate_succ]
    refine ⟨?_, ?_, ?_, i4⟩
    · rw [hb, i1]
    · rw [i2, e2]
      push_cast
      omega
    · rw [i3, e3]

end LMS

theorem LibraryManagement.addAll_eq (L : Library) (bs : List Book) :
    LibraryManagement.addAll L bs = LMS.addAll L bs := by
  induction bs generalizing L with
  | nil => rfl
  | cons b bs ih =>
    simp only [LibraryManagement.addAll, LMS.addAll, LibraryManagement.addBook_eq, ih]

/-- C8: in both variants, for a capacity `c > 0` and `c + 1` books with pairwise distinct
non-empty ids, starting from `Library(c)` the first `c` calls of `addBook` return true, the
last one returns false, and `getCount()` is `c` afterwards. -/
theorem C8_capacity_boundary (c : Nat) (bs : List Book) (hc : 0 < c)
    (hlen : bs.length = c + 1) (hne : ∀ b ∈ bs, b.getId ≠ [])
    (hnd : (bs.map Book.getId).Nodup) :
    ((LMS.addAll (Library.construct (c : Int)) bs).1 = List.replicate c true ++ [false] ∧
      (LMS.addAll (Library.construct (c : Int)) bs).2.getCount = (c : Int)) ∧
    ((LibraryManagement.addAll (Library.construct (c : Int)) bs).1 =
        List.replicate c true ++ [false] ∧
      (LibraryManagement.addAll (Library.construct (c : Int)) bs).2.getCount = (c : Int)) := by
  rw [LibraryManagement.addAll_eq]
  have hcap : (Library.construct (c : Int)).capacity = (c : Int) := by
    unfold Library.construct
    simp only
    rw [if_pos (by omega)]
  have hcount : (Library.construct (c : Int)).count = 0 := rfl
  have hsplit : bs = bs.take c ++ bs.drop c := (List.take_append_drop c bs).symm
  have hsub : (bs.take c).Sublist bs := List.take_sublist c bs
  have htl : (bs.take c).length = c := by
    rw [List.length_take]; omega
  obtain ⟨x, hx⟩ : ∃ x, bs.drop c = [x] := by
    have : (bs.drop c).length = 1 := by
      rw [List.length_drop]; omega
    exact List.length_eq_one.1 this
  obtain ⟨i1, i2, i3, _⟩ := LMS.addAll_room (bs.take c) (Library.construct (c : Int))
    (Library.construct_WF _) (List.Nodup.sublist (hsub.map _) hnd)
    (fun b hb => hne b (hsub.subset hb))
    (fun b _ hmem => by
      simp [Library.ids, Library.construct_stored] at hmem)
    (by rw [hcount, hcap, htl]; omega)
  rw [htl] at i1 i2
  have hfull : (LMS.addAll (Library.construct (c : Int)) (bs.take c)).2.count ≥
      (LMS.addAll (Library.construct (c : Int)) (bs.take c)).2.capacity := by
    rw [i2, i3, hcount, hcap]; omega
  have key : LMS.addAll (Library.construct (c : Int)) bs =
      (List.replicate c true ++ [false],
        (LMS.addAll (Library.construct (c : Int)) (bs.take c)).2) := by
    rw [hsplit, LMS.addAll_append, ← hsplit, hx, i1]
    simp only [LMS.addAll, LMS.addBook_full x hfull]
  rw [key]
  have hfinal : (LMS.addAll (Library.construct (c : Int)) (bs.take c)).2.getCount = (c : Int) := by
    show (LMS.addAll (Library.construct (c : Int)) (bs.take c)).2.count = (c : Int)
    rw [i2, hcount]; omega
  exact ⟨⟨rfl, hfinal⟩, ⟨rfl, hfinal⟩⟩

theorem C8_capacity_boundary_witness :
    (0 < 2 ∧ [Sample.bookA, Sample.bookB, Sample.bookC].length = 2 + 1 ∧
      (∀ b ∈ [Sample.bookA, Sample.bookB, Sample.bookC], b.getId ≠ []) ∧
      ([Sample.bookA, Sample.bookB, Sample.bookC].map Book.getId).Nodup) ∧
    ((LMS.addAll (Library.construct ((2 : Nat) : Int))
        [Sample.bookA, Sample.bookB, Sample.bookC]).1 = List.replicate 2 true ++ [false] ∧
      (LMS.addAll (Library.construct ((2 : Nat) : Int))
        [Sample.bookA, Sample.bookB, Sample.bookC]).2.getCount = ((2 : Nat) : Int)) ∧
    ((LibraryManagement.addAll (Library.construct ((2 : Nat) : Int))
        [Sample.bookA, Sample.bookB, Sample.bookC]).1 = List.replicate 2 true ++ [false] ∧
      (LibraryManagement.addAll (Library.construct ((2 : Nat) : Int))
        [Sample.bookA, Sample.bookB, Sample.bookC]).2.getCount = ((2 : Nat) : Int)) :=
  ⟨⟨by decide, by decide, by decide, by decide⟩,
    C8_capacity_boundary 2 [Sample.bookA, Sample.bookB, Sample.bookC]
      (by decide) (by decide) (by decide) (by decide)⟩

/-! ### The class invariant along call sequences -/

namespace LMS

theorem addBook_WF {L : Library} (h : L.WF) (b : Book) :
    (addBook L b).2.WF ∧ (addBook L b).2.capacity = L.capacity := by
  cases hv : (addBook L b).1 with
  | false =>
    rw [addBook_of_false b hv]
    exact ⟨h, rfl⟩
  | true =>
    obtain ⟨_, _, e3, e4⟩ := addBook_stored h b hv
    exact ⟨e4, e3⟩

theorem editBook_WF {L : Library} (h : L.WF) (id : CStr) (p : Book) :
    (editBook L id p).2.WF ∧ (editBook L id p).2.capacity = L.capacity := by
  rcases findBookById_cases h id with ⟨h1, _⟩ | ⟨k, r, h1, h2, h3, _, _, _⟩
  · rw [editBook_of_not_found p h1]
    exact ⟨h, rfl⟩
  · obtain ⟨_, _, _, e4, e5⟩ := editBook_of_find h p h1 h2 h3
    exact ⟨e5, e4⟩

theorem deleteBook_WF {L : Library} (h : L.WF) (id : CStr) :
    (deleteBook L id).2.WF ∧ (deleteBook L id).2.capacity = L.capacity := by
  rcases findBookById_cases h id with ⟨h1, _⟩ | ⟨k, r, h1, h2, _, _, _, _⟩
  · rw [deleteBook_of_not_found h1]
    exact ⟨h, rfl⟩
  · obtain ⟨_, _, _, e4, e5⟩ := deleteBook_of_find h h1 h2
    exact ⟨e5, e4⟩

theorem step_WF {L : Library} (h : L.WF) (op : Op) :
    (step L op).WF ∧ (step L op).capacity = L.capacity := by
  cases op with
  | addBook b => exact addBook_WF h b
  | editBook id p => exact editBook_WF h id p
  | deleteBook id => exact deleteBook_WF h id
  | getBookById id bookOut => exact ⟨h, rfl⟩
  | displayAllBooks => exact ⟨h, rfl⟩
  | displayBooksByCategory c => exact ⟨h, rfl⟩
  | displayBookById id => exact ⟨h, rfl⟩

theorem run_WF (ops : List Op) :
    ∀ L : Library, L.WF → (run L ops).WF ∧ (run L ops).capacity = L.capacity := by
  induction ops with
  | nil => intro L h; exact ⟨h, rfl⟩
  | cons op ops ih =>
    intro L h
    obtain ⟨s1, s2⟩ := step_WF h op
    obtain ⟨r1, r2⟩ := ih (step L op) s1
    exact ⟨r1, r2.trans s2⟩

end LMS

namespace LibraryManagement

theorem step_wellFormed {L : Library} (h : L.WF) (op : Op) :
    (step L op).WF ∧ (step L op).capacity = L.capacity := by
  cases op with
  | addBook b =>
    show (addBook L b).2.WF ∧ (addBook L b).2.capacity = L.capacity
    rw [addBook_eq]
    exact LMS.addBook_WF h b
  | editBook id p =>
    show (editBook L id p).2.WF ∧ (editBook L id p).2.capacity = L.capacity
    rcases editBook_cases L id p with ⟨_, h2⟩ | ⟨s, _, _, _, h2⟩
    · rw [h2]; exact ⟨h, rfl⟩
    · rw [h2]; exact LMS.editBook_WF h s p
  | deleteBook id =>
    show (deleteBook L id).2.WF ∧ (deleteBook L id).2.capacity = L.capacity
    rcases deleteBook_cases L id with ⟨_, h2⟩ | ⟨s, _, _, _, h2⟩
    · rw [h2]; exact ⟨h, rfl⟩
    · rw [h2]; exact LMS.deleteBook_WF h s
  | getBookById id bookOut => exact ⟨h, rfl⟩
  | displayAllBooks => exact ⟨h, rfl⟩
  | displayBooksByCategory c => exact ⟨h, rfl⟩
  | displayBookById id => exact ⟨h, rfl⟩

theorem run_wellFormed (ops : List Op) :
    ∀ L : Library, L.WF → (run L ops).WF ∧ (run L ops).capacity = L.capacity := by
  induction ops with
  | nil => intro L h; exact ⟨h, rfl⟩
  | cons op ops ih =>
    intro L h
    obtain ⟨s1, s2⟩ := step_wellFormed h op
    obtain ⟨r1, r2⟩ := ih (step L op) s1
    exact ⟨r1, r2.trans s2⟩

end LibraryManagement

/-- C9: in both variants, after construction and after any sequence of `addBook`, `editBook`,
`deleteBook`, `getBookById` and display calls (successful or not, with arbitrary arguments),
`0 <= getCount() <= capacity` holds, `capacity` still has the value the constructor gave it,
and the backing array still has `capacity` elements. -/
theorem C9_count_within_capacity (n : Int) (ops : List LMS.Op)
    (ops2 : List LibraryManagement.Op) :
    (0 ≤ (LMS.run (Library.construct n) ops).getCount ∧
      (LMS.run (Library.construct n) ops).getCount ≤
        (LMS.run (Library.construct n) ops).capacity ∧
      (LMS.run (Library.construct n) ops).capacity = (Library.construct n).capacity ∧
      ((LMS.run (Library.construct n) ops).books.length : Int) =
        (Library.construct n).capacity) ∧
    (0 ≤ (LibraryManagement.run (Library.construct n) ops2).getCount ∧
      (LibraryManagement.run (Library.construct n) ops2).getCount ≤
        (LibraryManagement.run (Library.construct n) ops2).capacity ∧
      (LibraryManagement.run (Library.construct n) ops2).capacity =
        (Library.construct n).capacity ∧
      ((LibraryManagement.run (Library.construct n) ops2).books.length : Int) =
        (Library.construct n).capacity) := by
  obtain ⟨⟨a1, a2, a3⟩, a4⟩ := LMS.run_WF ops _ (Library.construct_WF n)
  obtain ⟨⟨b1, b2, b3⟩, b4⟩ := LibraryManagement.run_wellFormed ops2 _ (Library.construct_WF n)
  exact ⟨⟨a1, a2, a4, a3.trans a4⟩, ⟨b1, b2, b4, b3.trans b4⟩⟩

/-! ### Operations on an absent id -/

theorem LMS.not_found_iff {L : Library} (h : L.WF) (id : CStr) (p : Book) :
    ((LMS.editBook L id p).1 = false ↔ ∀ r ∈ L.stored, r.getId ≠ id) ∧
    ((LMS.deleteBook L id).1 = false ↔ ∀ r ∈ L.stored, r.getId ≠ id) ∧
    ((∀ r ∈ L.stored, r.getId ≠ id) →
      (LMS.editBook L id p).2 = L ∧ (LMS.deleteBook L id).2 = L) := by
  rcases LMS.findBookById_cases h id with ⟨h1, h2⟩ | ⟨k, r, h1, hk, hb, hs, hrid, _⟩
  · rw [LMS.editBook_of_not_found p h1, LMS.deleteBook_of_not_found h1]
    exact ⟨⟨fun _ => h2, fun _ => rfl⟩, ⟨fun _ => h2, fun _ => rfl⟩, fun _ => ⟨rfl, rfl⟩⟩
  · have hno : ¬ ∀ r ∈ L.stored, r.getId ≠ id :=
      fun hh => hh r (List.getElem?_mem hs) hrid
    have e1 := (LMS.editBook_of_find h p h1 hk hb).1
    have e2 := (LMS.deleteBook_of_find h h1 hk).1
    refine ⟨⟨fun hh => ?_, fun hh => absurd hh hno⟩, ⟨fun hh => ?_, fun hh => absurd hh hno⟩,
      fun hh => absurd hh hno⟩
    · rw [e1] at hh; cases hh
    · rw [e2] at hh; cases hh

/-- C10: in both variants, for a non-empty id, `editBook(id, p)` and `deleteBook(id)` return
false exactly when no stored record has an id equal to `id`, and in that case the `Library`
object (count and all stored records) is left unchanged. -/
theorem C10_not_found_iff (L : Library) (id : CStr) (p : Book) (h : L.WF) (hid : id ≠ []) :
    (((LMS.editBook L id p).1 = false ↔ ∀ r ∈ L.stored, r.getId ≠ id) ∧
      ((LMS.deleteBook L id).1 = false ↔ ∀ r ∈ L.stored, r.getId ≠ id) ∧
      ((∀ r ∈ L.stored, r.getId ≠ id) →
        (LMS.editBook L id p).2 = L ∧ (LMS.deleteBook L id).2 = L)) ∧
    (((LibraryManagement.editBook L (some id) p).1 = false ↔
        ∀ r ∈ L.stored, r.getId ≠ id) ∧
      ((LibraryManagement.deleteBook L (some id)).1 = false ↔
        ∀ r ∈ L.stored, r.getId ≠ id) ∧
      ((∀ r ∈ L.stored, r.getId ≠ id) →
        (LibraryManagement.editBook L (some id) p).2 = L ∧
        (LibraryManagement.deleteBook L (some id)).2 = L)) := by
  rw [LibraryManagement.editBook_some L hid, LibraryManagement.deleteBook_some L hid]
  exact ⟨LMS.not_found_iff h id p, LMS.not_found_iff h id p⟩

theorem C10_not_found_iff_witness :
    Sample.libABCD.WF ∧ (['Z'] : CStr) ≠ [] ∧
    (∀ r ∈ Sample.libABCD.stored, r.getId ≠ ['Z']) ∧
    (LMS.editBook Sample.libABCD ['Z'] Sample.payload).1 = false ∧
    (LMS.deleteBook Sample.libABCD ['Z']).1 = false ∧
    ((LMS.editBook Sample.libABCD ['Z'] Sample.payload).2 = Sample.libABCD ∧
      (LMS.deleteBook Sample.libABCD ['Z']).2 = Sample.libABCD) ∧
    (LibraryManagement.editBook Sample.libABCD (some ['Z']) Sample.payload).1 = false ∧
    (LibraryManagement.deleteBook Sample.libABCD (some ['Z'])).1 = false ∧
    ((LibraryManagement.editBook Sample.libABCD (some ['Z']) Sample.payload).2 =
        Sample.libABCD ∧
      (LibraryManagement.deleteBook Sample.libABCD (some ['Z'])).2 = Sample.libABCD) :=
  have t := C10_not_found_iff Sample.libABCD ['Z'] Sample.payload (by decide) (by decide)
  ⟨by decide, by decide, by decide,
    t.1.1.2 (by decide), t.1.2.1.2 (by decide), t.1.2.2 (by decide),
    t.2.1.2 (by decide), t.2.2.1.2 (by decide), t.2.2.2 (by decide)⟩

/-! ### Lookup by id -/

theorem LMS.findBookById_first {L : Library} (h : L.WF) (id : CStr) :
    (LMS.findBookById L id = -1 ↔ ∀ r ∈ L.stored, r.getId ≠ id) ∧
    (LMS.findBookById L id ≠ -1 →
      ∃ k : Nat, LMS.findBookById L id = (k : Int) ∧ (k : Int) < L.count ∧
        L.ids[k]? = some id ∧ ∀ j : Nat, j < k → L.ids[j]? ≠ some id) ∧
    -1 ≤ LMS.findBookById L id ∧ LMS.findBookById L id < L.count := by
  obtain ⟨n, hn, _, hnat⟩ := h.count_nat
  refine ⟨LMS.findBookById_eq_neg_one_iff h id, ?_, ?_⟩
  · intro hne
    obtain ⟨k, _, hf, hk, _, _, _, hid, hfirst⟩ := LMS.findBookById_found h hne
    exact ⟨k, hf, by omega, hid, hfirst⟩
  · by_cases hne : LMS.findBookById L id = -1
    · rw [hne]
      obtain ⟨h0, _, _⟩ := h
      exact ⟨le_refl _, by omega⟩
    · obtain ⟨k, _, hf, hk, _⟩ := LMS.findBookById_found h hne
      rw [hf]
      exact ⟨by omega, by omega⟩

/-- C11: in both variants, for a non-empty id, `findBookById(id)` returns -1 exactly when no
stored record has the id; otherwise it returns the smallest index in `[0, count)` whose
stored id equals `id`; the result is never an index `>= count`. -/
theorem C11_findBookById_first_match (L : Library) (id : CStr) (h : L.WF) (hid : id ≠ []) :
    ((LMS.findBookById L id = -1 ↔ ∀ r ∈ L.stored, r.getId ≠ id) ∧
      (LMS.findBookById L id ≠ -1 →
        ∃ k : Nat, LMS.findBookById L id = (k : Int) ∧ (k : Int) < L.count ∧
          L.ids[k]? = some id ∧ ∀ j : Nat, j < k → L.ids[j]? ≠ some id) ∧
      -1 ≤ LMS.findBookById L id ∧ LMS.findBookById L id < L.count) ∧
    ((LibraryManagement.findBookById L (some id) = -1 ↔ ∀ r ∈ L.stored, r.getId ≠ id) ∧
      (LibraryManagement.findBookById L (some id) ≠ -1 →
        ∃ k : Nat, LibraryManagement.findBookById L (some id) = (k : Int) ∧
          (k : Int) < L.count ∧
          L.ids[k]? = some id ∧ ∀ j : Nat, j < k → L.ids[j]? ≠ some id) ∧
      -1 ≤ LibraryManagement.findBookById L (some id) ∧
      LibraryManagement.findBookById L (some id) < L.count) := by
  rw [LibraryManagement.findBookById_some L hid]
  exact ⟨LMS.findBookById_first h id, LMS.findBookById_first h id⟩

theorem C11_findBookById_first_match_witness :
    Sample.libABCD.WF ∧ (['C'] : CStr) ≠ [] ∧
    LMS.findBookById Sample.libABCD ['C'] = 2 ∧
    LibraryManagement.findBookById Sample.libABCD (some ['C']) = 2 ∧
    (∃ k : Nat, LMS.findBookById Sample.libABCD ['C'] = (k : Int) ∧
      (k : Int) < Sample.libABCD.count ∧ Sample.libABCD.ids[k]? = some ['C'] ∧
      ∀ j : Nat, j < k → Sample.libABCD.ids[j]? ≠ some ['C']) ∧
    (∃ k : Nat, LibraryManagement.findBookById Sample.libABCD (some ['C']) = (k : Int) ∧
      (k : Int) < Sample.libABCD.count ∧ Sample.libABCD.ids[k]? = some ['C'] ∧
      ∀ j : Nat, j < k → Sample.libABCD.ids[j]? ≠ some ['C']) :=
  have t := C11_findBookById_first_match Sample.libABCD ['C'] (by decide) (by decide)
  ⟨by decide, by decide, by decide, by decide, t.1.2.1 (by decide), t.2.2.1 (by decide)⟩

/-! ### Listing -/

theorem rowsOf_append (xs ys : List Out) : rowsOf (xs ++ ys) = rowsOf xs ++ rowsOf ys := by
  induction xs with
  | nil => rfl
  | cons x xs ih =>
    cases x <;> simp [rowsOf, ih]

theorem rowsOf_categoryLoop (books : List Book) (count : Int) (c : CStr) :
    ∀ fuel i : Nat,
      rowsOf (categoryLoop books count c fuel i).1 =
        (rowsOf (rowsLoop books count fuel i)).filter (fun b => decide (b.getCategory = c)) := by
  intro fuel
  induction fuel with
  | zero => intro i; rfl
  | succ fuel ih =>
    intro i
    unfold categoryLoop rowsLoop
    by_cases hi : (i : Int) < count
    · rw [if_pos hi, if_pos hi]
      by_cases e : strcmp (books.getD i default).getCategory c = 0
      · have e2 : (books.getD i default).getCategory = c := (strcmp_eq_zero_iff _ _).1 e
        simp only [if_pos e, rowsOf, List.filter_cons, decide_eq_true e2, if_true, ih]
      · have e2 : ¬ (books.getD i default).getCategory = c :=
          fun hh => e ((strcmp_eq_zero_iff _ _).2 hh)
        simp only [if_neg e, rowsOf, List.filter_cons, decide_eq_false e2, ih]
        rfl
    · rw [if_neg hi, if_neg hi]
      rfl

theorem rowsOf_rowsLoop (books : List Book) (n : Nat) (hl : n ≤ books.length) :
    ∀ fuel i : Nat, i + fuel = n →
      rowsOf (rowsLoop books n fuel i) = (books.take n).drop i := by
  intro fuel
  induction fuel with
  | zero =>
    intro i hi
    have : i = n := by omega
    subst this
    simp [rowsLoop, rowsOf]
  | succ fuel ih =>
    intro i hi
    unfold rowsLoop
    have hin : i < n := by omega
    rw [if_pos (by omega)]
    have hlen : i < (books.take n).length := by
      rw [List.length_take]; omega
    rw [List.drop_eq_getElem_cons hlen]
    simp only [rowsOf]
    rw [ih (i + 1) (by omega)]
    congr 1
    rw [List.getElem_take]
    apply getD_of_getElem?
    exact List.getElem?_eq_getElem (by omega)

theorem rowsOf_category_output (books : List Book) (count : Int) (c : CStr) (fuel : Nat) :
    rowsOf (Out.header :: (categoryLoop books count c fuel 0).1 ++
        (if !(categoryLoop books count c fuel 0).2 then [Out.noneInCategory] else [])) =
      (rowsOf (rowsLoop books count fuel 0)).filter (fun b => decide (b.getCategory = c)) := by
  have htail : rowsOf (if !(categoryLoop books count c fuel 0).2 then [Out.noneInCategory]
      else []) = [] := by
    split <;> rfl
  show rowsOf ((categoryLoop books count c fuel 0).1 ++ _) = _
  rw [rowsOf_append, htail, List.append_nil, rowsOf_categoryLoop]

theorem displayAllBooks_rows {L : Library} (h : L.WF) :
    rowsOf (LMS.displayAllBooks L) = L.stored ∧
    rowsOf (LMS.displayAllBooks L) = rowsOf (rowsLoop L.books L.count L.count.toNat 0) := by
  obtain ⟨n, hn, hl, hnat⟩ := h.count_nat
  unfold LMS.displayAllBooks
  by_cases h0 : L.count = 0
  · rw [if_pos h0]
    have hz : n = 0 := by omega
    simp [Library.stored, hnat, hz, rowsOf, rowsLoop]
  · rw [if_neg h0]
    refine ⟨?_, rfl⟩
    show rowsOf (rowsLoop L.books L.count L.count.toNat 0) = L.stored
    rw [hnat, hn, rowsOf_rowsLoop L.books n hl n 0 (by omega)]
    simp [Library.stored, hnat]

theorem LibraryManagement.displayAllBooks_eq (L : Library) :
    LibraryManagement.displayAllBooks L = LMS.displayAllBooks L := rfl

theorem LMS.displayBooksByCategory_fiction (L : Library) :
    LMS.displayBooksByCategory L "Fiction".toList =
      Out.header :: (categoryLoop L.books L.count "Fiction".toList L.count.toNat 0).1 ++
        (if !(categoryLoop L.books L.count "Fiction".toList L.count.toNat 0).2
          then [Out.noneInCategory] else []) := by
  have e : strcmp ((strncpy "Fiction".toList (MAX_CATEGORY_LENGTH - 1)).map tolower)
      "fiction".toList = 0 := by decide
  unfold LMS.displayBooksByCategory
  simp only [e, if_true]

theorem LMS.displayBooksByCategory_nonfiction (L : Library) :
    LMS.displayBooksByCategory L "Non-fiction".toList =
      Out.header :: (categoryLoop L.books L.count "Non-fiction".toList L.count.toNat 0).1 ++
        (if !(categoryLoop L.books L.count "Non-fiction".toList L.count.toNat 0).2
          then [Out.noneInCategory] else []) := by
  have e1 : ¬ strcmp ((strncpy "Non-fiction".toList (MAX_CATEGORY_LENGTH - 1)).map tolower)
      "fiction".toList = 0 := by decide
  have e2 : strcmp ((strncpy "Non-fiction".toList (MAX_CATEGORY_LENGTH - 1)).map tolower)
      "non-fiction".toList = 0 := by decide
  unfold LMS.displayBooksByCategory
  simp only [e1, e2, if_true, if_false]

theorem LibraryManagement.displayBooksByCategory_some (L : Library) {c : CStr} (hc : c ≠ []) :
    LibraryManagement.displayBooksByCategory L (some c) =
      Out.header :: (categoryLoop L.books L.count c L.count.toNat 0).1 ++
        (if !(categoryLoop L.books L.count c L.count.toNat 0).2
          then [Out.noneInCategory] else []) := by
  have hl : ¬ (strlen c = 0) := by simpa [strlen] using hc
  unfold LibraryManagement.displayBooksByCategory
  simp only [hl, if_false]

/-- C12: in both variants, for each canonical category `c` ("Fiction", "Non-fiction"), the
rows written by `displayBooksByCategory(c)` are exactly the rows written by
`displayAllBooks()` whose record has category `c`, in the same order; and the rows of
`displayAllBooks()` are the stored records, each once, in storage order. -/
theorem C12_category_rows_subsequence (L : Library) (h : L.WF) :
    (rowsOf (LMS.displayAllBooks L) = L.stored ∧
      rowsOf (LMS.displayBooksByCategory L "Fiction".toList) =
        (rowsOf (LMS.displayAllBooks L)).filter
          (fun b => decide (b.getCategory = "Fiction".toList)) ∧
      rowsOf (LMS.displayBooksByCategory L "Non-fiction".toList) =
        (rowsOf (LMS.displayAllBooks L)).filter
          (fun b => decide (b.getCategory = "Non-fiction".toList))) ∧
    (rowsOf (LibraryManagement.displayAllBooks L) = L.stored ∧
      rowsOf (LibraryManagement.displayBooksByCategory L (some "Fiction".toList)) =
        (rowsOf (LibraryManagement.displayAllBooks L)).filter
          (fun b => decide (b.getCategory = "Fiction".toList)) ∧
      rowsOf (LibraryManagement.displayBooksByCategory L (some "Non-fiction".toList)) =
        (rowsOf (LibraryManagement.displayAllBooks L)).filter
          (fun b => decide (b.getCategory = "Non-fiction".toList))) := by
  obtain ⟨a1, a2⟩ := displayAllBooks_rows h
  rw [LibraryManagement.displayAllBooks_eq,
    LibraryManagement.displayBooksByCategory_some L (by decide),
    LibraryManagement.displayBooksByCategory_some L (by decide),
    LMS.displayBooksByCategory_fiction, LMS.displayBooksByCategory_nonfiction,
    rowsOf_category_output, rowsOf_category_output, ← a2]
  exact ⟨⟨a1, rfl, rfl⟩, ⟨a1, rfl, rfl⟩⟩

theorem C12_category_rows_subsequence_witness :
    Sample.libABCD.WF ∧
    rowsOf (LMS.displayAllBooks Sample.libABCD) =
      [Sample.bookA, Sample.bookB, Sample.bookC, Sample.bookD] ∧
    rowsOf (LMS.displayBooksByCategory Sample.libABCD "Fiction".toList) =
      [Sample.bookA, Sample.bookC] ∧
    rowsOf (LibraryManagement.displayBooksByCategory Sample.libABCD
      (some "Non-fiction".toList)) = [Sample.bookB, Sample.bookD] ∧
    rowsOf (LMS.displayBooksByCategory Sample.libABCD "Non-fiction".toList) =
      (rowsOf (LMS.displayAllBooks Sample.libABCD)).filter
        (fun b => decide (b.getCategory = "Non-fiction".toList)) ∧
    rowsOf (LibraryManagement.displayBooksByCategory Sample.libABCD (some "Fiction".toList)) =
      (rowsOf (LibraryManagement.displayAllBooks Sample.libABCD)).filter
        (fun b => decide (b.getCategory = "Fiction".toList)) :=
  ⟨by decide, by decide, by decide, by decide,
    (C12_category_rows_subsequence Sample.libABCD (by decide)).1.2.2,
    (C12_category_rows_subsequence Sample.libABCD (by decide)).2.2.1⟩

/-! ### The setters of library_management.cpp -/

theorem LibraryManagement.setIsbn_spec (b : Book) (s : CStr) :
    ((LibraryManagement.setIsbn b (some s)).1 = true ↔ s ≠ [] ∧ s.length ≤ 19) ∧
    (LibraryManagement.setIsbn b (some s)).2 =
      (if (LibraryManagement.setIsbn b (some s)).1 = true then { b with isbn := s } else b) ∧
    LibraryManagement.setIsbn b none = (false, b) := by
  unfold LibraryManagement.setIsbn
  simp only [strlen, strncpy, MAX_ISBN_LENGTH]
  by_cases h0 : s.length = 0
  · have hs : s = [] := List.length_eq_zero.1 h0
    subst hs
    simp
  · have hne : s ≠ [] := fun hh => h0 (by rw [hh]; rfl)
    by_cases h1 : s.length > 20 - 1
    · simp only [h0, h1, if_false, if_true]
      refine ⟨?_, ?_, trivial⟩
      · simp only [Bool.false_eq_true, false_iff]
        intro hh
        omega
      · simp
    · simp only [h0, h1, if_false, if_true]
      have ht : List.take (20 - 1) s = s := List.take_of_length_le (by omega)
      rw [ht]
      refine ⟨?_, ?_, trivial⟩
      · simp only [true_iff]
        exact ⟨hne, by omega⟩
      · simp

theorem LibraryManagement.setTitle_spec (b : Book) (s : CStr) :
    ((LibraryManagement.setTitle b (some s)).1 = true ↔ s ≠ [] ∧ s.length ≤ 99) ∧
    (LibraryManagement.setTitle b (some s)).2 =
      (if (LibraryManagement.setTitle b (some s)).1 = true then { b with title := s } else b) ∧
    LibraryManagement.setTitle b none = (false, b) := by
  unfold LibraryManagement.setTitle
  simp only [strlen, strncpy, MAX_TITLE_LENGTH]
  by_cases h0 : s.length = 0
  · have hs : s = [] := List.length_eq_zero.1 h0
    subst hs
    simp
  · have hne : s ≠ [] := fun hh => h0 (by rw [hh]; rfl)
    by_cases h1 : s.length > 100 - 1
    · simp only [h0, h1, if_false, if_true]
      refine ⟨?_, ?_, trivial⟩
      · simp only [Bool.false_eq_true, false_iff]
        intro hh
        omega
      · simp
    · simp only [h0, h1, if_false, if_true]
      have ht : List.take (100 - 1) s = s := List.take_of_length_le (by omega)
      rw [ht]
      refine ⟨?_, ?_, trivial⟩
      · simp only [true_iff]
        exact ⟨hne, by omega⟩
      · simp

theorem LibraryManagement.setAuthor_spec (b : Book) (s : CStr) :
    ((LibraryManagement.setAuthor b (some s)).1 = true ↔ s ≠ [] ∧ s.length ≤ 49) ∧
    (LibraryManagement.setAuthor b (some s)).2 =
      (if (LibraryManagement.setAuthor b (some s)).1 = true then { b with author := s } else b) ∧
    LibraryManagement.setAuthor b none = (false, b) := by
  unfold LibraryManagement.setAuthor
  simp only [strlen, strncpy, MAX_AUTHOR_LENGTH]
  by_cases h0 : s.length = 0
  · have hs : s = [] := List.length_eq_zero.1 h0
    subst hs
    simp
  · have hne : s ≠ [] := fun hh => h0 (by rw [hh]; rfl)
    by_cases h1 : s.length > 50 - 1
    · simp only [h0, h1, if_false, if_true]
      refine ⟨?_, ?_, trivial⟩
      · simp only [Bool.false_eq_true, false_iff]
        intro hh
        omega
      · simp
    · simp only [h0, h1, if_false, if_true]
      have ht : List.take (50 - 1) s = s := List.take_of_length_le (by omega)
      rw [ht]
      refine ⟨?_, ?_, trivial⟩
      · simp only [true_iff]
        exact ⟨hne, by omega⟩
      · simp

theorem LibraryManagement.setEdition_spec (b : Book) (s : CStr) :
    ((LibraryManagement.setEdition b (some s)).1 = true ↔ s ≠ [] ∧ s.length ≤ 19) ∧
    (LibraryManagement.setEdition b (some s)).2 =
      (if (LibraryManagement.setEdition b (some s)).1 = true then { b with edition := s } else b) ∧
    LibraryManagement.setEdition b none = (false, b) := by
  unfold LibraryManagement.setEdition
  simp only [strlen, strncpy, MAX_EDITION_LENGTH]
  by_cases h0 : s.length = 0
  · have hs : s = [] := List.length_eq_zero.1 h0
    subst hs
    simp
  · have hne : s ≠ [] := fun hh => h0 (by rw [hh]; rfl)
    by_cases h1 : s.length > 20 - 1
    · simp only [h0, h1, if_false, if_true]
      refine ⟨?_, ?_, trivial⟩
      · simp only [Bool.false_eq_true, false_iff]
        intro hh
        omega
      · simp
    · simp only [h0, h1, if_false, if_true]
      have ht : List.take (20 - 1) s = s := List.take_of_length_le (by omega)
      rw [ht]
      refine ⟨?_, ?_, trivial⟩
      · simp only [true_iff]
        exact ⟨hne, by omega⟩
      · simp

theorem LibraryManagement.setPublication_spec (b : Book) (s : CStr) :
    ((LibraryManagement.setPublication b (some s)).1 = true ↔ s ≠ [] ∧ s.length ≤ 49) ∧
    (LibraryManagement.setPublication b (some s)).2 =
      (if (LibraryManagement.setPublication b (some s)).1 = true then { b with publication := s } else b) ∧
    LibraryManagement.setPublication b none = (false, b) := by
  unfold LibraryManagement.setPublication
  simp only [strlen, strncpy, MAX_PUBLICATION_LENGTH]
  by_cases h0 : s.length = 0
  · have hs : s = [] := List.length_eq_zero.1 h0
    subst hs
    simp
  · have hne : s ≠ [] := fun hh => h0 (by rw [hh]; rfl)
    by_cases h1 : s.length > 50 - 1
    · simp only [h0, h1, if_false, if_true]
      refine ⟨?_, ?_, trivial⟩
      · simp only [Bool.false_eq_true, false_iff]
        intro hh
        omega
      · simp
    · simp only [h0, h1, if_false, if_true]
      have ht : List.take (50 - 1) s = s := List.take_of_length_le (by omega)
      rw [ht]
      refine ⟨?_, ?_, trivial⟩
      · simp only [true_iff]
        exact ⟨hne, by omega⟩
      · simp

theorem LibraryManagement.setId_spec (b : Book) (s : CStr) :
    ((LibraryManagement.setId b (some s)).1 = true ↔
      s ≠ [] ∧ s.length ≤ 19 ∧ ∀ c ∈ s, isalnum c = true) ∧
    (LibraryManagement.setId b (some s)).2 =
      (if (LibraryManagement.setId b (some s)).1 = true then { b with id := s } else b) ∧
    LibraryManagement.setId b none = (false, b) := by
  unfold LibraryManagement.setId
  simp only [strlen, strncpy, MAX_ID_LENGTH, LibraryManagement.isAlphanumeric]
  by_cases h0 : s.length = 0
  · have hs : s = [] := List.length_eq_zero.1 h0
    subst hs
    simp
  · have hne : s ≠ [] := fun hh => h0 (by rw [hh]; rfl)
    by_cases h1 : s.length > 20 - 1
    · simp only [h0, h1, if_false, if_true]
      refine ⟨?_, ?_, trivial⟩
      · simp only [Bool.false_eq_true, false_iff]
        intro hh
        omega
      · simp
    · simp only [h0, h1, if_false, if_true]
      have ht : List.take (20 - 1) s = s := List.take_of_length_le (by omega)
      rw [ht]
      by_cases ha : allAlnum s = true
      · simp only [ha, Bool.not_true, Bool.false_eq_true, if_false, if_true]
        refine ⟨?_, trivial, trivial⟩
        simp only [true_iff]
        exact ⟨hne, by omega, (allAlnum_iff s).1 ha⟩
      · simp only [ha, Bool.not_false, if_true]
        refine ⟨?_, ?_, trivial⟩
        · simp only [Bool.false_eq_true, false_iff]
          intro hh
          exact ha ((allAlnum_iff s).2 hh.2.2)
        · simp

/-- C13: in library_management.cpp each of `setId`, `setIsbn`, `setTitle`, `setAuthor`,
`setEdition` and `setPublication` returns true exactly for a present, non-empty value of at
most 19, 19, 99, 49, 19, 49 characters (for `setId` also alphanumeric throughout); on true
the result is the Book with that one field equal to the value and every other field as
before, on false (an absent value included) the Book is unchanged. -/
theorem C13_setters_accept_iff (b : Book) (s : CStr) :
    (((LibraryManagement.setId b (some s)).1 = true ↔
        s ≠ [] ∧ s.length ≤ 19 ∧ ∀ c ∈ s, isalnum c = true) ∧
      (LibraryManagement.setId b (some s)).2 =
        (if (LibraryManagement.setId b (some s)).1 = true then { b with id := s } else b) ∧
      LibraryManagement.setId b none = (false, b)) ∧
    (((LibraryManagement.setIsbn b (some s)).1 = true ↔ s ≠ [] ∧ s.length ≤ 19) ∧
      (LibraryManagement.setIsbn b (some s)).2 =
        (if (LibraryManagement.setIsbn b (some s)).1 = true then { b with isbn := s }
          else b) ∧
      LibraryManagement.setIsbn b none = (false, b)) ∧
    (((LibraryManagement.setTitle b (some s)).1 = true ↔ s ≠ [] ∧ s.length ≤ 99) ∧
      (LibraryManagement.setTitle b (some s)).2 =
        (if (LibraryManagement.setTitle b (some s)).1 = true then { b with title := s }
          else b) ∧
      LibraryManagement.setTitle b none = (false, b)) ∧
    (((LibraryManagement.setAuthor b (some s)).1 = true ↔ s ≠ [] ∧ s.length ≤ 49) ∧
      (LibraryManagement.setAuthor b (some s)).2 =
        (if (LibraryManagement.setAuthor b (some s)).1 = true then { b with author := s }
          else b) ∧
      LibraryManagement.setAuthor b none = (false, b)) ∧
    (((LibraryManagement.setEdition b (some s)).1 = true ↔ s ≠ [] ∧ s.length ≤ 19) ∧
      (LibraryManagement.setEdition b (some s)).2 =
        (if (LibraryManagement.setEdition b (some s)).1 = true then { b with edition := s }
          else b) ∧
      LibraryManagement.setEdition b none = (false, b)) ∧
    (((LibraryManagement.setPublication b (some s)).1 = true ↔ s ≠ [] ∧ s.length ≤ 49) ∧
      (LibraryManagement.setPublication b (some s)).2 =
        (if (LibraryManagement.setPublication b (some s)).1 = true then
          { b with publication := s } else b) ∧
      LibraryManagement.setPublication b none = (false, b)) :=
  ⟨LibraryManagement.setId_spec b s, LibraryManagement.setIsbn_spec b s,
    LibraryManagement.setTitle_spec b s, LibraryManagement.setAuthor_spec b s,
    LibraryManagement.setEdition_spec b s, LibraryManagement.setPublication_spec b s⟩

/-! ### The setters of LMS.cpp -/

theorem LMS.setId_some (b : Book) (s : CStr) :
    LMS.setId b (some s) =
      (if s ≠ [] ∧ allAlnum s = true then (true, { b with id := s.take 19 }) else (false, b)) := by
  unfold LMS.setId
  simp only [strlen, strncpy, MAX_ID_LENGTH]
  by_cases h0 : s.length = 0
  · have hs : s = [] := List.length_eq_zero.1 h0
    subst hs
    simp
  · have hne : s ≠ [] := fun hh => h0 (by rw [hh]; rfl)
    by_cases ha : allAlnum s = true
    · simp [h0, hne, ha]
    · simp [h0, hne, ha]

theorem LMS.setIsbn_some (b : Book) (s : CStr) :
    LMS.setIsbn b (some s) =
      (if s ≠ [] then (true, { b with isbn := s.take 19 }) else (false, b)) := by
  unfold LMS.setIsbn
  simp only [strlen, strncpy, MAX_ISBN_LENGTH]
  by_cases h0 : s.length = 0
  · have hs : s = [] := List.length_eq_zero.1 h0
    subst hs
    simp
  · have hne : s ≠ [] := fun hh => h0 (by rw [hh]; rfl)
    simp [h0, hne]

theorem LMS.setTitle_some (b : Book) (s : CStr) :
    LMS.setTitle b (some s) =
      (if s ≠ [] then (true, { b with title := s.take 99 }) else (false, b)) := by
  unfold LMS.setTitle
  simp only [strlen, strncpy, MAX_TITLE_LENGTH]
  by_cases h0 : s.length = 0
  · have hs : s = [] := List.length_eq_zero.1 h0
    subst hs
    simp
  · have hne : s ≠ [] := fun hh => h0 (by rw [hh]; rfl)
    simp [h0, hne]

theorem LMS.setAuthor_some (b : Book) (s : CStr) :
    LMS.setAuthor b (some s) =
      (if s ≠ [] then (true, { b with author := s.take 49 }) else (false, b)) := by
  unfold LMS.setAuthor
  simp only [strlen, strncpy, MAX_AUTHOR_LENGTH]
  by_cases h0 : s.length = 0
  · have hs : s = [] := List.length_eq_zero.1 h0
    subst hs
    simp
  · have hne : s ≠ [] := fun hh => h0 (by rw [hh]; rfl)
    simp [h0, hne]

theorem LMS.setEdition_some (b : Book) (s : CStr) :
    LMS.setEdition b (some s) =
      (if s ≠ [] then (true, { b with edition := s.take 19 }) else (false, b)) := by
  unfold LMS.setEdition
  simp only [strlen, strncpy, MAX_EDITION_LENGTH]
  by_cases h0 : s.length = 0
  · have hs : s = [] := List.length_eq_zero.1 h0
    subst hs
    simp
  · have hne : s ≠ [] := fun hh => h0 (by rw [hh]; rfl)
    simp [h0, hne]

theorem LMS.setPublication_some (b : Book) (s : CStr) :
    LMS.setPublication b (some s) =
      (if s ≠ [] then (true, { b with publication := s.take 49 }) else (false, b)) := by
  unfold LMS.setPublication
  simp only [strlen, strncpy, MAX_PUBLICATION_LENGTH]
  by_cases h0 : s.length = 0
  · have hs : s = [] := List.length_eq_zero.1 h0
    subst hs
    simp
  · have hne : s ≠ [] := fun hh => h0 (by rw [hh]; rfl)
    simp [h0, hne]

theorem ne_nil_of_length_gt {s : CStr} {n : Nat} (h : n < s.length) : s ≠ [] := by
  intro hh
  rw [hh] at h
  exact Nat.not_lt_zero n h

/-- C14 (as the code behaves): in LMS.cpp no setter rejects a value for its length.  A value
longer than the field holds is accepted: the setter returns true and stores the first
`MAX_<FIELD>_LENGTH - 1` characters (19, 19, 99, 49, 19, 49), leaving the other fields as
they were; for `setId` this holds when the value is alphanumeric throughout, and a too-long
value with a non-alphanumeric character is rejected with the Book unchanged. -/
theorem C14_long_values_truncated (b : Book) (s : CStr) :
    (MAX_ID_LENGTH - 1 < s.length →
      ((∀ c ∈ s, isalnum c = true) →
        LMS.setId b (some s) = (true, { b with id := s.take 19 })) ∧
      ((∃ c ∈ s, isalnum c = false) → LMS.setId b (some s) = (false, b))) ∧
    (MAX_ISBN_LENGTH - 1 < s.length →
      LMS.setIsbn b (some s) = (true, { b with isbn := s.take 19 })) ∧
    (MAX_TITLE_LENGTH - 1 < s.length →
      LMS.setTitle b (some s) = (true, { b with title := s.take 99 })) ∧
    (MAX_AUTHOR_LENGTH - 1 < s.length →
      LMS.setAuthor b (some s) = (true, { b with author := s.take 49 })) ∧
    (MAX_EDITION_LENGTH - 1 < s.length →
      LMS.setEdition b (some s) = (true, { b with edition := s.take 19 })) ∧
    (MAX_PUBLICATION_LENGTH - 1 < s.length →
      LMS.setPublication b (some s) = (true, { b with publication := s.take 49 })) := by
  refine ⟨fun h => ⟨fun ha => ?_, fun ha => ?_⟩, fun h => ?_, fun h => ?_, fun h => ?_,
    fun h => ?_, fun h => ?_⟩
  · rw [LMS.setId_some, if_pos ⟨ne_nil_of_length_gt h, (allAlnum_iff s).2 ha⟩]
  · rw [LMS.setId_some, if_neg]
    intro hh
    obtain ⟨c, hc, hcf⟩ := ha
    have := (allAlnum_iff s).1 hh.2 c hc
    rw [hcf] at this
    cases this
  · rw [LMS.setIsbn_some, if_pos (ne_nil_of_length_gt h)]
  · rw [LMS.setTitle_some, if_pos (ne_nil_of_length_gt h)]
  · rw [LMS.setAuthor_some, if_pos (ne_nil_of_length_gt h)]
  · rw [LMS.setEdition_some, if_pos (ne_nil_of_length_gt h)]
  · rw [LMS.setPublication_some, if_pos (ne_nil_of_length_gt h)]

theorem C14_long_values_truncated_witness :
    (MAX_ID_LENGTH - 1 < Sample.long100.length ∧
      MAX_ISBN_LENGTH - 1 < Sample.long100.length ∧
      MAX_TITLE_LENGTH - 1 < Sample.long100.length ∧
      MAX_AUTHOR_LENGTH - 1 < Sample.long100.length ∧
      MAX_EDITION_LENGTH - 1 < Sample.long100.length ∧
      MAX_PUBLICATION_LENGTH - 1 < Sample.long100.length ∧
      ∀ c ∈ Sample.long100, isalnum c = true) ∧
    LMS.setId Book.new (some Sample.long100) =
      (true, { Book.new with id := Sample.long100.take 19 }) ∧
    LMS.setIsbn Book.new (some Sample.long100) =
      (true, { Book.new with isbn := Sample.long100.take 19 }) ∧
    LMS.setTitle Book.new (some Sample.long100) =
      (true, { Book.new with title := Sample.long100.take 99 }) ∧
    LMS.setAuthor Book.new (some Sample.long100) =
      (true, { Book.new with author := Sample.long100.take 49 }) ∧
    LMS.setEdition Book.new (some Sample.long100) =
      (true, { Book.new with edition := Sample.long100.take 19 }) ∧
    LMS.setPublication Book.new (some Sample.long100) =
      (true, { Book.new with publication := Sample.long100.take 49 }) :=
  have t := C14_long_values_truncated Book.new Sample.long100
  have hal : ∀ c ∈ Sample.long100, isalnum c = true := by
    intro c hc
    rw [List.eq_of_mem_replicate hc]
    decide
  ⟨⟨by decide, by decide, by decide, by decide, by decide, by decide, hal⟩,
    (t.1 (by decide)).1 hal, t.2.1 (by decide), t.2.2.1 (by decide), t.2.2.2.1 (by decide),
    t.2.2.2.2.1 (by decide), t.2.2.2.2.2 (by decide)⟩

/-- C14 fails on the code: in LMS.cpp a value one character longer than the field holds is
accepted by every setter (it returns true) and the field changes to the truncated value. -/
theorem C14_counterexample :
    (MAX_ID_LENGTH - 1 < Sample.long20.length ∧
      (LMS.setId Book.new (some Sample.long20)).1 = true ∧
      (LMS.setId Book.new (some Sample.long20)).2.getId = Sample.long19 ∧
      Book.new.getId = []) ∧
    (MAX_ISBN_LENGTH - 1 < Sample.long20.length ∧
      (LMS.setIsbn Book.new (some Sample.long20)).1 = true ∧
      (LMS.setIsbn Book.new (some Sample.long20)).2.getIsbn = Sample.long19) ∧
    (MAX_TITLE_LENGTH - 1 < Sample.long100.length ∧
      (LMS.setTitle Book.new (some Sample.long100)).1 = true ∧
      (LMS.setTitle Book.new (some Sample.long100)).2.getTitle = List.replicate 99 'A') ∧
    (MAX_AUTHOR_LENGTH - 1 < Sample.long50.length ∧
      (LMS.setAuthor Book.new (some Sample.long50)).1 = true ∧
      (LMS.setAuthor Book.new (some Sample.long50)).2.getAuthor = List.replicate 49 'A') ∧
    (MAX_EDITION_LENGTH - 1 < Sample.long20.length ∧
      (LMS.setEdition Book.new (some Sample.long20)).1 = true ∧
      (LMS.setEdition Book.new (some Sample.long20)).2.getEdition = Sample.long19) ∧
    (MAX_PUBLICATION_LENGTH - 1 < Sample.long50.length ∧
      (LMS.setPublication Book.new (some Sample.long50)).1 = true ∧
      (LMS.setPublication Book.new (some Sample.long50)).2.getPublication =
        List.replicate 49 'A') := by
  refine ⟨⟨by decide, by decide, by decide, rfl⟩, ⟨by decide, by decide, by decide⟩,
    ⟨by decide, by decide, by decide⟩, ⟨by decide, by decide, by decide⟩,
    ⟨by decide, by decide, by decide⟩, ⟨by decide, by decide, by decide⟩⟩

/-! ### Identifier and category validation -/

theorem isalnum_iff (c : Char) :
    isalnum c = true ↔
      (65 ≤ c.toNat ∧ c.toNat ≤ 90) ∨ (97 ≤ c.toNat ∧ c.toNat ≤ 122) ∨
        (48 ≤ c.toNat ∧ c.toNat ≤ 57) := by
  simp only [isalnum, Char.isAlphanum, Char.isAlpha, Char.isUpper, Char.isLower, Char.isDigit,
    Bool.or_eq_true, Bool.and_eq_true, decide_eq_true_eq, Char.toNat, UInt32.le_def,
    ge_iff_le, Fin.le_def]
  constructor
  · rintro ((⟨h1, h2⟩ | ⟨h1, h2⟩) | ⟨h1, h2⟩)
    · left; exact ⟨h1, h2⟩
    · right; left; exact ⟨h1, h2⟩
    · right; right; exact ⟨h1, h2⟩
  · rintro (⟨h1, h2⟩ | ⟨h1, h2⟩ | ⟨h1, h2⟩)
    · left; left; exact ⟨h1, h2⟩
    · left; right; exact ⟨h1, h2⟩
    · right; exact ⟨h1, h2⟩

/-- C15: in both variants `setId` returns false and leaves the Book (so its id) as it was
for every value containing a character that is not alphanumeric (not in A-Z, a-z, 0-9; a
space, `-` and `_` are such characters) and for the empty string. -/
theorem C15_setId_rejects_non_alnum (b : Book) (s : CStr)
    (h : ∃ c ∈ s, isalnum c = false) :
    LMS.setId b (some s) = (false, b) ∧
    LibraryManagement.setId b (some s) = (false, b) ∧
    LMS.setId b (some []) = (false, b) ∧
    LibraryManagement.setId b (some []) = (false, b) ∧
    (∀ c : Char, isalnum c = true ↔
      (65 ≤ c.toNat ∧ c.toNat ≤ 90) ∨ (97 ≤ c.toNat ∧ c.toNat ≤ 122) ∨
        (48 ≤ c.toNat ∧ c.toNat ≤ 57)) ∧
    ('A'.toNat = 65 ∧ 'Z'.toNat = 90 ∧ 'a'.toNat = 97 ∧ 'z'.toNat = 122 ∧
      '0'.toNat = 48 ∧ '9'.toNat = 57) ∧
    isalnum ' ' = false ∧ isalnum '-' = false ∧ isalnum '_' = false := by
  have hnot : ¬ (∀ c ∈ s, isalnum c = true) := by
    intro hh
    obtain ⟨c, hc, hcf⟩ := h
    rw [hh c hc] at hcf
    cases hcf
  have hlm : LibraryManagement.setId b (some s) = (false, b) := by
    obtain ⟨h1, h2, _⟩ := LibraryManagement.setId_spec b s
    have hf : (LibraryManagement.setId b (some s)).1 = false := by
      cases hv : (LibraryManagement.setId b (some s)).1 with
      | false => rfl
      | true => exact absurd (h1.1 hv).2.2 hnot
    rw [hf] at h2
    exact Prod.ext hf (by simpa using h2)
  refine ⟨?_, hlm, rfl, rfl, isalnum_iff, by decide, by decide, by decide, by decide⟩
  rw [LMS.setId_some, if_neg]
  exact fun hh => hnot ((allAlnum_iff s).1 hh.2)

theorem C15_setId_rejects_non_alnum_witness :
    (∃ c ∈ ['A', ' ', '1'], isalnum c = false) ∧
    LMS.setId Sample.bookA (some ['A', ' ', '1']) = (false, Sample.bookA) ∧
    LibraryManagement.setId Sample.bookA (some ['A', ' ', '1']) = (false, Sample.bookA) :=
  have h : ∃ c ∈ ['A', ' ', '1'], isalnum c = false := ⟨' ', by decide, by decide⟩
  ⟨h, (C15_setId_rejects_non_alnum Sample.bookA ['A', ' ', '1'] h).1,
    (C15_setId_rejects_non_alnum Sample.bookA ['A', ' ', '1'] h).2.1⟩

theorem LibraryManagement.setCategory_spec (b : Book) (s : CStr) :
    ((LibraryManagement.setCategory b (some s)).1 = true ↔
      s = "Fiction".toList ∨ s = "Non-fiction".toList) ∧
    (LibraryManagement.setCategory b (some s)).2 =
      (if (LibraryManagement.setCategory b (some s)).1 = true then { b with category := s }
        else b) ∧
    LibraryManagement.setCategory b none = (false, b) := by
  unfold LibraryManagement.setCategory
  simp only [strlen, strncpy, MAX_CATEGORY_LENGTH, Bool.or_eq_true, decide_eq_true_eq,
    strcmp_eq_zero_iff]
  by_cases h0 : s.length = 0
  · have hs : s = [] := List.length_eq_zero.1 h0
    subst hs
    simp
  · by_cases h1 : s.length > 20 - 1
    · simp only [h0, h1, if_false, if_true]
      refine ⟨?_, ?_, trivial⟩
      · simp only [Bool.false_eq_true, false_iff]
        rintro (hh | hh) <;> rw [hh] at h1 <;> exact absurd h1 (by decide)
      · simp
    · simp only [h0, h1, if_false]
      have ht : List.take (20 - 1) s = s := List.take_of_length_le (by omega)
      rw [ht]
      by_cases hc : s = "Fiction".toList ∨ s = "Non-fiction".toList
      · simp only [hc, if_true]
        exact ⟨trivial, trivial, trivial⟩
      · simp only [hc, if_false]
        refine ⟨?_, ?_, trivial⟩ <;> simp

/-- C16: in library_management.cpp `setCategory(v)` returns true exactly when `v` is the
string "Fiction" or the string "Non-fiction" (so "fiction", "FICTION", "Non-Fiction", the
empty string and an absent value are rejected); on true the Book is as before with
category `v`, on false the Book is unchanged. -/
theorem C16_setCategory_exact (b : Book) (s : CStr) :
    ((LibraryManagement.setCategory b (some s)).1 = true ↔
      s = "Fiction".toList ∨ s = "Non-fiction".toList) ∧
    (LibraryManagement.setCategory b (some s)).2 =
      (if (LibraryManagement.setCategory b (some s)).1 = true then { b with category := s }
        else b) ∧
    LibraryManagement.setCategory b none = (false, b) ∧
    (LibraryManagement.setCategory b (some "fiction".toList)).1 = false ∧
    (LibraryManagement.setCategory b (some "FICTION".toList)).1 = false ∧
    (LibraryManagement.setCategory b (some "Non-Fiction".toList)).1 = false ∧
    (LibraryManagement.setCategory b (some [])).1 = false ∧
    LibraryManagement.setCategory b (some "Fiction".toList) =
      (true, { b with category := "Fiction".toList }) ∧
    LibraryManagement.setCategory b (some "Non-fiction".toList) =
      (true, { b with category := "Non-fiction".toList }) := by
  have hrej : ∀ t : CStr, ¬ (t = "Fiction".toList ∨ t = "Non-fiction".toList) →
      (LibraryManagement.setCategory b (some t)).1 = false := by
    intro t ht
    cases hv : (LibraryManagement.setCategory b (some t)).1 with
    | false => rfl
    | true => exact absurd ((LibraryManagement.setCategory_spec b t).1.1 hv) ht
  have hacc : ∀ t : CStr, (t = "Fiction".toList ∨ t = "Non-fiction".toList) →
      LibraryManagement.setCategory b (some t) = (true, { b with category := t }) := by
    intro t ht
    obtain ⟨h1, h2, _⟩ := LibraryManagement.setCategory_spec b t
    have hv := h1.2 ht
    rw [if_pos hv] at h2
    exact Prod.ext hv h2
  obtain ⟨h1, h2, h3⟩ := LibraryManagement.setCategory_spec b s
  exact ⟨h1, h2, h3, hrej _ (by decide), hrej _ (by decide), hrej _ (by decide),
    hrej _ (by decide), hacc _ (Or.inl rfl), hacc _ (Or.inr rfl)⟩

theorem map_tolower_take (s t : CStr) (ht : t.length < 19) :
    (s.take 19).map tolower = t ↔ s.map tolower = t := by
  constructor
  · intro h
    have hl : (s.take 19).length = t.length := by
      rw [← h, List.length_map]
    rw [List.length_take] at hl
    have hs : s.take 19 = s := List.take_of_length_le (by omega)
    rwa [hs] at h
  · intro h
    have hl : s.length = t.length := by
      rw [← h, List.length_map]
    have hs : s.take 19 = s := List.take_of_length_le (by omega)
    rwa [hs]

theorem LMS.setCategory_some (b : Book) (s : CStr) :
    LMS.setCategory b (some s) =
      (if s.map tolower = "fiction".toList then
        (true, { b with category := "Fiction".toList })
      else if s.map tolower = "non-fiction".toList then
        (true, { b with category := "Non-fiction".toList })
      else (false, b)) := by
  unfold LMS.setCategory
  simp only [strncpy, MAX_CATEGORY_LENGTH, strcmp_eq_zero_iff]
  rw [show (20 - 1 : Nat) = 19 from rfl]
  simp only [map_tolower_take s "fiction".toList (by decide),
    map_tolower_take s "non-fiction".toList (by decide)]

/-- C17: in LMS.cpp, for every present value `v` of any length, `setCategory(v)` returns
true exactly when `v` lower-cased character by character is "fiction" or "non-fiction";
it then stores "Fiction" or "Non-fiction" respectively whatever the casing of `v`, and
otherwise (the empty string and values of 20 or more characters included) leaves the Book
unchanged. -/
theorem C17_setCategory_normalises (b : Book) (s : CStr) :
    ((LMS.setCategory b (some s)).1 = true ↔
      s.map tolower = "fiction".toList ∨ s.map tolower = "non-fiction".toList) ∧
    LMS.setCategory b (some s) =
      (if s.map tolower = "fiction".toList then
        (true, { b with category := "Fiction".toList })
      else if s.map tolower = "non-fiction".toList then
        (true, { b with category := "Non-fiction".toList })
      else (false, b)) ∧
    LMS.setCategory b (some "FICTION".toList) =
      (true, { b with category := "Fiction".toList }) ∧
    LMS.setCategory b (some "nOn-FiCtIoN".toList) =
      (true, { b with category := "Non-fiction".toList }) ∧
    LMS.setCategory b (some []) = (false, b) ∧
    LMS.setCategory b (some "non-fictionnon-fiction".toList) = (false, b) ∧
    LMS.setCategory b (some ("fiction".toList ++ List.replicate 13 ' ')) = (false, b) := by
  refine ⟨?_, LMS.setCategory_some b s, ?_, ?_, ?_, ?_, ?_⟩
  · rw [LMS.setCategory_some]
    by_cases h1 : s.map tolower = "fiction".toList
    · rw [if_pos h1]
      exact ⟨fun _ => Or.inl h1, fun _ => rfl⟩
    · rw [if_neg h1]
      by_cases h2 : s.map tolower = "non-fiction".toList
      · rw [if_pos h2]
        exact ⟨fun _ => Or.inr h2, fun _ => rfl⟩
      · rw [if_neg h2]
        refine ⟨fun hh => ?_, fun hh => ?_⟩
        · cases hh
        · rcases hh with hh | hh
          · exact absurd hh h1
          · exact absurd hh h2
  · rw [LMS.setCategory_some, if_pos (by decide)]
  · rw [LMS.setCategory_some, if_neg (by decide), if_pos (by decide)]
  · rw [LMS.setCategory_some, if_neg (by decide), if_neg (by decide)]
  · rw [LMS.setCategory_some, if_neg (by decide), if_neg (by decide)]
  · rw [LMS.setCategory_some, if_neg (by decide), if_neg (by decide)]

/-! ### The duplicate predicate against `addBook` -/

theorem Sample.builtLong_LMS : LMS.SetterBuilt Sample.builtLong :=
  LMS.SetterBuilt.setId Book.new (some Sample.long19) LMS.SetterBuilt.new

theorem Sample.reachLong_LMS : LMS.Reachable Sample.reachLong :=
  LMS.Reachable.addBook _ Sample.builtLong (LMS.Reachable.construct 3) Sample.builtLong_LMS

/-- C18 (as the code behaves): in LMS.cpp, on a reachable catalog with `count < capacity`,
for every value `v` that `setId` accepts on a Book `b`, `addBook(b)` returns false exactly
when `isIdDuplicate` is true of the id `b` then holds, that is of the first 19 characters of
`v`; `isIdDuplicate(v)` itself agrees with `addBook(b)` whenever `v` has at most 19
characters. -/
theorem C18_isIdDuplicate_agrees (L : Library) (b0 : Book) (v : CStr)
    (hr : LMS.Reachable L) (hc : L.count < L.capacity)
    (hs : (LMS.setId b0 (some v)).1 = true) :
    (LMS.isIdDuplicate L (LMS.setId b0 (some v)).2.getId = true ↔
      (LMS.addBook L (LMS.setId b0 (some v)).2).1 = false) ∧
    (LMS.setId b0 (some v)).2.getId = v.take 19 ∧
    (v.length ≤ MAX_ID_LENGTH - 1 →
      (LMS.isIdDuplicate L v = true ↔
        (LMS.addBook L (LMS.setId b0 (some v)).2).1 = false)) := by
  have hwf : L.WF := hr.idsOk.1
  have hgood : v ≠ [] ∧ allAlnum v = true := by
    by_cases hg : v ≠ [] ∧ allAlnum v = true
    · exact hg
    · rw [LMS.setId_some, if_neg hg] at hs
      cases hs
  have hid : (LMS.setId b0 (some v)).2.getId = v.take 19 := by
    rw [LMS.setId_some, if_pos hgood]
    rfl
  have hne : (LMS.setId b0 (some v)).2.getId ≠ [] := by
    rw [hid]
    cases v with
    | nil => exact absurd rfl hgood.1
    | cons c t => simp
  have key : LMS.isIdDuplicate L (LMS.setId b0 (some v)).2.getId = true ↔
      (LMS.addBook L (LMS.setId b0 (some v)).2).1 = false := by
    rw [LMS.isIdDuplicate_iff hwf]
    constructor
    · rintro ⟨r, hr1, hr2⟩
      cases hv : (LMS.addBook L (LMS.setId b0 (some v)).2).1 with
      | false => rfl
      | true => exact absurd hr2 (((LMS.addBook_fst_iff hwf _).1 hv).2.2 r hr1)
    · intro hf
      by_contra hno
      have : (LMS.addBook L (LMS.setId b0 (some v)).2).1 = true := by
        rw [LMS.addBook_fst_iff hwf]
        exact ⟨hc, hne, fun r hr1 hr2 => hno ⟨r, hr1, hr2⟩⟩
      rw [this] at hf
      cases hf
  refine ⟨key, hid, fun hlen => ?_⟩
  have hv : v.take 19 = v := List.take_of_length_le hlen
  rw [hid, hv] at key
  exact key

theorem C18_isIdDuplicate_agrees_witness :
    LMS.Reachable Sample.reachLong ∧ Sample.reachLong.count < Sample.reachLong.capacity ∧
    (LMS.setId Book.new (some Sample.long19)).1 = true ∧
    Sample.long19.length ≤ MAX_ID_LENGTH - 1 ∧
    (LMS.isIdDuplicate Sample.reachLong Sample.long19 = true ↔
      (LMS.addBook Sample.reachLong (LMS.setId Book.new (some Sample.long19)).2).1 = false) ∧
    LMS.isIdDuplicate Sample.reachLong Sample.long19 = true :=
  ⟨Sample.reachLong_LMS, by decide, by decide, by decide,
    (C18_isIdDuplicate_agrees Sample.reachLong Book.new Sample.long19 Sample.reachLong_LMS
      (by decide) (by decide)).2.2 (by decide),
    by decide⟩

/-- C18 fails on the code: the catalog holds the id of nineteen letters `A`; `setId` accepts
the value of twenty letters `A` on a fresh Book and stores its first nineteen; then
`isIdDuplicate` is false of the twenty-letter value although `addBook` of that Book returns
false. -/
theorem C18_counterexample :
    LMS.Reachable Sample.reachLong ∧ Sample.reachLong.count < Sample.reachLong.capacity ∧
    (LMS.setId Book.new (some Sample.long20)).1 = true ∧
    LMS.isIdDuplicate Sample.reachLong Sample.long20 = false ∧
    (LMS.addBook Sample.reachLong (LMS.setId Book.new (some Sample.long20)).2).1 = false :=
  ⟨Sample.reachLong_LMS, by decide, by decide, by decide, by decide⟩

/-! ### Listing by a category that is not canonical -/

theorem categoryLoop_flag (books : List Book) (count : Int) (c : CStr) :
    ∀ fuel i : Nat,
      ((categoryLoop books count c fuel i).2 = true ↔
        rowsOf (categoryLoop books count c fuel i).1 ≠ []) := by
  intro fuel
  induction fuel with
  | zero => intro i; simp [categoryLoop, rowsOf]
  | succ fuel ih =>
    intro i
    unfold categoryLoop
    by_cases hi : (i : Int) < count
    · rw [if_pos hi]
      by_cases e : strcmp (books.getD i default).getCategory c = 0
      · simp only [if_pos e, rowsOf]
        simp
      · simp only [if_neg e]
        exact ih (i + 1)
    · rw [if_neg hi]
      simp [rowsOf]

theorem categoryLoop_outs (books : List Book) (count : Int) (c : CStr) :
    ∀ fuel i : Nat, ∀ o ∈ (categoryLoop books count c fuel i).1,
      o = Out.separator ∨ ∃ b : Book, o = Out.row b := by
  intro fuel
  induction fuel with
  | zero => intro i o ho; simp [categoryLoop] at ho
  | succ fuel ih =>
    intro i o
    unfold categoryLoop
    by_cases hi : (i : Int) < count
    · rw [if_pos hi]
      by_cases e : strcmp (books.getD i default).getCategory c = 0
      · simp only [if_pos e, List.mem_cons]
        rintro (ho | ho | ho)
        · exact Or.inr ⟨_, ho⟩
        · exact Or.inl ho
        · exact ih (i + 1) o ho
      · simp only [if_neg e]
        exact ih (i + 1) o
    · rw [if_neg hi]
      intro ho
      simp at ho

/-- C19 (as the code behaves): in library_management.cpp `displayBooksByCategory` gives the
invalid-category signal, and nothing else, only for an absent or empty category.  For every
non-empty value, canonical or not, it writes the table header first, then the rows of the
stored records whose category equals the value exactly, never the invalid-category signal,
and it reports "no books found in this category" exactly when no stored record has that
category. -/
theorem C19_noncanonical_category_scanned (L : Library) (c : CStr) (h : L.WF) (hc : c ≠ []) :
    (LibraryManagement.displayBooksByCategory L (some c)).head? = some Out.header ∧
    Out.invalidCategory ∉ LibraryManagement.displayBooksByCategory L (some c) ∧
    rowsOf (LibraryManagement.displayBooksByCategory L (some c)) =
      L.stored.filter (fun b => decide (b.getCategory = c)) ∧
    (Out.noneInCategory ∈ LibraryManagement.displayBooksByCategory L (some c) ↔
      L.stored.filter (fun b => decide (b.getCategory = c)) = []) ∧
    LibraryManagement.displayBooksByCategory L none = [Out.invalidCategory] ∧
    LibraryManagement.displayBooksByCategory L (some []) = [Out.invalidCategory] := by
  obtain ⟨a1, a2⟩ := displayAllBooks_rows h
  have hrows : rowsOf (categoryLoop L.books L.count c L.count.toNat 0).1 =
      L.stored.filter (fun b => decide (b.getCategory = c)) := by
    rw [rowsOf_categoryLoop, ← a2, a1]
  have houts := categoryLoop_outs L.books L.count c L.count.toNat 0
  have hflag := categoryLoop_flag L.books L.count c L.count.toNat 0
  rw [LibraryManagement.displayBooksByCategory_some L hc]
  refine ⟨rfl, ?_, ?_, ?_, rfl, rfl⟩
  · intro hm
    rcases List.mem_cons.1 hm with hm | hm
    · cases hm
    · rcases List.mem_append.1 hm with hm | hm
      · rcases houts _ hm with ho | ⟨b, ho⟩ <;> cases ho
      · split at hm
        · rw [List.mem_singleton] at hm; cases hm
        · cases hm
  · rw [rowsOf_category_output, ← a2, a1]
  · rw [← hrows]
    constructor
    · intro hm
      rcases List.mem_cons.1 hm with hm | hm
      · cases hm
      · rcases List.mem_append.1 hm with hm | hm
        · rcases houts _ hm with ho | ⟨b, ho⟩ <;> cases ho
        · by_cases hf : (categoryLoop L.books L.count c L.count.toNat 0).2 = true
          · rw [hf] at hm
            simp at hm
          · by_contra hne
            exact hf (hflag.2 hne)
    · intro he
      have hf : (categoryLoop L.books L.count c L.count.toNat 0).2 = false := by
        cases hv : (categoryLoop L.books L.count c L.count.toNat 0).2 with
        | false => rfl
        | true => exact absurd he (hflag.1 hv)
      rw [hf]
      simp

theorem C19_noncanonical_category_scanned_witness :
    Sample.libABCD.WF ∧ "Poetry".toList ≠ [] ∧
    (LibraryManagement.displayBooksByCategory Sample.libABCD (some "Poetry".toList)).head? =
      some Out.header ∧
    Out.invalidCategory ∉
      LibraryManagement.displayBooksByCategory Sample.libABCD (some "Poetry".toList) ∧
    Out.noneInCategory ∈
      LibraryManagement.displayBooksByCategory Sample.libABCD (some "Poetry".toList) :=
  have t := C19_noncanonical_category_scanned Sample.libABCD "Poetry".toList (by decide)
    (by decide)
  ⟨by decide, by decide, t.1, t.2.1, t.2.2.2.1.2 (by decide)⟩

/-- C19 fails on the code: for the values "Poetry" and "fiction", neither of them canonical,
library_management.cpp writes the table header, scans the four stored records and reports
"no books found in this category"; it does not give the invalid-category signal. -/
theorem C19_counterexample :
    "Poetry".toList ≠ "Fiction".toList ∧ "Poetry".toList ≠ "Non-fiction".toList ∧
    "fiction".toList ≠ "Fiction".toList ∧ "fiction".toList ≠ "Non-fiction".toList ∧
    LibraryManagement.displayBooksByCategory Sample.libABCD (some "Poetry".toList) =
      [Out.header, Out.noneInCategory] ∧
    LibraryManagement.displayBooksByCategory Sample.libABCD (some "fiction".toList) =
      [Out.header, Out.noneInCategory] ∧
    LibraryManagement.displayBooksByCategory Sample.libABCD (some "Poetry".toList) ≠
      [Out.invalidCategory] :=
  ⟨by decide, by decide, by decide, by decide, by decide, by decide, by decide⟩

/-! ### Construction -/

/-- C20: in both variants (the constructor is the same in the two files) `Library(n)` has
count 0, capacity `n` when `n > 0` and capacity 100, the value of
`DEFAULT_LIBRARY_CAPACITY`, when `n <= 0`; `Library()` has capacity 100; the backing array
has `capacity` default-constructed elements and no record is stored. -/
theorem C20_constructor_capacity (n : Int) :
    (Library.construct n).getCount = 0 ∧
    (Library.construct n).capacity = (if n > 0 then n else 100) ∧
    DEFAULT_LIBRARY_CAPACITY = 100 ∧
    Library.constructDefault.capacity = 100 ∧
    Library.constructDefault.getCount = 0 ∧
    (Library.construct n).books =
      List.replicate (Library.construct n).capacity.toNat Book.new ∧
    (Library.construct n).stored = [] ∧
    (Library.construct 7).capacity = 7 ∧
    (Library.construct 0).capacity = 100 ∧
    (Library.construct (-3)).capacity = 100 := by
  refine ⟨rfl, ?_, rfl, by decide, rfl, rfl, Library.construct_stored n, by decide, by decide,
    by decide⟩
  unfold Library.construct
  by_cases hn : n > 0
  · simp only [if_pos hn]
  · simp only [if_neg hn]
    rfl

/-! ### The concrete scenario -/

/-- C21: in both variants the scenario of the specification holds step by step.  With
`Library(2)`: `addBook` of A1 (Fiction) returns true, count 1; `addBook` of A1 again returns
false, count 1; `addBook` of B2 (Non-fiction) returns true, count 2; `addBook` of C3 returns
false, count 2; `deleteBook(A1)` returns true, count 1, the stored sequence is exactly [B2];
`editBook(B2, payload with category Fiction)` returns true and `getBookById(B2)` then yields
a record with category "Fiction" and id B2. -/
theorem C21_concrete_scenario :
    ((LMS.addBook (Library.construct 2) Sample.scA1).1 = true ∧
      Sample.lmsAfter1.getCount = 1 ∧
      (LMS.addBook Sample.lmsAfter1 Sample.scA1again).1 = false ∧
      Sample.lmsAfter2.getCount = 1 ∧
      (LMS.addBook Sample.lmsAfter2 Sample.scB2).1 = true ∧
      Sample.lmsAfter3.getCount = 2 ∧
      (LMS.addBook Sample.lmsAfter3 Sample.scC3).1 = false ∧
      Sample.lmsAfter4.getCount = 2 ∧
      (LMS.deleteBook Sample.lmsAfter4 "A1".toList).1 = true ∧
      Sample.lmsAfter5.getCount = 1 ∧
      Sample.lmsAfter5.stored = [Sample.scB2] ∧
      (LMS.editBook Sample.lmsAfter5 "B2".toList Sample.scPayload).1 = true ∧
      (LMS.getBookById Sample.lmsAfter6 "B2".toList Book.new).1 = true ∧
      (LMS.getBookById Sample.lmsAfter6 "B2".toList Book.new).2.getCategory =
        "Fiction".toList ∧
      (LMS.getBookById Sample.lmsAfter6 "B2".toList Book.new).2.getId = "B2".toList) ∧
    ((LibraryManagement.addBook (Library.construct 2) Sample.scA1).1 = true ∧
      Sample.lmAfter1.getCount = 1 ∧
      (LibraryManagement.addBook Sample.lmAfter1 Sample.scA1again).1 = false ∧
      Sample.lmAfter2.getCount = 1 ∧
      (LibraryManagement.addBook Sample.lmAfter2 Sample.scB2).1 = true ∧
      Sample.lmAfter3.getCount = 2 ∧
      (LibraryManagement.addBook Sample.lmAfter3 Sample.scC3).1 = false ∧
      Sample.lmAfter4.getCount = 2 ∧
      (LibraryManagement.deleteBook Sample.lmAfter4 (some "A1".toList)).1 = true ∧
      Sample.lmAfter5.getCount = 1 ∧
      Sample.lmAfter5.stored = [Sample.scB2] ∧
      (LibraryManagement.editBook Sample.lmAfter5 (some "B2".toList) Sample.scPayload).1 =
        true ∧
      (LibraryManagement.getBookById Sample.lmAfter6 (some "B2".toList) Book.new).1 = true ∧
      (LibraryManagement.getBookById Sample.lmAfter6 (some "B2".toList)
        Book.new).2.getCategory = "Fiction".toList ∧
      (LibraryManagement.getBookById Sample.lmAfter6 (some "B2".toList) Book.new).2.getId =
        "B2".toList) := by
  refine ⟨⟨?_, ?_, ?_, ?_, ?_, ?_, ?_, ?_, ?_, ?_, ?_, ?_, ?_, ?_, ?_⟩,
    ⟨?_, ?_, ?_, ?_, ?_, ?_, ?_, ?_, ?_, ?_, ?_, ?_, ?_, ?_, ?_⟩⟩ <;> decide

/-! ### Invariants of the Book fields -/

theorem SetterStep.refl (b : Book) : SetterStep b b :=
  ⟨Or.inl rfl, Or.inl rfl, Or.inl rfl, Or.inl rfl, Or.inl rfl, Or.inl rfl, Or.inl rfl⟩

theorem fieldOk_take {s : CStr} (n : Nat) (h : s ≠ []) (hn : 0 < n) :
    FieldOk n (s.take n) := by
  refine ⟨?_, ?_⟩
  · cases s with
    | nil => exact absurd rfl h
    | cons c t =>
      cases n with
      | zero => exact absurd hn (Nat.lt_irrefl 0)
      | succ m => simp
  · rw [List.length_take]
    exact Nat.min_le_left _ _

theorem LMS.applySetter_step (b : Book) (c : SetterCall) :
    SetterStep b (LMS.applySetter b c).2 := by
  cases c with
  | setId v =>
    cases v with
    | none => exact SetterStep.refl b
    | some s =>
      show SetterStep b (LMS.setId b (some s)).2
      rw [LMS.setId_some]
      split
      · rename_i h
        exact ⟨Or.inr (fieldOk_take 19 h.1 (by decide)), Or.inl rfl, Or.inl rfl, Or.inl rfl,
          Or.inl rfl, Or.inl rfl, Or.inl rfl⟩
      · exact SetterStep.refl b
  | setIsbn v =>
    cases v with
    | none => exact SetterStep.refl b
    | some s =>
      show SetterStep b (LMS.setIsbn b (some s)).2
      rw [LMS.setIsbn_some]
      split
      · rename_i h
        exact ⟨Or.inl rfl, Or.inr (fieldOk_take 19 h (by decide)), Or.inl rfl, Or.inl rfl,
          Or.inl rfl, Or.inl rfl, Or.inl rfl⟩
      · exact SetterStep.refl b
  | setTitle v =>
    cases v with
    | none => exact SetterStep.refl b
    | some s =>
      show SetterStep b (LMS.setTitle b (some s)).2
      rw [LMS.setTitle_some]
      split
      · rename_i h
        exact ⟨Or.inl rfl, Or.inl rfl, Or.inr (fieldOk_take 99 h (by decide)), Or.inl rfl,
          Or.inl rfl, Or.inl rfl, Or.inl rfl⟩
      · exact SetterStep.refl b
  | setAuthor v =>
    cases v with
    | none => exact SetterStep.refl b
    | some s =>
      show SetterStep b (LMS.setAuthor b (some s)).2
      rw [LMS.setAuthor_some]
      split
      · rename_i h
        exact ⟨Or.inl rfl, Or.inl rfl, Or.inl rfl, Or.inr (fieldOk_take 49 h (by decide)),
          Or.inl rfl, Or.inl rfl, Or.inl rfl⟩
      · exact SetterStep.refl b
  | setEdition v =>
    cases v with
    | none => exact SetterStep.refl b
    | some s =>
      show SetterStep b (LMS.setEdition b (some s)).2
      rw [LMS.setEdition_some]
      split
      · rename_i h
        exact ⟨Or.inl rfl, Or.inl rfl, Or.inl rfl, Or.inl rfl,
          Or.inr (fieldOk_take 19 h (by decide)), Or.inl rfl, Or.inl rfl⟩
      · exact SetterStep.refl b
  | setPublication v =>
    cases v with
    | none => exact SetterStep.refl b
    | some s =>
      show SetterStep b (LMS.setPublication b (some s)).2
      rw [LMS.setPublication_some]
      split
      · rename_i h
        exact ⟨Or.inl rfl, Or.inl rfl, Or.inl rfl, Or.inl rfl, Or.inl rfl,
          Or.inr (fieldOk_take 49 h (by decide)), Or.inl rfl⟩
      · exact SetterStep.refl b
  | setCategory v =>
    cases v with
    | none => exact SetterStep.refl b
    | some s =>
      show SetterStep b (LMS.setCategory b (some s)).2
      rw [LMS.setCategory_some]
      split
      · exact ⟨Or.inl rfl, Or.inl rfl, Or.inl rfl, Or.inl rfl, Or.inl rfl, Or.inl rfl,
          Or.inr (Or.inl rfl)⟩
      · split
        · exact ⟨Or.inl rfl, Or.inl rfl, Or.inl rfl, Or.inl rfl, Or.inl rfl, Or.inl rfl,
            Or.inr (Or.inr rfl)⟩
        · exact SetterStep.refl b

theorem LibraryManagement.applySetter_stepwise (b : Book) (c : SetterCall) :
    SetterStep b (LibraryManagement.applySetter b c).2 := by
  cases c with
  | setId v =>
    cases v with
    | none => exact SetterStep.refl b
    | some s =>
      show SetterStep b (LibraryManagement.setId b (some s)).2
      obtain ⟨h1, h2, _⟩ := LibraryManagement.setId_spec b s
      by_cases hv : (LibraryManagement.setId b (some s)).1 = true
      · rw [h2, if_pos hv]
        exact ⟨Or.inr ⟨(h1.1 hv).1, (h1.1 hv).2.1⟩, Or.inl rfl, Or.inl rfl, Or.inl rfl, Or.inl rfl, Or.inl rfl, Or.inl rfl⟩
      · rw [h2, if_neg hv]
        exact SetterStep.refl b
  | setIsbn v =>
    cases v with
    | none => exact SetterStep.refl b
    | some s =>
      show SetterStep b (LibraryManagement.setIsbn b (some s)).2
      obtain ⟨h1, h2, _⟩ := LibraryManagement.setIsbn_spec b s
      by_cases hv : (LibraryManagement.setIsbn b (some s)).1 = true
      · rw [h2, if_pos hv]
        exact ⟨Or.inl rfl, Or.inr (h1.1 hv), Or.inl rfl, Or.inl rfl, Or.inl rfl, Or.inl rfl, Or.inl rfl⟩
      · rw [h2, if_neg hv]
        exact SetterStep.refl b
  | setTitle v =>
    cases v with
    | none => exact SetterStep.refl b
    | some s =>
      show SetterStep b (LibraryManagement.setTitle b (some s)).2
      obtain ⟨h1, h2, _⟩ := LibraryManagement.setTitle_spec b s
      by_cases hv : (LibraryManagement.setTitle b (some s)).1 = true
      · rw [h2, if_pos hv]
        exact ⟨Or.inl rfl, Or.inl rfl, Or.inr (h1.1 hv), Or.inl rfl, Or.inl rfl, Or.inl rfl, Or.inl rfl⟩
      · rw [h2, if_neg hv]
        exact SetterStep.refl b
  | setAuthor v =>
    cases v with
    | none => exact SetterStep.refl b
    | some s =>
      show SetterStep b (LibraryManagement.setAuthor b (some s)).2
      obtain ⟨h1, h2, _⟩ := LibraryManagement.setAuthor_spec b s
      by_cases hv : (LibraryManagement.setAuthor b (some s)).1 = true
      · rw [h2, if_pos hv]
        exact ⟨Or.inl rfl, Or.inl rfl, Or.inl rfl, Or.inr (h1.1 hv), Or.inl rfl, Or.inl rfl, Or.inl rfl⟩
      · rw [h2, if_neg hv]
        exact SetterStep.refl b
  | setEdition v =>
    cases v with
    | none => exact SetterStep.refl b
    | some s =>
      show SetterStep b (LibraryManagement.setEdition b (some s)).2
      obtain ⟨h1, h2, _⟩ := LibraryManagement.setEdition_spec b s
      by_cases hv : (LibraryManagement.setEdition b (some s)).1 = true
      · rw [h2, if_pos hv]
        exact ⟨Or.inl rfl, Or.inl rfl, Or.inl rfl, Or.inl rfl, Or.inr (h1.1 hv), Or.inl rfl, Or.inl rfl⟩
      · rw [h2, if_neg hv]
        exact SetterStep.refl b
  | setPublication v =>
    cases v with
    | none => exact SetterStep.refl b
    | some s =>
      show SetterStep b (LibraryManagement.setPublication b (some s)).2
      obtain ⟨h1, h2, _⟩ := LibraryManagement.setPublication_spec b s
      by_cases hv : (LibraryManagement.setPublication b (some s)).1 = true
      · rw [h2, if_pos hv]
        exact ⟨Or.inl rfl, Or.inl rfl, Or.inl rfl, Or.inl rfl, Or.inl rfl, Or.inr (h1.1 hv), Or.inl rfl⟩
      · rw [h2, if_neg hv]
        exact SetterStep.refl b
  | setCategory v =>
    cases v with
    | none => exact SetterStep.refl b
    | some s =>
      show SetterStep b (LibraryManagement.setCategory b (some s)).2
      obtain ⟨h1, h2, _⟩ := LibraryManagement.setCategory_spec b s
      by_cases hv : (LibraryManagement.setCategory b (some s)).1 = true
      · rw [h2, if_pos hv]
        exact ⟨Or.inl rfl, Or.inl rfl, Or.inl rfl, Or.inl rfl, Or.inl rfl, Or.inl rfl,
          Or.inr (h1.1 hv)⟩
      · rw [h2, if_neg hv]
        exact SetterStep.refl b

theorem SetterStep.kept {b c : Book} (h : SetterStep b c) : FieldsKept b c := by
  obtain ⟨h1, h2, h3, h4, h5, h6, h7⟩ := h
  refine ⟨fun g => ?_, fun g => ?_, fun g => ?_, fun g => ?_, fun g => ?_, fun g => ?_,
    fun g => ?_, fun g => ?_⟩
  · rcases h1 with e | e
    · rw [e]; exact g
    · exact e
  · rcases h2 with e | e
    · rw [e]; exact g
    · exact e
  · rcases h3 with e | e
    · rw [e]; exact g
    · exact e
  · rcases h4 with e | e
    · rw [e]; exact g
    · exact e
  · rcases h5 with e | e
    · rw [e]; exact g
    · exact e
  · rcases h6 with e | e
    · rw [e]; exact g
    · exact e
  · rcases h7 with e | e
    · rw [e]; exact g
    · exact e
  · rcases h7 with e | e
    · rw [e]; exact g
    · exact Or.inr e

theorem FieldsKept.trans {a b c : Book} (h1 : FieldsKept a b) (h2 : FieldsKept b c) :
    FieldsKept a c :=
  ⟨fun g => h2.1 (h1.1 g), fun g => h2.2.1 (h1.2.1 g), fun g => h2.2.2.1 (h1.2.2.1 g),
    fun g => h2.2.2.2.1 (h1.2.2.2.1 g), fun g => h2.2.2.2.2.1 (h1.2.2.2.2.1 g),
    fun g => h2.2.2.2.2.2.1 (h1.2.2.2.2.2.1 g),
    fun g => h2.2.2.2.2.2.2.1 (h1.2.2.2.2.2.2.1 g),
    fun g => h2.2.2.2.2.2.2.2 (h1.2.2.2.2.2.2.2 g)⟩

theorem LMS.applySetters_kept (calls : List SetterCall) :
    ∀ b : Book, FieldsKept b (LMS.applySetters b calls) := by
  induction calls with
  | nil => intro b; exact (SetterStep.refl b).kept
  | cons c cs ih =>
    intro b
    exact (LMS.applySetter_step b c).kept.trans (ih _)

theorem LibraryManagement.applySetters_keep (calls : List SetterCall) :
    ∀ b : Book, FieldsKept b (LibraryManagement.applySetters b calls) := by
  induction calls with
  | nil => intro b; exact (SetterStep.refl b).kept
  | cons c cs ih =>
    intro b
    exact (LibraryManagement.applySetter_stepwise b c).kept.trans (ih _)

theorem LMS.SetterBuilt.categoryOk {b : Book} (h : LMS.SetterBuilt b) :
    b.category = [] ∨ CanonicalCategory b.category := by
  induction h with
  | new => left; rfl
  | setId b v _ ih =>
    exact (LMS.applySetter_step b (SetterCall.setId v)).kept.2.2.2.2.2.2.2 ih
  | setIsbn b v _ ih =>
    exact (LMS.applySetter_step b (SetterCall.setIsbn v)).kept.2.2.2.2.2.2.2 ih
  | setTitle b v _ ih =>
    exact (LMS.applySetter_step b (SetterCall.setTitle v)).kept.2.2.2.2.2.2.2 ih
  | setAuthor b v _ ih =>
    exact (LMS.applySetter_step b (SetterCall.setAuthor v)).kept.2.2.2.2.2.2.2 ih
  | setEdition b v _ ih =>
    exact (LMS.applySetter_step b (SetterCall.setEdition v)).kept.2.2.2.2.2.2.2 ih
  | setPublication b v _ ih =>
    exact (LMS.applySetter_step b (SetterCall.setPublication v)).kept.2.2.2.2.2.2.2 ih
  | setCategory b v _ ih =>
    exact (LMS.applySetter_step b (SetterCall.setCategory v)).kept.2.2.2.2.2.2.2 ih

theorem LibraryManagement.SetterBuilt.categoryFine {b : Book}
    (h : LibraryManagement.SetterBuilt b) :
    b.category = [] ∨ CanonicalCategory b.category := by
  induction h with
  | new => left; rfl
  | setId b v _ ih =>
    exact (LibraryManagement.applySetter_stepwise b (SetterCall.setId v)).kept.2.2.2.2.2.2.2 ih
  | setIsbn b v _ ih =>
    exact (LibraryManagement.applySetter_stepwise b (SetterCall.setIsbn v)).kept.2.2.2.2.2.2.2 ih
  | setTitle b v _ ih =>
    exact (LibraryManagement.applySetter_stepwise b (SetterCall.setTitle v)).kept.2.2.2.2.2.2.2 ih
  | setAuthor b v _ ih =>
    exact (LibraryManagement.applySetter_stepwise b (SetterCall.setAuthor v)).kept.2.2.2.2.2.2.2 ih
  | setEdition b v _ ih =>
    exact (LibraryManagement.applySetter_stepwise b (SetterCall.setEdition v)).kept.2.2.2.2.2.2.2 ih
  | setPublication b v _ ih =>
    exact (LibraryManagement.applySetter_stepwise b
      (SetterCall.setPublication v)).kept.2.2.2.2.2.2.2 ih
  | setCategory b v _ ih =>
    exact (LibraryManagement.applySetter_stepwise b
      (SetterCall.setCategory v)).kept.2.2.2.2.2.2.2 ih

/-! ### Properties of all stored records -/

theorem LMS.addBook_stored_forall {L : Library} (h : L.WF) (P : Book → Prop) (b : Book)
    (hall : ∀ r ∈ L.stored, P r) (hb : P b) : ∀ r ∈ (LMS.addBook L b).2.stored, P r := by
  cases hv : (LMS.addBook L b).1 with
  | false => rw [LMS.addBook_of_false b hv]; exact hall
  | true =>
    rw [(LMS.addBook_stored h b hv).1]
    intro r hr
    rcases List.mem_append.1 hr with hr | hr
    · exact hall r hr
    · rw [List.mem_singleton] at hr
      rw [hr]; exact hb

theorem LMS.editBook_stored_forall {L : Library} (h : L.IdsOk) (P : Book → Prop) (id : CStr)
    (p : Book) (hall : ∀ r ∈ L.stored, P r) (hp : ∀ s : CStr, P { p with id := s }) :
    ∀ r ∈ (LMS.editBook L id p).2.stored, P r := by
  rcases LMS.findBookById_cases h.1 id with ⟨h1, _⟩ | ⟨k, r0, h1, h2, h3, h4, _, _⟩
  · rw [LMS.editBook_of_not_found p h1]; exact hall
  · rw [(LMS.editBook_found h p h1 h2 h3 h4).2.1]
    intro r hr
    rcases List.mem_or_eq_of_mem_set hr with hr | hr
    · exact hall r hr
    · rw [hr]; exact hp _

theorem LMS.deleteBook_stored_forall {L : Library} (h : L.WF) (P : Book → Prop) (id : CStr)
    (hall : ∀ r ∈ L.stored, P r) : ∀ r ∈ (LMS.deleteBook L id).2.stored, P r := by
  rcases LMS.findBookById_cases h id with ⟨h1, _⟩ | ⟨k, r0, h1, h2, _, _, _, _⟩
  · rw [LMS.deleteBook_of_not_found h1]; exact hall
  · rw [(LMS.deleteBook_of_find h h1 h2).2.1]
    intro r hr
    exact hall r ((List.eraseIdx_sublist _ _).subset hr)

theorem LMS.Reachable.stored_forall (P : Book → Prop)
    (hP : ∀ b, LMS.SetterBuilt b → ∀ s : CStr, P b ∧ P { b with id := s })
    {L : Library} (h : LMS.Reachable L) : ∀ r ∈ L.stored, P r := by
  induction h with
  | construct n =>
    rw [Library.construct_stored]
    intro r hr
    cases hr
  | addBook L b hL hb ih =>
    exact LMS.addBook_stored_forall hL.idsOk.1 P b ih (hP b hb []).1
  | editBook L id p hL hp ih =>
    exact LMS.editBook_stored_forall hL.idsOk P id p ih (fun s => (hP p hp s).2)
  | deleteBook L id hL ih =>
    exact LMS.deleteBook_stored_forall hL.idsOk.1 P id ih

theorem LibraryManagement.Reachable.stored_all (P : Book → Prop)
    (hP : ∀ b, LibraryManagement.SetterBuilt b → ∀ s : CStr, P b ∧ P { b with id := s })
    {L : Library} (h : LibraryManagement.Reachable L) : ∀ r ∈ L.stored, P r := by
  induction h with
  | construct n =>
    rw [Library.construct_stored]
    intro r hr
    cases hr
  | addBook L b hL hb ih =>
    rw [LibraryManagement.addBook_eq]
    exact LMS.addBook_stored_forall hL.ids_ok.1 P b ih (hP b hb []).1
  | editBook L id p hL hp ih =>
    rcases LibraryManagement.editBook_cases L id p with ⟨_, h2⟩ | ⟨s, _, _, _, h2⟩
    · rw [h2]; exact ih
    · rw [h2]
      exact LMS.editBook_stored_forall hL.ids_ok P s p ih (fun s => (hP p hp s).2)
  | deleteBook L id hL ih =>
    rcases LibraryManagement.deleteBook_cases L id with ⟨_, h2⟩ | ⟨s, _, _, _, h2⟩
    · rw [h2]; exact ih
    · rw [h2]
      exact LMS.deleteBook_stored_forall hL.ids_ok.1 P s ih

/-! ### Validated fields stay validated -/

theorem LMS.setId_true_ok (b : Book) (v : Option CStr) (h : (LMS.setId b v).1 = true) :
    FieldOk 19 (LMS.setId b v).2.id := by
  cases v with
  | none => cases h
  | some s =>
    rw [LMS.setId_some] at h ⊢
    split at h
    · rename_i hs
      rw [if_pos hs]
      exact fieldOk_take 19 hs.1 (by decide)
    · cases h

theorem LibraryManagement.setId_true_fine (b : Book) (v : Option CStr)
    (h : (LibraryManagement.setId b v).1 = true) :
    FieldOk 19 (LibraryManagement.setId b v).2.id := by
  cases v with
  | none => cases h
  | some s =>
    obtain ⟨h1, h2, _⟩ := LibraryManagement.setId_spec b s
    rw [h2, if_pos h]
    exact ⟨(h1.1 h).1, (h1.1 h).2.1⟩

theorem LMS.setIsbn_true_ok (b : Book) (v : Option CStr) (h : (LMS.setIsbn b v).1 = true) :
    FieldOk 19 (LMS.setIsbn b v).2.isbn := by
  cases v with
  | none => cases h
  | some s =>
    rw [LMS.setIsbn_some] at h ⊢
    split at h
    · rename_i hs
      rw [if_pos hs]
      exact fieldOk_take 19 hs (by decide)
    · cases h

theorem LibraryManagement.setIsbn_true_fine (b : Book) (v : Option CStr)
    (h : (LibraryManagement.setIsbn b v).1 = true) :
    FieldOk 19 (LibraryManagement.setIsbn b v).2.isbn := by
  cases v with
  | none => cases h
  | some s =>
    obtain ⟨h1, h2, _⟩ := LibraryManagement.setIsbn_spec b s
    rw [h2, if_pos h]
    exact ⟨(h1.1 h).1, (h1.1 h).2⟩

theorem LMS.setTitle_true_ok (b : Book) (v : Option CStr) (h : (LMS.setTitle b v).1 = true) :
    FieldOk 99 (LMS.setTitle b v).2.title := by
  cases v with
  | none => cases h
  | some s =>
    rw [LMS.setTitle_some] at h ⊢
    split at h
    · rename_i hs
      rw [if_pos hs]
      exact fieldOk_take 99 hs (by decide)
    · cases h

theorem LibraryManagement.setTitle_true_fine (b : Book) (v : Option CStr)
    (h : (LibraryManagement.setTitle b v).1 = true) :
    FieldOk 99 (LibraryManagement.setTitle b v).2.title := by
  cases v with
  | none => cases h
  | some s =>
    obtain ⟨h1, h2, _⟩ := LibraryManagement.setTitle_spec b s
    rw [h2, if_pos h]
    exact ⟨(h1.1 h).1, (h1.1 h).2⟩

theorem LMS.setAuthor_true_ok (b : Book) (v : Option CStr) (h : (LMS.setAuthor b v).1 = true) :
    FieldOk 49 (LMS.setAuthor b v).2.author := by
  cases v with
  | none => cases h
  | some s =>
    rw [LMS.setAuthor_some] at h ⊢
    split at h
    · rename_i hs
      rw [if_pos hs]
      exact fieldOk_take 49 hs (by decide)
    · cases h

theorem LibraryManagement.setAuthor_true_fine (b : Book) (v : Option CStr)
    (h : (LibraryManagement.setAuthor b v).1 = true) :
    FieldOk 49 (LibraryManagement.setAuthor b v).2.author := by
  cases v with
  | none => cases h
  | some s =>
    obtain ⟨h1, h2, _⟩ := LibraryManagement.setAuthor_spec b s
    rw [h2, if_pos h]
    exact ⟨(h1.1 h).1, (h1.1 h).2⟩

theorem LMS.setEdition_true_ok (b : Book) (v : Option CStr) (h : (LMS.setEdition b v).1 = true) :
    FieldOk 19 (LMS.setEdition b v).2.edition := by
  cases v with
  | none => cases h
  | some s =>
    rw [LMS.setEdition_some] at h ⊢
    split at h
    · rename_i hs
      rw [if_pos hs]
      exact fieldOk_take 19 hs (by decide)
    · cases h

theorem LibraryManagement.setEdition_true_fine (b : Book) (v : Option CStr)
    (h : (LibraryManagement.setEdition b v).1 = true) :
    FieldOk 19 (LibraryManagement.setEdition b v).2.edition := by
  cases v with
  | none => cases h
  | some s =>
    obtain ⟨h1, h2, _⟩ := LibraryManagement.setEdition_spec b s
    rw [h2, if_pos h]
    exact ⟨(h1.1 h).1, (h1.1 h).2⟩

theorem LMS.setPublication_true_ok (b : Book) (v : Option CStr) (h : (LMS.setPublication b v).1 = true) :
    FieldOk 49 (LMS.setPublication b v).2.publication := by
  cases v with
  | none => cases h
  | some s =>
    rw [LMS.setPublication_some] at h ⊢
    split at h
    · rename_i hs
      rw [if_pos hs]
      exact fieldOk_take 49 hs (by decide)
    · cases h

theorem LibraryManagement.setPublication_true_fine (b : Book) (v : Option CStr)
    (h : (LibraryManagement.setPublication b v).1 = true) :
    FieldOk 49 (LibraryManagement.setPublication b v).2.publication := by
  cases v with
  | none => cases h
  | some s =>
    obtain ⟨h1, h2, _⟩ := LibraryManagement.setPublication_spec b s
    rw [h2, if_pos h]
    exact ⟨(h1.1 h).1, (h1.1 h).2⟩

theorem LMS.setCategory_true_canonical (b : Book) (v : Option CStr)
    (h : (LMS.setCategory b v).1 = true) : CanonicalCategory (LMS.setCategory b v).2.category := by
  cases v with
  | none => cases h
  | some s =>
    rw [LMS.setCategory_some] at h ⊢
    split
    · exact Or.inl rfl
    · rename_i h1
      rw [if_neg h1] at h
      split
      · exact Or.inr rfl
      · rename_i h2
        rw [if_neg h2] at h
        cases h

theorem LibraryManagement.setCategory_true_exact (b : Book) (v : Option CStr)
    (h : (LibraryManagement.setCategory b v).1 = true) :
    CanonicalCategory (LibraryManagement.setCategory b v).2.category := by
  cases v with
  | none => cases h
  | some s =>
    obtain ⟨h1, h2, _⟩ := LibraryManagement.setCategory_spec b s
    rw [h2, if_pos h]
    exact h1.1 h

/-- C22: in both variants the category of a Book obtained from `Book()` by any sequence of
setter calls is the empty string or exactly "Fiction" or "Non-fiction"; after a successful
`setCategory` it is one of the two canonical strings and stays so after any further setter
calls; and every record stored in a reachable catalog has the empty or a canonical
category. -/
theorem C22_category_canonical (calls : List SetterCall) (b0 : Book) (v : Option CStr)
    (L : Library) :
    (((LMS.applySetters Book.new calls).getCategory = [] ∨
        CanonicalCategory (LMS.applySetters Book.new calls).getCategory) ∧
      ((LMS.setCategory b0 v).1 = true →
        CanonicalCategory (LMS.setCategory b0 v).2.getCategory ∧
        CanonicalCategory (LMS.applySetters (LMS.setCategory b0 v).2 calls).getCategory) ∧
      (LMS.Reachable L →
        ∀ r ∈ L.stored, r.getCategory = [] ∨ CanonicalCategory r.getCategory)) ∧
    (((LibraryManagement.applySetters Book.new calls).getCategory = [] ∨
        CanonicalCategory (LibraryManagement.applySetters Book.new calls).getCategory) ∧
      ((LibraryManagement.setCategory b0 v).1 = true →
        CanonicalCategory (LibraryManagement.setCategory b0 v).2.getCategory ∧
        CanonicalCategory
          (LibraryManagement.applySetters (LibraryManagement.setCategory b0 v).2
            calls).getCategory) ∧
      (LibraryManagement.Reachable L →
        ∀ r ∈ L.stored, r.getCategory = [] ∨ CanonicalCategory r.getCategory)) := by
  refine ⟨⟨?_, ?_, ?_⟩, ⟨?_, ?_, ?_⟩⟩
  · exact (LMS.applySetters_kept calls Book.new).2.2.2.2.2.2.2 (Or.inl rfl)
  · intro h
    have hc := LMS.setCategory_true_canonical b0 v h
    exact ⟨hc, (LMS.applySetters_kept calls _).2.2.2.2.2.2.1 hc⟩
  · intro h
    exact LMS.Reachable.stored_forall
      (fun r => r.getCategory = [] ∨ CanonicalCategory r.getCategory)
      (fun b hb _ => ⟨hb.categoryOk, hb.categoryOk⟩) h
  · exact (LibraryManagement.applySetters_keep calls Book.new).2.2.2.2.2.2.2 (Or.inl rfl)
  · intro h
    have hc := LibraryManagement.setCategory_true_exact b0 v h
    exact ⟨hc, (LibraryManagement.applySetters_keep calls _).2.2.2.2.2.2.1 hc⟩
  · intro h
    exact LibraryManagement.Reachable.stored_all
      (fun r => r.getCategory = [] ∨ CanonicalCategory r.getCategory)
      (fun b hb _ => ⟨hb.categoryFine, hb.categoryFine⟩) h

theorem C22_category_canonical_witness :
    (LMS.setCategory Book.new (some "Fiction".toList)).1 = true ∧
    (LibraryManagement.setCategory Book.new (some "Fiction".toList)).1 = true ∧
    LMS.Reachable Sample.reachAB ∧ LibraryManagement.Reachable Sample.reachAB ∧
    CanonicalCategory (LMS.applySetters (LMS.setCategory Book.new (some "Fiction".toList)).2
      Sample.setterCalls).getCategory ∧
    CanonicalCategory (LibraryManagement.applySetters
      (LibraryManagement.setCategory Book.new (some "Fiction".toList)).2
      Sample.setterCalls).getCategory ∧
    (∀ r ∈ Sample.reachAB.stored, r.getCategory = [] ∨ CanonicalCategory r.getCategory) ∧
    (LMS.applySetters (LMS.setCategory Book.new (some "Fiction".toList)).2
      Sample.setterCalls).getCategory = "Non-fiction".toList :=
  have t := C22_category_canonical Sample.setterCalls Book.new (some "Fiction".toList)
    Sample.reachAB
  ⟨by decide, by decide, Sample.reachAB_LMS, Sample.reachAB_LM,
    (t.1.2.1 (by decide)).2, (t.2.2.1 (by decide)).2, t.1.2.2 Sample.reachAB_LMS, by decide⟩

/-- C23: in both variants, once `setId`, `setIsbn`, `setTitle`, `setAuthor`, `setEdition` or
`setPublication` has returned true, the field it sets is non-empty and at most 19, 19, 99,
49, 19, 49 characters long respectively, and it stays so after any further sequence of
setter calls with arbitrary arguments. -/
theorem C23_validated_fields_bounded (b0 : Book) (v : Option CStr) (calls : List SetterCall) :
    (((LMS.setId b0 v).1 = true →
        FieldOk 19 (LMS.applySetters (LMS.setId b0 v).2 calls).getId) ∧
      ((LMS.setIsbn b0 v).1 = true →
        FieldOk 19 (LMS.applySetters (LMS.setIsbn b0 v).2 calls).getIsbn) ∧
      ((LMS.setTitle b0 v).1 = true →
        FieldOk 99 (LMS.applySetters (LMS.setTitle b0 v).2 calls).getTitle) ∧
      ((LMS.setAuthor b0 v).1 = true →
        FieldOk 49 (LMS.applySetters (LMS.setAuthor b0 v).2 calls).getAuthor) ∧
      ((LMS.setEdition b0 v).1 = true →
        FieldOk 19 (LMS.applySetters (LMS.setEdition b0 v).2 calls).getEdition) ∧
      ((LMS.setPublication b0 v).1 = true →
        FieldOk 49 (LMS.applySetters (LMS.setPublication b0 v).2 calls).getPublication)) ∧
    (((LibraryManagement.setId b0 v).1 = true →
        FieldOk 19 (LibraryManagement.applySetters (LibraryManagement.setId b0 v).2
          calls).getId) ∧
      ((LibraryManagement.setIsbn b0 v).1 = true →
        FieldOk 19 (LibraryManagement.applySetters (LibraryManagement.setIsbn b0 v).2
          calls).getIsbn) ∧
      ((LibraryManagement.setTitle b0 v).1 = true →
        FieldOk 99 (LibraryManagement.applySetters (LibraryManagement.setTitle b0 v).2
          calls).getTitle) ∧
      ((LibraryManagement.setAuthor b0 v).1 = true →
        FieldOk 49 (LibraryManagement.applySetters (LibraryManagement.setAuthor b0 v).2
          calls).getAuthor) ∧
      ((LibraryManagement.setEdition b0 v).1 = true →
        FieldOk 19 (LibraryManagement.applySetters (LibraryManagement.setEdition b0 v).2
          calls).getEdition) ∧
      ((LibraryManagement.setPublication b0 v).1 = true →
        FieldOk 49 (LibraryManagement.applySetters (LibraryManagement.setPublication b0 v).2
          calls).getPublication)) := by
  refine ⟨⟨fun h => ?_, fun h => ?_, fun h => ?_, fun h => ?_, fun h => ?_, fun h => ?_⟩,
    ⟨fun h => ?_, fun h => ?_, fun h => ?_, fun h => ?_, fun h => ?_, fun h => ?_⟩⟩
  · exact (LMS.applySetters_kept calls _).1 (LMS.setId_true_ok b0 v h)
  · exact (LMS.applySetters_kept calls _).2.1 (LMS.setIsbn_true_ok b0 v h)
  · exact (LMS.applySetters_kept calls _).2.2.1 (LMS.setTitle_true_ok b0 v h)
  · exact (LMS.applySetters_kept calls _).2.2.2.1 (LMS.setAuthor_true_ok b0 v h)
  · exact (LMS.applySetters_kept calls _).2.2.2.2.1 (LMS.setEdition_true_ok b0 v h)
  · exact (LMS.applySetters_kept calls _).2.2.2.2.2.1 (LMS.setPublication_true_ok b0 v h)
  · exact (LibraryManagement.applySetters_keep calls _).1
      (LibraryManagement.setId_true_fine b0 v h)
  · exact (LibraryManagement.applySetters_keep calls _).2.1
      (LibraryManagement.setIsbn_true_fine b0 v h)
  · exact (LibraryManagement.applySetters_keep calls _).2.2.1
      (LibraryManagement.setTitle_true_fine b0 v h)
  · exact (LibraryManagement.applySetters_keep calls _).2.2.2.1
      (LibraryManagement.setAuthor_true_fine b0 v h)
  · exact (LibraryManagement.applySetters_keep calls _).2.2.2.2.1
      (LibraryManagement.setEdition_true_fine b0 v h)
  · exact (LibraryManagement.applySetters_keep calls _).2.2.2.2.2.1
      (LibraryManagement.setPublication_true_fine b0 v h)

theorem C23_validated_fields_bounded_witness :
    ((LMS.setId Book.new (some "A1".toList)).1 = true ∧
      (LMS.setIsbn Book.new (some "A1".toList)).1 = true ∧
      (LMS.setTitle Book.new (some "A1".toList)).1 = true ∧
      (LMS.setAuthor Book.new (some "A1".toList)).1 = true ∧
      (LMS.setEdition Book.new (some "A1".toList)).1 = true ∧
      (LMS.setPublication Book.new (some "A1".toList)).1 = true ∧
      (LibraryManagement.setId Book.new (some "A1".toList)).1 = true ∧
      (LibraryManagement.setIsbn Book.new (some "A1".toList)).1 = true ∧
      (LibraryManagement.setTitle Book.new (some "A1".toList)).1 = true ∧
      (LibraryManagement.setAuthor Book.new (some "A1".toList)).1 = true ∧
      (LibraryManagement.setEdition Book.new (some "A1".toList)).1 = true ∧
      (LibraryManagement.setPublication Book.new (some "A1".toList)).1 = true) ∧
    (FieldOk 19 (LMS.applySetters (LMS.setId Book.new (some "A1".toList)).2
        Sample.setterCalls).getId ∧
      FieldOk 19 (LMS.applySetters (LMS.setIsbn Book.new (some "A1".toList)).2
        Sample.setterCalls).getIsbn ∧
      FieldOk 99 (LMS.applySetters (LMS.setTitle Book.new (some "A1".toList)).2
        Sample.setterCalls).getTitle ∧
      FieldOk 49 (LMS.applySetters (LMS.setAuthor Book.new (some "A1".toList)).2
        Sample.setterCalls).getAuthor ∧
      FieldOk 19 (LMS.applySetters (LMS.setEdition Book.new (some "A1".toList)).2
        Sample.setterCalls).getEdition ∧
      FieldOk 49 (LMS.applySetters (LMS.setPublication Book.new (some "A1".toList)).2
        Sample.setterCalls).getPublication) ∧
    (FieldOk 19 (LibraryManagement.applySetters
        (LibraryManagement.setId Book.new (some "A1".toList)).2 Sample.setterCalls).getId ∧
      FieldOk 19 (LibraryManagement.applySetters
        (LibraryManagement.setIsbn Book.new (some "A1".toList)).2
        Sample.setterCalls).getIsbn ∧
      FieldOk 99 (LibraryManagement.applySetters
        (LibraryManagement.setTitle Book.new (some "A1".toList)).2
        Sample.setterCalls).getTitle ∧
      FieldOk 49 (LibraryManagement.applySetters
        (LibraryManagement.setAuthor Book.new (some "A1".toList)).2
        Sample.setterCalls).getAuthor ∧
      FieldOk 19 (LibraryManagement.applySetters
        (LibraryManagement.setEdition Book.new (some "A1".toList)).2
        Sample.setterCalls).getEdition ∧
      FieldOk 49 (LibraryManagement.applySetters
        (LibraryManagement.setPublication Book.new (some "A1".toList)).2
        Sample.setterCalls).getPublication) :=
  have t := C23_validated_fields_bounded Book.new (some "A1".toList) Sample.setterCalls
  ⟨⟨by decide, by decide, by decide, by decide, by decide, by decide, by decide, by decide,
      by decide, by decide, by decide, by decide⟩,
    ⟨t.1.1 (by decide), t.1.2.1 (by decide), t.1.2.2.1 (by decide), t.1.2.2.2.1 (by decide),
      t.1.2.2.2.2.1 (by decide), t.1.2.2.2.2.2 (by decide)⟩,
    ⟨t.2.1 (by decide), t.2.2.1 (by decide), t.2.2.2.1 (by decide), t.2.2.2.2.1 (by decide),
      t.2.2.2.2.2.1 (by decide), t.2.2.2.2.2.2 (by decide)⟩⟩

/-! ### The empty id -/

theorem LMS.findBookById_nil {L : Library} (h : L.IdsOk) : LMS.findBookById L [] = -1 := by
  apply LMS.findBookById_not_mem h.1
  intro hm
  exact (h.2.1 [] hm).1 rfl

/-- C24: in both variants, on a reachable catalog, the empty id is never found:
`findBookById("")` returns -1, `getBookById("")`, `deleteBook("")` and `editBook("", p)`
return false, and the `Library` object (and the out-parameter of `getBookById`) is left as
it was. -/
theorem C24_empty_id_not_found (L : Library) (p bookOut : Book) :
    (LMS.Reachable L →
      LMS.findBookById L [] = -1 ∧
      LMS.getBookById L [] bookOut = (false, bookOut) ∧
      LMS.deleteBook L [] = (false, L) ∧
      LMS.editBook L [] p = (false, L)) ∧
    (LibraryManagement.Reachable L →
      LibraryManagement.findBookById L (some []) = -1 ∧
      LibraryManagement.getBookById L (some []) bookOut = (false, bookOut) ∧
      LibraryManagement.deleteBook L (some []) = (false, L) ∧
      LibraryManagement.editBook L (some []) p = (false, L)) := by
  constructor
  · intro h
    have hf := LMS.findBookById_nil h.idsOk
    exact ⟨hf, LMS.getBookById_of_not_found bookOut hf, LMS.deleteBook_of_not_found hf,
      LMS.editBook_of_not_found p hf⟩
  · intro _
    have hf := LibraryManagement.findBookById_empty L
    exact ⟨hf, LibraryManagement.getBookById_absent bookOut hf,
      LibraryManagement.deleteBook_absent hf, LibraryManagement.editBook_absent p hf⟩

theorem C24_empty_id_not_found_witness :
    LMS.Reachable Sample.reachAB ∧ LibraryManagement.Reachable Sample.reachAB ∧
    (LMS.findBookById Sample.reachAB [] = -1 ∧
      LMS.getBookById Sample.reachAB [] Sample.payload = (false, Sample.payload) ∧
      LMS.deleteBook Sample.reachAB [] = (false, Sample.reachAB) ∧
      LMS.editBook Sample.reachAB [] Sample.payload = (false, Sample.reachAB)) ∧
    (LibraryManagement.findBookById Sample.reachAB (some []) = -1 ∧
      LibraryManagement.getBookById Sample.reachAB (some []) Sample.payload =
        (false, Sample.payload) ∧
      LibraryManagement.deleteBook Sample.reachAB (some []) = (false, Sample.reachAB) ∧
      LibraryManagement.editBook Sample.reachAB (some []) Sample.payload =
        (false, Sample.reachAB)) :=
  ⟨Sample.reachAB_LMS, Sample.reachAB_LM,
    (C24_empty_id_not_found Sample.reachAB Sample.payload Sample.payload).1
      Sample.reachAB_LMS,
    (C24_empty_id_not_found Sample.reachAB Sample.payload Sample.payload).2
      Sample.reachAB_LM⟩

/-! ### Null arguments in LMS.cpp -/

theorem LMS.findLoopPtr_some (books : List Book) (count : Int) (id : CStr) :
    ∀ fuel i : Nat,
      LMS.findLoopPtr books count (some id) fuel i = some (findLoop books count id fuel i) := by
  intro fuel
  induction fuel with
  | zero => intro i; rfl
  | succ fuel ih =>
    intro i
    unfold LMS.findLoopPtr findLoop
    by_cases hi : (i : Int) < count
    · simp only [if_pos hi, strcmpPtr]
      by_cases e : strcmp (books.getD i default).getId id = 0
      · simp only [if_pos e]
      · simp only [if_neg e]
        exact ih (i + 1)
    · simp only [if_neg hi]

theorem LMS.dupLoopPtr_some (books : List Book) (count : Int) (id : CStr) :
    ∀ fuel i : Nat,
      LMS.dupLoopPtr books count (some id) fuel i = some (dupLoop books count id fuel i) := by
  intro fuel
  induction fuel with
  | zero => intro i; rfl
  | succ fuel ih =>
    intro i
    unfold LMS.dupLoopPtr dupLoop
    by_cases hi : (i : Int) < count
    · simp only [if_pos hi, strcmpPtr]
      by_cases e : strcmp (books.getD i default).getId id = 0
      · simp only [if_pos e]
      · simp only [if_neg e]
        exact ih (i + 1)
    · simp only [if_neg hi]

theorem LMS.ptr_agrees (L : Library) (id : CStr) (p bookOut : Book) :
    LMS.findBookByIdPtr L (some id) = some (LMS.findBookById L id) ∧
    LMS.isIdDuplicatePtr L (some id) = some (LMS.isIdDuplicate L id) ∧
    LMS.editBookPtr L (some id) p = some (LMS.editBook L id p) ∧
    LMS.deleteBookPtr L (some id) = some (LMS.deleteBook L id) ∧
    LMS.getBookByIdPtr L (some id) bookOut = some (LMS.getBookById L id bookOut) ∧
    LMS.displayBooksByCategoryPtr L (some id) = some (LMS.displayBooksByCategory L id) := by
  have hf : LMS.findBookByIdPtr L (some id) = some (LMS.findBookById L id) :=
    LMS.findLoopPtr_some L.books L.count id L.count.toNat 0
  refine ⟨hf, LMS.dupLoopPtr_some L.books L.count id L.count.toNat 0, ?_, ?_, ?_, ?_⟩
  · simp only [LMS.editBookPtr, hf, LMS.editBook]
    split <;> rfl
  · simp only [LMS.deleteBookPtr, hf, LMS.deleteBook]
    split <;> rfl
  · simp only [LMS.getBookByIdPtr, hf, LMS.getBookById]
    split <;> rfl
  · simp only [LMS.displayBooksByCategoryPtr, strncpyPtr, LMS.displayBooksByCategory]
    split
    · rfl
    · split <;> rfl

theorem LMS.findLoopPtr_null (books : List Book) (count : Int) (fuel : Nat)
    (h : 0 < count) : LMS.findLoopPtr books count none (fuel + 1) 0 = none := by
  unfold LMS.findLoopPtr
  rw [if_pos (by simpa using h)]
  rfl

theorem LMS.dupLoopPtr_null (books : List Book) (count : Int) (fuel : Nat)
    (h : 0 < count) : LMS.dupLoopPtr books count none (fuel + 1) 0 = none := by
  unfold LMS.dupLoopPtr
  rw [if_pos (by simpa using h)]
  rfl

/-- C25 is violated by LMS.cpp: on every catalog that holds at least one record,
`isIdDuplicate`, `findBookById`, `editBook`, `deleteBook` and `getBookById` called with the
null pointer reach `strcmp` with it in the first iteration of the scan, and
`displayBooksByCategory` called with the null pointer reaches `strncpy` with it on every
catalog, the empty one included; only on an empty catalog do the five id operations return
not found.  With a present argument the same definitions agree with the ordinary ones. -/
theorem C25_null_argument_reaches_strcmp (L : Library) (p bookOut : Book) (h : 0 < L.count) :
    LMS.isIdDuplicatePtr L none = none ∧
    LMS.findBookByIdPtr L none = none ∧
    LMS.editBookPtr L none p = none ∧
    LMS.deleteBookPtr L none = none ∧
    LMS.getBookByIdPtr L none bookOut = none ∧
    LMS.displayBooksByCategoryPtr L none = none ∧
    (∀ n : Int, LMS.displayBooksByCategoryPtr (Library.construct n) none = none) ∧
    (∀ n : Int, LMS.findBookByIdPtr (Library.construct n) none = some (-1) ∧
      LMS.isIdDuplicatePtr (Library.construct n) none = some false) ∧
    (∀ id : CStr, LMS.findBookByIdPtr L (some id) = some (LMS.findBookById L id) ∧
      LMS.isIdDuplicatePtr L (some id) = some (LMS.isIdDuplicate L id) ∧
      LMS.editBookPtr L (some id) p = some (LMS.editBook L id p) ∧
      LMS.deleteBookPtr L (some id) = some (LMS.deleteBook L id) ∧
      LMS.getBookByIdPtr L (some id) bookOut = some (LMS.getBookById L id bookOut) ∧
      LMS.displayBooksByCategoryPtr L (some id) = some (LMS.displayBooksByCategory L id)) := by
  obtain ⟨m, hm⟩ : ∃ m : Nat, L.count.toNat = m + 1 := ⟨L.count.toNat - 1, by omega⟩
  have hf : LMS.findBookByIdPtr L none = none := by
    unfold LMS.findBookByIdPtr
    rw [hm]
    exact LMS.findLoopPtr_null L.books L.count m h
  have hd : LMS.isIdDuplicatePtr L none = none := by
    unfold LMS.isIdDuplicatePtr
    rw [hm]
    exact LMS.dupLoopPtr_null L.books L.count m h
  refine ⟨hd, hf, ?_, ?_, ?_, rfl, fun _ => rfl, fun n => ⟨rfl, rfl⟩,
    fun id => LMS.ptr_agrees L id p bookOut⟩
  · simp only [LMS.editBookPtr, hf]
  · simp only [LMS.deleteBookPtr, hf]
  · simp only [LMS.getBookByIdPtr, hf]

theorem C25_null_argument_reaches_strcmp_witness :
    0 < Sample.reachAB.count ∧ LMS.Reachable Sample.reachAB ∧
    LMS.isIdDuplicatePtr Sample.reachAB none = none ∧
    LMS.findBookByIdPtr Sample.reachAB none = none ∧
    LMS.editBookPtr Sample.reachAB none Sample.payload = none ∧
    LMS.deleteBookPtr Sample.reachAB none = none ∧
    LMS.getBookByIdPtr Sample.reachAB none Book.new = none ∧
    LMS.displayBooksByCategoryPtr Sample.reachAB none = none :=
  have t := C25_null_argument_reaches_strcmp Sample.reachAB Sample.payload Book.new (by decide)
  ⟨by decide, Sample.reachAB_LMS, t.1, t.2.1, t.2.2.1, t.2.2.2.1, t.2.2.2.2.1, t.2.2.2.2.2.1⟩

/-! ### The two variants side by side -/

theorem LMS.isIdDuplicate_nil {L : Library} (h : L.IdsOk) : LMS.isIdDuplicate L [] = false := by
  cases hv : LMS.isIdDuplicate L [] with
  | false => rfl
  | true => exact absurd (LMS.findBookById_nil h) ((LMS.isIdDuplicate_iff_find L []).1 hv)

theorem exec_agree {L : Library} (h : L.IdsOk) (c : Call) (hc : c.addsFresh) :
    LMS.exec L c = LibraryManagement.exec L c ∧ (LMS.exec L c).2.IdsOk := by
  cases c with
  | addBook b =>
    refine ⟨?_, LMS.addBook_IdsOk h b hc⟩
    simp only [LMS.exec, LibraryManagement.exec, LibraryManagement.addBook_eq]
  | editBook id p =>
    refine ⟨?_, LMS.editBook_IdsOk h id p⟩
    by_cases hid : id = []
    · subst hid
      simp only [LMS.exec, LibraryManagement.exec,
        LMS.editBook_of_not_found p (LMS.findBookById_nil h),
        LibraryManagement.editBook_absent p (LibraryManagement.findBookById_empty L)]
    · simp only [LMS.exec, LibraryManagement.exec, LibraryManagement.editBook_some L hid]
  | deleteBook id =>
    refine ⟨?_, LMS.deleteBook_IdsOk h id⟩
    by_cases hid : id = []
    · subst hid
      simp only [LMS.exec, LibraryManagement.exec,
        LMS.deleteBook_of_not_found (LMS.findBookById_nil h),
        LibraryManagement.deleteBook_absent (LibraryManagement.findBookById_empty L)]
    · simp only [LMS.exec, LibraryManagement.exec, LibraryManagement.deleteBook_some L hid]
  | getBookById id bookOut =>
    refine ⟨?_, h⟩
    by_cases hid : id = []
    · subst hid
      simp only [LMS.exec, LibraryManagement.exec,
        LMS.getBookById_of_not_found bookOut (LMS.findBookById_nil h),
        LibraryManagement.getBookById_absent bookOut (LibraryManagement.findBookById_empty L)]
    · simp only [LMS.exec, LibraryManagement.exec,
        LibraryManagement.getBookById_some L hid]
  | findBookById id =>
    refine ⟨?_, h⟩
    by_cases hid : id = []
    · subst hid
      simp only [LMS.exec, LibraryManagement.exec, LMS.findBookById_nil h,
        LibraryManagement.findBookById_empty L]
    · simp only [LMS.exec, LibraryManagement.exec, LibraryManagement.findBookById_some L hid]
  | isIdDuplicate id =>
    refine ⟨?_, h⟩
    by_cases hid : id = []
    · subst hid
      have e : LibraryManagement.isIdDuplicate L (some []) = false := by
        simp [LibraryManagement.isIdDuplicate, strlen]
      simp only [LMS.exec, LibraryManagement.exec, LMS.isIdDuplicate_nil h, e]
    · simp only [LMS.exec, LibraryManagement.exec, LibraryManagement.isIdDuplicate_some L hid]
  | getCount => exact ⟨rfl, h⟩

theorem trace_agree (calls : List Call) :
    ∀ L : Library, L.IdsOk → (∀ c ∈ calls, c.addsFresh) →
      LMS.trace L calls = LibraryManagement.trace L calls := by
  induction calls with
  | nil => intro L _ _; rfl
  | cons c cs ih =>
    intro L h hall
    obtain ⟨e1, e2⟩ := exec_agree h c (hall c (List.mem_cons_self _ _))
    have e3 := ih (LMS.exec L c).2 e2 (fun x hx => hall x (List.mem_cons_of_mem _ hx))
    simp only [LMS.trace, LibraryManagement.trace]
    rw [e3, e1]

/-- C26: starting from `Library(n)` with the same `n`, for every sequence of `addBook`,
`editBook`, `deleteBook`, `getBookById`, `findBookById`, `isIdDuplicate` and `getCount` calls
with present ids and the same arguments in both runs, where the Books handed to `addBook`
have an id that is empty or alphanumeric of at most 19 characters, the `Library` of LMS.cpp
and the `Library` of library_management.cpp return the same result at every step and hold
the same records (indeed are the same object) afterwards; this includes calls with the
empty id. -/
theorem C26_variants_equivalent (n : Int) (calls : List Call)
    (h : ∀ c ∈ calls, c.addsFresh) :
    (LMS.trace (Library.construct n) calls).1 =
      (LibraryManagement.trace (Library.construct n) calls).1 ∧
    (LMS.trace (Library.construct n) calls).2.stored =
      (LibraryManagement.trace (Library.construct n) calls).2.stored ∧
    (LMS.trace (Library.construct n) calls).2 =
      (LibraryManagement.trace (Library.construct n) calls).2 := by
  rw [trace_agree calls _ (Library.construct_IdsOk n) h]
  exact ⟨rfl, rfl, rfl⟩

theorem Sample.callSequence_fresh : ∀ c ∈ Sample.callSequence, c.addsFresh := by
  intro c hc
  simp only [Sample.callSequence, List.mem_cons, List.mem_singleton, List.not_mem_nil,
    or_false] at hc
  rcases hc with h | h | h | h | h | h | h | h | h | h | h | h | h | h | h | h <;> subst h
  all_goals first
    | exact trivial
    | exact Or.inl rfl
    | exact Or.inr ⟨by decide, by decide, by decide⟩

theorem C26_variants_equivalent_witness :
    (∀ c ∈ Sample.callSequence, c.addsFresh) ∧
    (LMS.trace (Library.construct 2) Sample.callSequence).1 =
      (LibraryManagement.trace (Library.construct 2) Sample.callSequence).1 ∧
    (LMS.trace (Library.construct 2) Sample.callSequence).2 =
      (LibraryManagement.trace (Library.construct 2) Sample.callSequence).2 ∧
    (LMS.trace (Library.construct 2) Sample.callSequence).1 =
      [Ret.flag true, Ret.flag false, Ret.flag false, Ret.number (-1), Ret.flag false,
        Ret.flag true, Ret.number 2, Ret.flag false, Ret.flag true,
        Ret.found true { Sample.scPayload with id := "B2".toList },
        Ret.found false Sample.scC3, Ret.flag false, Ret.flag true, Ret.flag true,
        Ret.number 0, Ret.flag true] :=
  have t := C26_variants_equivalent 2 Sample.callSequence Sample.callSequence_fresh
  ⟨Sample.callSequence_fresh, t.1, t.2.2, by decide⟩

/-! ### Create then delete -/

theorem eraseIdx_append_singleton (l : List Book) (b : Book) :
    (l ++ [b]).eraseIdx l.length = l := by
  rw [List.eraseIdx_eq_take_drop_succ]
  simp

theorem LMS.find_after_add {L : Library} (h : L.WF) (b : Book)
    (ht : (LMS.addBook L b).1 = true) :
    LMS.findBookById (LMS.addBook L b).2 b.getId = (L.stored.length : Int) ∧
    L.stored.length < (LMS.addBook L b).2.count.toNat := by
  obtain ⟨e1, e2, _, e4⟩ := LMS.addBook_stored h b ht
  obtain ⟨_, _, hnew⟩ := (LMS.addBook_fst_iff h b).1 ht
  obtain ⟨n, hn, hl, hnat⟩ := h.count_nat
  have hlen : L.stored.length = n := by
    simp [Library.stored, hnat, hl]
  have hidx : (LMS.addBook L b).2.ids[L.stored.length]? = some b.getId := by
    rw [Library.ids_getElem?, e1, List.getElem?_append_right (le_refl _)]
    simp
  have hfirst : ∀ j : Nat, j < L.stored.length →
      (LMS.addBook L b).2.ids[j]? ≠ some b.getId := by
    intro j hj hh
    rw [Library.ids_getElem?, e1, List.getElem?_append_left hj] at hh
    cases hq : L.stored[j]? with
    | none => rw [hq] at hh; cases hh
    | some q =>
      rw [hq] at hh
      simp only [Option.map_some', Option.some.injEq] at hh
      exact hnew q (List.getElem?_mem hq) hh
  refine ⟨LMS.findBookById_of_first e4 hidx hfirst, ?_⟩
  rw [e2, hlen]
  omega

theorem LMS.add_then_delete {L : Library} (h : L.WF) (b : Book)
    (ht : (LMS.addBook L b).1 = true) :
    (LMS.deleteBook (LMS.addBook L b).2 b.getId).1 = true ∧
    (LMS.deleteBook (LMS.addBook L b).2 b.getId).2.stored = L.stored ∧
    (LMS.deleteBook (LMS.addBook L b).2 b.getId).2.getCount = L.getCount ∧
    (LMS.deleteBook (LMS.addBook L b).2 b.getId).2.capacity = L.capacity := by
  obtain ⟨e1, e2, e3, e4⟩ := LMS.addBook_stored h b ht
  obtain ⟨hf, hk⟩ := LMS.find_after_add h b ht
  obtain ⟨d1, d2, d3, d4, _⟩ := LMS.deleteBook_of_find e4 hf hk
  refine ⟨d1, ?_, ?_, ?_⟩
  · rw [d2, e1, eraseIdx_append_singleton]
  · show (LMS.deleteBook (LMS.addBook L b).2 b.getId).2.count = L.count
    rw [d3, e2]
    omega
  · rw [d4, e3]

theorem LMS.delete_then_add {L : Library} (h : L.IdsOk) (id : CStr) (b : Book)
    (ht : (LMS.deleteBook L id).1 = true) (hb : b.getId = id) :
    (LMS.addBook (LMS.deleteBook L id).2 b).1 = true := by
  obtain ⟨k, _, _, g3, _, _, g6, _, _, g9, g10⟩ := LMS.deleteBook_spec h.1 ht
  have hmem : id ∈ L.ids := List.getElem?_mem g3
  have hnot : id ∉ (LMS.deleteBook L id).2.ids := by
    rw [g6]
    exact nodup_not_mem_eraseIdx h.2.2 g3
  rw [LMS.addBook_fst_iff g10]
  obtain ⟨_, h1, _⟩ := h.1
  refine ⟨?_, ?_, ?_⟩
  · have hc : (LMS.deleteBook L id).2.count = L.count - 1 := g9
    have hcap : (LMS.deleteBook L id).2.capacity = L.capacity := by
      rcases LMS.findBookById_cases h.1 id with ⟨f1, _⟩ | ⟨k2, r, f1, f2, _, _, _, _⟩
      · rw [LMS.deleteBook_of_not_found f1]
      · exact (LMS.deleteBook_of_find h.1 f1 f2).2.2.2.1
    rw [hc, hcap]
    omega
  · show b.getId ≠ []
    rw [hb]
    exact (h.2.1 id hmem).1
  · intro r hr hrid
    apply hnot
    rw [Library.mem_ids_iff]
    exact ⟨r, hr, by rw [hrid]; exact hb⟩

/-- C27: in both variants, for every catalog and every Book `b`, if `addBook(b)` returns
true then `deleteBook(b.getId())` right afterwards returns true and the catalog has the
count and the stored records, in the same order, that it had before the `addBook`; and on a
reachable catalog, after a successful `deleteBook(id)`, `addBook` of a Book with that id
returns true. -/
theorem C27_add_delete_round_trip (L : Library) (b c : Book) (id : CStr) (h : L.WF) :
    ((LMS.addBook L b).1 = true →
      (LMS.deleteBook (LMS.addBook L b).2 b.getId).1 = true ∧
      (LMS.deleteBook (LMS.addBook L b).2 b.getId).2.stored = L.stored ∧
      (LMS.deleteBook (LMS.addBook L b).2 b.getId).2.getCount = L.getCount ∧
      (LMS.deleteBook (LMS.addBook L b).2 b.getId).2.capacity = L.capacity) ∧
    (LMS.Reachable L → (LMS.deleteBook L id).1 = true → c.getId = id →
      (LMS.addBook (LMS.deleteBook L id).2 c).1 = true) ∧
    ((LibraryManagement.addBook L b).1 = true →
      (LibraryManagement.deleteBook (LibraryManagement.addBook L b).2 (some b.getId)).1 =
        true ∧
      (LibraryManagement.deleteBook (LibraryManagement.addBook L b).2
        (some b.getId)).2.stored = L.stored ∧
      (LibraryManagement.deleteBook (LibraryManagement.addBook L b).2
        (some b.getId)).2.getCount = L.getCount ∧
      (LibraryManagement.deleteBook (LibraryManagement.addBook L b).2
        (some b.getId)).2.capacity = L.capacity) ∧
    (LibraryManagement.Reachable L → (LibraryManagement.deleteBook L (some id)).1 = true →
      c.getId = id →
      (LibraryManagement.addBook (LibraryManagement.deleteBook L (some id)).2 c).1 = true) := by
  refine ⟨LMS.add_then_delete h b, fun hr ht hc => LMS.delete_then_add hr.idsOk id c ht hc,
    ?_, ?_⟩
  · intro ht
    rw [LibraryManagement.addBook_eq] at ht ⊢
    have hne : b.getId ≠ [] := ((LMS.addBook_fst_iff h b).1 ht).2.1
    rw [LibraryManagement.deleteBook_some _ hne]
    exact LMS.add_then_delete h b ht
  · intro hr ht hc
    have hne : id ≠ [] := by
      intro hh
      subst hh
      rw [LibraryManagement.deleteBook_absent (LibraryManagement.findBookById_empty L)] at ht
      cases ht
    rw [LibraryManagement.deleteBook_some L hne] at ht ⊢
    rw [LibraryManagement.addBook_eq]
    exact LMS.delete_then_add hr.ids_ok id c ht hc

theorem C27_add_delete_round_trip_witness :
    Sample.reachAB.WF ∧ LMS.Reachable Sample.reachAB ∧
    LibraryManagement.Reachable Sample.reachAB ∧
    (LMS.addBook Sample.reachAB Sample.payload).1 = true ∧
    (LibraryManagement.addBook Sample.reachAB Sample.payload).1 = true ∧
    (LMS.deleteBook Sample.reachAB ['A']).1 = true ∧
    (LibraryManagement.deleteBook Sample.reachAB (some ['A'])).1 = true ∧
    Sample.bookA.getId = ['A'] ∧
    ((LMS.deleteBook (LMS.addBook Sample.reachAB Sample.payload).2
        Sample.payload.getId).1 = true ∧
      (LMS.deleteBook (LMS.addBook Sample.reachAB Sample.payload).2
        Sample.payload.getId).2.stored = Sample.reachAB.stored ∧
      (LMS.deleteBook (LMS.addBook Sample.reachAB Sample.payload).2
        Sample.payload.getId).2.getCount = Sample.reachAB.getCount ∧
      (LMS.deleteBook (LMS.addBook Sample.reachAB Sample.payload).2
        Sample.payload.getId).2.capacity = Sample.reachAB.capacity) ∧
    (LMS.addBook (LMS.deleteBook Sample.reachAB ['A']).2 Sample.bookA).1 = true ∧
    (LibraryManagement.deleteBook (LibraryManagement.addBook Sample.reachAB Sample.payload).2
      (some Sample.payload.getId)).2.stored = Sample.reachAB.stored ∧
    (LibraryManagement.addBook (LibraryManagement.deleteBook Sample.reachAB (some ['A'])).2
      Sample.bookA).1 = true :=
  have t := C27_add_delete_round_trip Sample.reachAB Sample.payload Sample.bookA ['A']
    (by decide)
  ⟨by decide, Sample.reachAB_LMS, Sample.reachAB_LM, by decide, by decide, by decide,
    by decide, by decide, t.1 (by decide), t.2.1 Sample.reachAB_LMS (by decide) (by decide),
    (t.2.2.1 (by decide)).2.1, t.2.2.2 Sample.reachAB_LM (by decide) (by decide)⟩

/-! ### `addBook` looks at the id only -/

theorem LMS.addBook_fst_congr (L : Library) {b1 b2 : Book} (h : b1.getId = b2.getId) :
    (LMS.addBook L b1).1 = (LMS.addBook L b2).1 := by
  simp only [LMS.addBook, h]
  split
  · rfl
  · split <;> rfl

/-- C28: in both variants the result of `addBook` depends only on the id of the Book and on
the catalog: two Books with equal ids get the same result whatever their other fields are.
In particular a Book on which only `setId` succeeded is accepted when there is room and the
id is new, and the stored record then has empty isbn, title, author, edition and
publication and a category that is neither canonical value. -/
theorem C28_addBook_decides_on_id (L : Library) (b1 b2 : Book) (v : CStr) :
    (b1.getId = b2.getId →
      (LMS.addBook L b1).1 = (LMS.addBook L b2).1 ∧
      (LibraryManagement.addBook L b1).1 = (LibraryManagement.addBook L b2).1) ∧
    (L.WF → L.count < L.capacity → (LMS.setId Book.new (some v)).1 = true →
      (∀ r ∈ L.stored, r.getId ≠ (LMS.setId Book.new (some v)).2.getId) →
      (LMS.addBook L (LMS.setId Book.new (some v)).2).1 = true ∧
      (LMS.setId Book.new (some v)).2 ∈
        (LMS.addBook L (LMS.setId Book.new (some v)).2).2.stored ∧
      (LMS.setId Book.new (some v)).2.getIsbn = [] ∧
      (LMS.setId Book.new (some v)).2.getTitle = [] ∧
      (LMS.setId Book.new (some v)).2.getAuthor = [] ∧
      (LMS.setId Book.new (some v)).2.getEdition = [] ∧
      (LMS.setId Book.new (some v)).2.getPublication = [] ∧
      (LMS.setId Book.new (some v)).2.getCategory = [] ∧
      ¬ CanonicalCategory (LMS.setId Book.new (some v)).2.getCategory) ∧
    (L.WF → L.count < L.capacity → (LibraryManagement.setId Book.new (some v)).1 = true →
      (∀ r ∈ L.stored, r.getId ≠ (LibraryManagement.setId Book.new (some v)).2.getId) →
      (LibraryManagement.addBook L (LibraryManagement.setId Book.new (some v)).2).1 = true ∧
      (LibraryManagement.setId Book.new (some v)).2 ∈
        (LibraryManagement.addBook L
          (LibraryManagement.setId Book.new (some v)).2).2.stored ∧
      (LibraryManagement.setId Book.new (some v)).2.getIsbn = [] ∧
      (LibraryManagement.setId Book.new (some v)).2.getTitle = [] ∧
      (LibraryManagement.setId Book.new (some v)).2.getAuthor = [] ∧
      (LibraryManagement.setId Book.new (some v)).2.getEdition = [] ∧
      (LibraryManagement.setId Book.new (some v)).2.getPublication = [] ∧
      (LibraryManagement.setId Book.new (some v)).2.getCategory = [] ∧
      ¬ CanonicalCategory (LibraryManagement.setId Book.new (some v)).2.getCategory) := by
  have hnc : ¬ CanonicalCategory ([] : CStr) := by decide
  have hadd : ∀ b : Book, L.WF → L.count < L.capacity → FieldOk 19 b.getId →
      (∀ r ∈ L.stored, r.getId ≠ b.getId) →
      (LMS.addBook L b).1 = true ∧ b ∈ (LMS.addBook L b).2.stored := by
    intro b hw hc hb hnew
    have ht : (LMS.addBook L b).1 = true := (LMS.addBook_fst_iff hw b).2 ⟨hc, hb.1, hnew⟩
    refine ⟨ht, ?_⟩
    rw [(LMS.addBook_stored hw b ht).1]
    simp
  refine ⟨fun h => ⟨LMS.addBook_fst_congr L h, ?_⟩, ?_, ?_⟩
  · rw [LibraryManagement.addBook_eq, LibraryManagement.addBook_eq]
    exact LMS.addBook_fst_congr L h
  · intro hw hc hs hnew
    have hok := LMS.setId_true_ok Book.new (some v) hs
    obtain ⟨a1, a2⟩ := hadd _ hw hc hok hnew
    have hrest : (LMS.setId Book.new (some v)).2 =
        { Book.new with id := (LMS.setId Book.new (some v)).2.id } := by
      rw [LMS.setId_some]
      split <;> rfl
    refine ⟨a1, a2, ?_, ?_, ?_, ?_, ?_, ?_, ?_⟩ <;> rw [hrest] <;> first | rfl | exact hnc
  · intro hw hc hs hnew
    have hok := LibraryManagement.setId_true_fine Book.new (some v) hs
    rw [LibraryManagement.addBook_eq]
    obtain ⟨a1, a2⟩ := hadd _ hw hc hok hnew
    have hrest : (LibraryManagement.setId Book.new (some v)).2 =
        { Book.new with id := (LibraryManagement.setId Book.new (some v)).2.id } := by
      obtain ⟨_, h2, _⟩ := LibraryManagement.setId_spec Book.new v
      rw [h2]
      split <;> rfl
    refine ⟨a1, a2, ?_, ?_, ?_, ?_, ?_, ?_, ?_⟩ <;> rw [hrest] <;> first | rfl | exact hnc

theorem C28_addBook_decides_on_id_witness :
    (Sample.payload.getId = Sample.payloadTwin.getId ∧ Sample.reachAB.WF ∧
      Sample.reachAB.count < Sample.reachAB.capacity ∧
      (LMS.setId Book.new (some "Q7".toList)).1 = true ∧
      (LibraryManagement.setId Book.new (some "Q7".toList)).1 = true ∧
      (∀ r ∈ Sample.reachAB.stored,
        r.getId ≠ (LMS.setId Book.new (some "Q7".toList)).2.getId) ∧
      (∀ r ∈ Sample.reachAB.stored,
        r.getId ≠ (LibraryManagement.setId Book.new (some "Q7".toList)).2.getId)) ∧
    ((LMS.addBook Sample.reachAB Sample.payload).1 =
        (LMS.addBook Sample.reachAB Sample.payloadTwin).1 ∧
      (LibraryManagement.addBook Sample.reachAB Sample.payload).1 =
        (LibraryManagement.addBook Sample.reachAB Sample.payloadTwin).1) ∧
    (LMS.addBook Sample.reachAB (LMS.setId Book.new (some "Q7".toList)).2).1 = true ∧
    (LibraryManagement.addBook Sample.reachAB
      (LibraryManagement.setId Book.new (some "Q7".toList)).2).1 = true ∧
    (LMS.addBook Sample.reachAB (LMS.setId Book.new (some "Q7".toList)).2).2.stored =
      [Sample.builtA, Sample.builtB, { Book.new with id := "Q7".toList }] :=
  have t := C28_addBook_decides_on_id Sample.reachAB Sample.payload Sample.payloadTwin
    "Q7".toList
  ⟨⟨by decide, by decide, by decide, by decide, by decide, by decide, by decide⟩,
    t.1 (by decide),
    (t.2.1 (by decide) (by decide) (by decide) (by decide)).1,
    (t.2.2 (by decide) (by decide) (by decide) (by decide)).1,
    by decide⟩

/-! ### Lookup and the duplicate predicate -/

theorem LMS.getBookById_fst_iff (L : Library) (id : CStr) (bookOut : Book) :
    LMS.findBookById L id ≠ -1 ↔ (LMS.getBookById L id bookOut).1 = true := by
  unfold LMS.getBookById
  by_cases h : LMS.findBookById L id = -1
  · simp [h]
  · simp [h]

/-- C30: in both variants, for every catalog and every id (in library_management.cpp also
for the null pointer), `isIdDuplicate(id)` is true if and only if `findBookById(id)` is not
-1, if and only if `getBookById(id)` returns true. -/
theorem C30_duplicate_lookup_agree (L : Library) (id : CStr) (oid : Option CStr)
    (bookOut : Book) :
    ((LMS.isIdDuplicate L id = true ↔ LMS.findBookById L id ≠ -1) ∧
      (LMS.findBookById L id ≠ -1 ↔ (LMS.getBookById L id bookOut).1 = true)) ∧
    ((LibraryManagement.isIdDuplicate L oid = true ↔
        LibraryManagement.findBookById L oid ≠ -1) ∧
      (LibraryManagement.findBookById L oid ≠ -1 ↔
        (LibraryManagement.getBookById L oid bookOut).1 = true)) := by
  refine ⟨⟨LMS.isIdDuplicate_iff_find L id, LMS.getBookById_fst_iff L id bookOut⟩, ?_, ?_⟩
  · cases oid with
    | none => simp [LibraryManagement.isIdDuplicate, LibraryManagement.findBookById]
    | some s =>
      by_cases hs : s = []
      · subst hs
        simp [LibraryManagement.isIdDuplicate, LibraryManagement.findBookById, strlen]
      · rw [LibraryManagement.isIdDuplicate_some L hs, LibraryManagement.findBookById_some L hs]
        exact LMS.isIdDuplicate_iff_find L s
  · unfold LibraryManagement.getBookById
    by_cases h : LibraryManagement.findBookById L oid = -1
    · simp [h]
    · simp [h]

/-! ### Read then update -/

theorem set_eq_self {l : List Book} {k : Nat} {r : Book} (h : l[k]? = some r) :
    l.set k r = l := by
  apply List.ext_getElem?
  intro j
  rw [List.getElem?_set]
  by_cases hj : k = j
  · subst hj
    rw [if_pos rfl, h]
    have hlt : k < l.length := by
      rcases Nat.lt_or_ge k l.length with hh | hh
      · exact hh
      · rw [List.getElem?_eq_none hh] at h; cases h
    rw [if_pos hlt]
  · rw [if_neg hj]

theorem LMS.editBook_eq_found {L : Library} (h : L.WF) {id : CStr} {k : Nat} {r : Book}
    (p : Book) (hf : LMS.findBookById L id = (k : Int)) (hk : k < L.count.toNat)
    (hb : L.books[k]? = some r) :
    LMS.editBook L id p =
      (true, { L with
        books := L.books.set k (LMS.setId p (some (strncpy r.id (MAX_ID_LENGTH - 1)))).2 }) := by
  obtain ⟨n, hn, hl, hnat⟩ := h.count_nat
  have hkl : k < L.books.length := by omega
  unfold LMS.editBook
  simp only [hf]
  rw [if_pos (by omega)]
  simp only [Int.toNat_ofNat, List.set_set, getD_of_getElem? hb, Book.getId]
  have : (L.books.set k p).getD k default = p := by
    apply getD_of_getElem?
    rw [List.getElem?_set, if_pos rfl, if_pos hkl]
  rw [this]

theorem LMS.setId_own_id (r : Book) (h : r.id.length ≤ MAX_ID_LENGTH - 1) :
    (LMS.setId r (some (strncpy r.id (MAX_ID_LENGTH - 1)))).2 = r := by
  have e : strncpy r.id (MAX_ID_LENGTH - 1) = r.id := List.take_of_length_le h
  rw [e, LMS.setId_some]
  have e2 : List.take 19 r.id = r.id := List.take_of_length_le h
  split
  · rw [e2]
  · rfl

theorem LMS.edit_with_read {L : Library} (h : L.WF)
    (hfit : ∀ r ∈ L.stored, r.getId.length ≤ MAX_ID_LENGTH - 1) (id : CStr) (bookOut : Book)
    (hs : (LMS.getBookById L id bookOut).1 = true) :
    LMS.editBook L id (LMS.getBookById L id bookOut).2 = (true, L) := by
  have hne : LMS.findBookById L id ≠ -1 := (LMS.getBookById_fst_iff L id bookOut).2 hs
  obtain ⟨k, r, hf, hk, hb, hst, _, _, _⟩ := LMS.findBookById_found h hne
  rw [LMS.getBookById_of_find bookOut hf hb]
  rw [LMS.editBook_eq_found h r hf hk hb,
    LMS.setId_own_id r (hfit r (List.getElem?_mem hst)), set_eq_self hb]

theorem LMS.edit_twice {L : Library} (h : L.IdsOk) (id : CStr) (p : Book) :
    LMS.editBook (LMS.editBook L id p).2 id p = LMS.editBook L id p := by
  rcases LMS.findBookById_cases h.1 id with ⟨h1, _⟩ | ⟨k, r, h1, h2, h3, h4, h5, _⟩
  · rw [LMS.editBook_of_not_found p h1, LMS.editBook_of_not_found p h1]
  · have hm : id ∈ L.ids := (L.mem_ids_iff id).2 ⟨r, List.getElem?_mem h4, h5⟩
    obtain ⟨g1, g2, g3⟩ := h.2.1 id hm
    have hkl : k < L.books.length := by
      rcases Nat.lt_or_ge k L.books.length with hh | hh
      · exact hh
      · rw [List.getElem?_eq_none hh] at h3; cases h3
    have e1 : LMS.editBook L id p =
        (true, { L with books := L.books.set k { p with id := id } }) := by
      rw [LMS.editBook_eq_found h.1 p h1 h2 h3, h5, LMS.setId_of_good p g1 g2 g3]
    obtain ⟨_, k2, _, _, _, f3, f4, _, _, _⟩ := LMS.editBook_spec h hm p p
    have hkk : k2 = k := by
      rw [h1] at f3
      exact_mod_cast f3.symm
    subst hkk
    obtain ⟨_, _, _, _, hwf⟩ := LMS.editBook_of_find h.1 p h1 h2 h3
    rw [e1] at f4 hwf ⊢
    have hb2 : ({ L with books := L.books.set k2 { p with id := id } } : Library).books[k2]? =
        some { p with id := id } := by
      show (L.books.set k2 { p with id := id })[k2]? = some { p with id := id }
      rw [List.getElem?_set, if_pos rfl, if_pos hkl]
    rw [LMS.editBook_eq_found hwf p f4 h2 hb2]
    simp only [LMS.setId_of_good p g1 g2 g3, List.set_set]

theorem Library.IdsOk.fits {L : Library} (h : L.IdsOk) :
    ∀ r ∈ L.stored, r.getId.length ≤ MAX_ID_LENGTH - 1 := by
  intro r hr
  exact (h.2.1 r.getId (List.mem_map.2 ⟨r, hr, rfl⟩)).2.2

/-- C29: in both variants, on every catalog the public methods produce, for every id for
which `getBookById(id)` succeeds with result `r`, `editBook(id, r)` returns true and leaves
the `Library` object exactly as it was (same count, same records in the same order); and
`editBook(id, p)` applied twice in a row returns the same result and leaves the same object
as applying it once. -/
theorem C29_read_update_identity (L : Library) (id : CStr) (p bookOut : Book) :
    (LMS.Reachable L →
      ((LMS.getBookById L id bookOut).1 = true →
        LMS.editBook L id (LMS.getBookById L id bookOut).2 = (true, L)) ∧
      LMS.editBook (LMS.editBook L id p).2 id p = LMS.editBook L id p) ∧
    (LibraryManagement.Reachable L →
      ((LibraryManagement.getBookById L (some id) bookOut).1 = true →
        LibraryManagement.editBook L (some id)
          (LibraryManagement.getBookById L (some id) bookOut).2 = (true, L)) ∧
      LibraryManagement.editBook (LibraryManagement.editBook L (some id) p).2 (some id) p =
        LibraryManagement.editBook L (some id) p) := by
  constructor
  · intro hr
    exact ⟨LMS.edit_with_read hr.idsOk.1 hr.idsOk.fits id bookOut,
      LMS.edit_twice hr.idsOk id p⟩
  · intro hr
    constructor
    · intro hs
      have hne : id ≠ [] := by
        intro hh
        subst hh
        rw [LibraryManagement.getBookById_absent bookOut
          (LibraryManagement.findBookById_empty L)] at hs
        cases hs
      rw [LibraryManagement.getBookById_some L hne] at hs ⊢
      rw [LibraryManagement.editBook_some L hne]
      exact LMS.edit_with_read hr.ids_ok.1 hr.ids_ok.fits id bookOut hs
    · by_cases hne : id = []
      · subst hne
        rw [LibraryManagement.editBook_absent p (LibraryManagement.findBookById_empty L),
          LibraryManagement.editBook_absent p (LibraryManagement.findBookById_empty L)]
      · rw [LibraryManagement.editBook_some L hne, LibraryManagement.editBook_some _ hne]
        exact LMS.edit_twice hr.ids_ok id p

theorem C29_read_update_identity_witness :
    (LMS.Reachable Sample.reachAB ∧ LibraryManagement.Reachable Sample.reachAB ∧
      (LMS.getBookById Sample.reachAB ['B'] Book.new).1 = true ∧
      (LibraryManagement.getBookById Sample.reachAB (some ['B']) Book.new).1 = true) ∧
    LMS.editBook Sample.reachAB ['B'] (LMS.getBookById Sample.reachAB ['B'] Book.new).2 =
      (true, Sample.reachAB) ∧
    LMS.editBook (LMS.editBook Sample.reachAB ['B'] Sample.payload).2 ['B'] Sample.payload =
      LMS.editBook Sample.reachAB ['B'] Sample.payload ∧
    LibraryManagement.editBook Sample.reachAB (some ['B'])
      (LibraryManagement.getBookById Sample.reachAB (some ['B']) Book.new).2 =
      (true, Sample.reachAB) ∧
    LibraryManagement.editBook
      (LibraryManagement.editBook Sample.reachAB (some ['B']) Sample.payload).2 (some ['B'])
      Sample.payload = LibraryManagement.editBook Sample.reachAB (some ['B']) Sample.payload ∧
    (LMS.editBook Sample.reachAB ['B'] Sample.payload).2.stored =
      [Sample.builtA, { Sample.payload with id := ['B'] }] :=
  have t := C29_read_update_identity Sample.reachAB ['B'] Sample.payload Book.new
  ⟨⟨Sample.reachAB_LMS, Sample.reachAB_LM, by decide, by decide⟩,
    (t.1 Sample.reachAB_LMS).1 (by decide), (t.1 Sample.reachAB_LMS).2,
    (t.2 Sample.reachAB_LM).1 (by decide), (t.2 Sample.reachAB_LM).2, by decide⟩
